import Mathlib

/-!
# GLCD2USB: SED1520 dual-controller display driver

A shallow embedding of `sed1520/sed1520.c` (with `sed1520.h` and
`sed1520conf.h`), for the build without `BUSYCHECK`.  The two hardware
variants of the source (`#ifdef HAS_CS_LINES`) are selected by the Boolean
`hasCS`.

The AVR registers the driver touches are fields of `State`; 8-bit values are
natural numbers, reduced modulo 256 wherever the C code stores into an
`unsigned char`.  Every write to the control port goes through
`writeControl`, which also plays the part of the display hardware: a
controller takes part in a bus cycle when its enable input rises.  The delays
(`asm("nop")`, `_delay_ms`) have no counterpart.

The development has three layers.  The driver functions are embedded over the
ports.  A second copy of them (`Abs`) runs over bus cycles instead of port
writes; on an idle bus the embedded functions of both hardware variants follow
it step by step (`sim_...`), and `glcdInit` makes the bus idle from any state
(`glcdInit_idle`).  What the functions do to the cursor and which functions
they enter holds from every state and is proved on the embedding directly
(`steps_...`, `cursor_...`).  The properties of the specification come last.
-/

namespace GLCD

/-! ## Constants of `sed1520.h` -/

@[simp] def DISPLAY_ON : Nat := 0xAF
@[simp] def DISPLAY_START_LINE : Nat := 0xC0
@[simp] def SET_PAGE_ADDRESS : Nat := 0xB8
@[simp] def SET_COLUMN_ADDRESS : Nat := 0x00
@[simp] def RESET : Nat := 0xE2
@[simp] def CTRL1 : Nat := 0x01
@[simp] def CTRL2 : Nat := 0x02
@[simp] def GLCD_XPIXELS : Nat := 122
@[simp] def GLCD_YPIXELS : Nat := 32

/-! ## Pin masks of `sed1520conf.h` -/

@[simp] def SED1520_A0 : Nat := 1 <<< 7
@[simp] def SED1520_RW : Nat := 1 <<< 6
@[simp] def SED1520_RES : Nat := 1 <<< 0
/-- Chip select of the first controller (`HAS_CS_LINES` only). -/
@[simp] def SED1520_CS1 : Nat := 1 <<< 4
/-- Chip select of the second controller (`HAS_CS_LINES` only). -/
@[simp] def SED1520_CS2 : Nat := 1 <<< 3
/-- Shared enable line (`HAS_CS_LINES` only). -/
@[simp] def SED1520_E : Nat := 1 <<< 5
/-- Enable line of the first controller (without `HAS_CS_LINES`). -/
@[simp] def SED1520_E1 : Nat := 1 <<< 4
/-- Enable line of the second controller (without `HAS_CS_LINES`). -/
@[simp] def SED1520_E2 : Nat := 1 <<< 3

/-! ## The display hardware -/

/-- The two controller chips: `left` is the one reached through `CTRL1`
(E1 or CS1), `right` the one reached through `CTRL2` (E2 or CS2). -/
inductive Ctrl where
  | left
  | right
deriving DecidableEq, Repr

/-- One SED1520 as the driver sees it: the column and page registers, the
display memory (page, then column), the output latch that a data read
presents on the bus, and the status byte. -/
structure Controller where
  column : Nat
  page : Nat
  mem : Nat → Nat → Nat
  latch : Nat
  status : Nat

/-- Memory with one byte replaced. -/
def storeByte (m : Nat → Nat → Nat) (p c v : Nat) : Nat → Nat → Nat :=
  fun p2 c2 => if p2 = p ∧ c2 = c then v else m p2 c2

/-- A bus cycle seen by one controller, given the levels of address select
(`a0`) and read/write (`rw`, high is read) and the byte on the data bus.
Result: the controller afterwards and the byte it drives onto the bus, if any.

* command write (`a0` low, write): a byte below `0x80` loads the column
  register, a byte `0xB8 .. 0xBB` loads the page register with its two low
  bits, any other command leaves registers and memory alone;
* data write (`a0` high, write): the byte is stored at (page, column) and the
  column register is incremented;
* data read (`a0` high, read): the latch is driven onto the bus and then
  reloaded from (page, column), so that the first read after an address
  change yields the previously addressed byte and the second the fresh one;
* status read (`a0` low, read): the status byte is driven onto the bus. -/
def Controller.cycle (k : Controller) (a0 rw : Bool) (data : Nat) :
    Controller × Option Nat :=
  match a0, rw with
  | false, false =>
    if data < 0x80 then ({ k with column := data }, none)
    else if 0xB8 ≤ data ∧ data ≤ 0xBB then ({ k with page := data - 0xB8 }, none)
    else (k, none)
  | true, false =>
    ({ k with mem := storeByte k.mem k.page k.column data, column := k.column + 1 }, none)
  | true, true =>
    ({ k with latch := k.mem k.page k.column }, some k.latch)
  | false, true => (k, some k.status)

/-- What a controller is handed in one bus cycle: the levels of address
select and read/write, and the byte driven by the microcontroller. -/
structure Cycle where
  ctrl : Ctrl
  a0 : Bool
  rw : Bool
  data : Nat
deriving DecidableEq, Repr

/-- Entries into the driver's functions, with the arguments as received
(already converted to `unsigned char`). -/
inductive Call where
  | init
  | commandWrite (commandToWrite controller : Nat)
  | dataWrite (dataToWrite : Nat)
  | dataRead
  | setAddress (x p : Nat)
  | clearScreen
  | busyWait (statusbit controller : Nat)
deriving DecidableEq, Repr

/-- What is recorded while the driver runs: function entries, every value
written to the control port (with the data port and data direction register
at that moment), and every bus cycle a controller takes part in. -/
inductive Event where
  | call (c : Call)
  | port (control dataPort dataDDR : Nat)
  | cycle (c : Cycle)
deriving DecidableEq, Repr

/-- The machine: the AVR registers used by the driver, the driver's two
globals, the two controllers, the level last driven onto the data pins by a
controller, and the record of events. -/
structure State where
  control : Nat
  controlDDR : Nat
  dataPort : Nat
  dataDDR : Nat
  lcd_x : Nat
  lcd_page : Nat
  left : Controller
  right : Controller
  busIn : Nat
  trace : List Event

/-- The controller chip named by `who`. -/
def State.ctrl (s : State) : Ctrl → Controller
  | .left => s.left
  | .right => s.right

/-- The byte the microcontroller drives onto the data bus: the port latch on
the pins configured as outputs. -/
def driven (s : State) : Nat :=
  s.dataPort &&& s.dataDDR

/-- The controller `who` takes part in a bus cycle: address select is bit 7
and read/write bit 6 of the control port value `v`. -/
def busCycle (who : Ctrl) (v : Nat) (s : State) : State :=
  let a0 := v.testBit 7
  let rw := v.testBit 6
  let ev := Event.cycle ⟨who, a0, rw, driven s⟩
  match who with
  | .left =>
    let r := s.left.cycle a0 rw (driven s)
    { s with left := r.1, busIn := r.2.getD s.busIn, trace := s.trace ++ [ev] }
  | .right =>
    let r := s.right.cycle a0 rw (driven s)
    { s with right := r.1, busIn := r.2.getD s.busIn, trace := s.trace ++ [ev] }

/-- Does the write of `v` over the old control port value `old` start a bus
cycle on controller `who`?  With chip selects: the shared enable (bit 5) rises
while the controller's chip select (bit 4 or 3) is low.  With two enables: the
controller's own enable (bit 4 or 3) rises. -/
def selected (hasCS : Bool) (who : Ctrl) (old v : Nat) : Bool :=
  match hasCS, who with
  | true, .left => !old.testBit 5 && v.testBit 5 && !v.testBit 4
  | true, .right => !old.testBit 5 && v.testBit 5 && !v.testBit 3
  | false, .left => !old.testBit 4 && v.testBit 4
  | false, .right => !old.testBit 3 && v.testBit 3

/-- A store of `v` into `SED1520_CONTROL_PORT`, and the display's reaction. -/
def writeControl (hasCS : Bool) (v : Nat) (s : State) : State :=
  let old := s.control
  let s := { s with control := v, trace := s.trace ++ [Event.port v s.dataPort s.dataDDR] }
  let s := if selected hasCS .left old v then busCycle .left v s else s
  if selected hasCS .right old v then busCycle .right v s else s

/-- The C statement `SED1520_CONTROL_PORT |= mask`. -/
def ctlSet (hasCS : Bool) (mask : Nat) (s : State) : State :=
  writeControl hasCS (s.control ||| mask) s

/-- The C statement `SED1520_CONTROL_PORT &= ~mask` on the 8-bit port. -/
def ctlClr (hasCS : Bool) (mask : Nat) (s : State) : State :=
  writeControl hasCS (s.control &&& (0xFF - mask)) s

/-- The C statement `SED1520_DATA_PORT = v`. -/
def dataPortWrite (v : Nat) (s : State) : State :=
  { s with dataPort := v }

/-- The C statement `SED1520_DATA_DDR = v`. -/
def dataDDRWrite (v : Nat) (s : State) : State :=
  { s with dataDDR := v }

/-- The value of `SED1520_DATA_PIN`: with the data direction register at
`0x00` the pins carry what the display drives; otherwise (the driver only
ever uses `0xFF`) they read back the port latch. -/
def dataPin (s : State) : Nat :=
  if s.dataDDR = 0x00 then s.busIn else s.dataPort

/-- Append an event to the record. -/
def State.log (s : State) (e : Event) : State :=
  { s with trace := s.trace ++ [e] }

/-! ## The driver (`sed1520.c`, without `BUSYCHECK`) -/

/-- Embedding of `glcdCommandWrite`. -/
def glcdCommandWrite (hasCS : Bool) (commandToWrite controller : Nat) (s : State) : State :=
  let commandToWrite := commandToWrite % 256
  let controller := controller % 256
  let s := s.log (.call (.commandWrite commandToWrite controller))
  let s := ctlClr hasCS SED1520_A0 s
  let s := ctlClr hasCS SED1520_RW s
  let s := dataPortWrite commandToWrite s
  if hasCS then
    let s := if controller &&& CTRL1 ≠ 0 then ctlClr hasCS SED1520_CS1 s else s
    let s := if controller &&& CTRL2 ≠ 0 then ctlClr hasCS SED1520_CS2 s else s
    let s := ctlSet hasCS SED1520_E s
    let s := ctlClr hasCS SED1520_E s
    ctlSet hasCS (SED1520_CS1 ||| SED1520_CS2) s
  else
    let s := if controller &&& CTRL1 ≠ 0 then
        ctlClr hasCS SED1520_E1 (ctlSet hasCS SED1520_E1 s)
      else s
    if controller &&& CTRL2 ≠ 0 then
      ctlClr hasCS SED1520_E2 (ctlSet hasCS SED1520_E2 s)
    else s

/-- Embedding of `glcdSetAddress`. -/
def glcdSetAddress (hasCS : Bool) (x p : Nat) (s : State) : State :=
  let x := x % 256
  let p := p % 256
  let s := s.log (.call (.setAddress x p))
  let s := { s with lcd_x := x, lcd_page := p }
  if x < GLCD_XPIXELS / 2 then
    let s := glcdCommandWrite hasCS (SET_COLUMN_ADDRESS ||| s.lcd_x) CTRL1 s
    let s := glcdCommandWrite hasCS (SET_COLUMN_ADDRESS ||| 0) CTRL2 s
    glcdCommandWrite hasCS (SET_PAGE_ADDRESS ||| s.lcd_page) (CTRL1 + CTRL2) s
  else
    let s := glcdCommandWrite hasCS (SET_COLUMN_ADDRESS ||| (s.lcd_x - GLCD_XPIXELS / 2)) CTRL2 s
    glcdCommandWrite hasCS (SET_PAGE_ADDRESS ||| s.lcd_page) CTRL2 s

/-- The tail shared by `glcdDataWrite` and `glcdDataRead`: `lcd_x++` on an
`unsigned char`, then the page wrap. -/
def advance (hasCS : Bool) (s : State) : State :=
  let s := { s with lcd_x := (s.lcd_x + 1) % 256 }
  if s.lcd_x ≥ GLCD_XPIXELS then glcdSetAddress hasCS 0 (s.lcd_page + 1) s else s

/-- Embedding of `glcdDataWrite`. -/
def glcdDataWrite (hasCS : Bool) (dataToWrite : Nat) (s : State) : State :=
  let dataToWrite := dataToWrite % 256
  let s := s.log (.call (.dataWrite dataToWrite))
  let s := ctlSet hasCS SED1520_A0 s
  let s := ctlClr hasCS SED1520_RW s
  let s := dataPortWrite dataToWrite s
  let s :=
    if hasCS then
      let s := if s.lcd_x < GLCD_XPIXELS / 2 then ctlClr hasCS SED1520_CS1 s
        else ctlClr hasCS SED1520_CS2 s
      let s := ctlSet hasCS SED1520_E s
      let s := ctlClr hasCS SED1520_E s
      ctlSet hasCS (SED1520_CS1 ||| SED1520_CS2) s
    else
      if s.lcd_x < GLCD_XPIXELS / 2 then
        ctlClr hasCS SED1520_E1 (ctlSet hasCS SED1520_E1 s)
      else
        ctlClr hasCS SED1520_E2 (ctlSet hasCS SED1520_E2 s)
  advance hasCS s

/-- Embedding of `glcdDataRead`: the state afterwards and the byte returned. -/
def glcdDataRead (hasCS : Bool) (s : State) : State × Nat :=
  let s := s.log (.call .dataRead)
  let s := ctlSet hasCS SED1520_A0 s
  let s := ctlSet hasCS SED1520_RW s
  let s := dataDDRWrite 0x00 s
  let s := dataPortWrite 0xFF s
  let r : State × Nat :=
    if hasCS then
      let s := if s.lcd_x < GLCD_XPIXELS / 2 then ctlClr hasCS SED1520_CS1 s
        else ctlClr hasCS SED1520_CS2 s
      let s := ctlSet hasCS SED1520_E s
      let s := ctlClr hasCS SED1520_E s
      let s := ctlSet hasCS SED1520_E s
      let tmp := dataPin s
      let s := ctlClr hasCS SED1520_E s
      (ctlSet hasCS (SED1520_CS1 ||| SED1520_CS2) s, tmp)
    else
      if s.lcd_x < GLCD_XPIXELS / 2 then
        let s := ctlSet hasCS SED1520_E1 s
        let s := ctlClr hasCS SED1520_E1 s
        let s := ctlSet hasCS SED1520_E1 s
        let tmp := dataPin s
        (ctlClr hasCS SED1520_E1 s, tmp)
      else
        let s := ctlSet hasCS SED1520_E2 s
        let s := ctlClr hasCS SED1520_E2 s
        let s := ctlSet hasCS SED1520_E2 s
        let tmp := dataPin s
        (ctlClr hasCS SED1520_E2 s, tmp)
  let s := dataDDRWrite 0xFF r.1
  (advance hasCS s, r.2)

/-- A C loop `for (i = 0; i < n; i++) body(i)`. -/
def forLoop (n : Nat) (body : Nat → State → State) (s : State) : State :=
  (List.range n).foldl (fun s i => body i s) s

/-- Embedding of `glcdClearScreen`. -/
def glcdClearScreen (hasCS : Bool) (s : State) : State :=
  let s := s.log (.call .clearScreen)
  let s := forLoop (GLCD_YPIXELS / 8) (fun j s =>
    let s := glcdSetAddress hasCS 0 j s
    forLoop GLCD_XPIXELS (fun _ s => glcdDataWrite hasCS 0 s) s) s
  glcdSetAddress hasCS 0 0 s

/-- Embedding of `glcdInitHW`; the delays are not modelled. -/
def glcdInitHW (hasCS : Bool) (s : State) : State :=
  let s := dataDDRWrite 0xFF s
  let s :=
    if hasCS then
      { s with controlDDR := s.controlDDR |||
          (SED1520_CS1 ||| SED1520_CS2 ||| SED1520_E ||| SED1520_RW ||| SED1520_A0 ||| SED1520_RES) }
    else
      { s with controlDDR := s.controlDDR |||
          (SED1520_E1 ||| SED1520_E2 ||| SED1520_RW ||| SED1520_A0 ||| SED1520_RES) }
  let s := ctlSet hasCS SED1520_RES s
  let s := ctlClr hasCS SED1520_RES s
  ctlSet hasCS SED1520_RES s

/-- Embedding of `glcdInit`. -/
def glcdInit (hasCS : Bool) (s : State) : State :=
  let s := s.log (.call .init)
  let s := glcdInitHW hasCS s
  let s := glcdCommandWrite hasCS RESET (CTRL1 + CTRL2) s
  let s := glcdCommandWrite hasCS DISPLAY_ON (CTRL1 + CTRL2) s
  glcdCommandWrite hasCS (DISPLAY_START_LINE ||| 0) (CTRL1 + CTRL2) s

/-! ## Observations -/

/-- A controller with cleared registers and memory. -/
def Controller.blank : Controller :=
  { column := 0, page := 0, mem := fun _ _ => 0, latch := 0, status := 0 }

/-- The machine after power-up: all registers zero, nothing recorded. -/
def powerOn : State :=
  { control := 0, controlDDR := 0, dataPort := 0, dataDDR := 0, lcd_x := 0, lcd_page := 0,
    left := Controller.blank, right := Controller.blank, busIn := 0, trace := [] }

/-- The function entries among recorded events. -/
def calls (t : List Event) : List Call :=
  t.filterMap fun e => match e with
    | .call c => some c
    | _ => none

/-- The bus cycles among recorded events. -/
def cycles (t : List Event) : List Cycle :=
  t.filterMap fun e => match e with
    | .cycle c => some c
    | _ => none

/-- The events recorded on the way from `s` to `r`. -/
def issued (s r : State) : List Event :=
  r.trace.drop s.trace.length

/-- Recorded events without the raw port writes: function entries and bus
cycles, in order. -/
def obs (t : List Event) : List Event :=
  t.filter fun e => match e with
    | .port _ _ _ => false
    | _ => true

/-- The bus cycles with address select high (data transfers). -/
def dataCycles (t : List Event) : List Cycle :=
  (cycles t).filter fun c => c.a0

/-- Is this the entry of a `glcdSetAddress` call? -/
def Call.isSetAddress : Call → Bool
  | .setAddress _ _ => true
  | _ => false

/-- Is this the entry of a `glcdCommandWrite` call? -/
def Call.isCommandWrite : Call → Bool
  | .commandWrite _ _ => true
  | _ => false

/-- Is this the entry of a `glcdDataWrite` call? -/
def Call.isDataWrite : Call → Bool
  | .dataWrite _ => true
  | _ => false

/-- The bus at rest, as `glcdInit` and every driver function leave it: the
data direction register is `0xFF` and no controller is enabled (with chip
selects: E low, CS1 and CS2 high; with two enables: E1 and E2 low). -/
def Idle (hasCS : Bool) (s : State) : Prop :=
  s.dataDDR = 0xFF ∧
  if hasCS then
    s.control.testBit 5 = false ∧ s.control.testBit 4 = true ∧ s.control.testBit 3 = true
  else
    s.control.testBit 4 = false ∧ s.control.testBit 3 = false

/-- The Controller Router of the specification (section 4.3): the controller
owning a logical column, and the column's position on that chip. -/
def Route (column : Nat) : Ctrl × Nat :=
  if column < GLCD_XPIXELS / 2 then (.left, column) else (.right, column - GLCD_XPIXELS / 2)

/-- The display byte at a page and logical column. -/
def byteAt (s : State) (page column : Nat) : Nat :=
  (s.ctrl (Route column).1).mem page (Route column).2

/-- Successive `glcdDataWrite` calls, one per byte of the list. -/
def writeAll (hasCS : Bool) (bs : List Nat) (s : State) : State :=
  bs.foldl (fun s b => glcdDataWrite hasCS b s) s

/-- Successive `glcdDataRead` calls: the final state and the bytes returned,
in order. -/
def readMany (hasCS : Bool) : Nat → State → State × List Nat
  | 0, s => (s, [])
  | n + 1, s =>
    let r := glcdDataRead hasCS s
    let rest := readMany hasCS n r.1
    (rest.1, r.2 :: rest.2)

/-- The function entries recorded by one `glcdSetAddress x p` (arguments
already 8-bit). -/
def setAddressCalls (x p : Nat) : List Call :=
  if x < GLCD_XPIXELS / 2 then
    [.setAddress x p, .commandWrite x CTRL1, .commandWrite 0 CTRL2,
      .commandWrite (SET_PAGE_ADDRESS ||| p) (CTRL1 + CTRL2)]
  else
    [.setAddress x p, .commandWrite (x - GLCD_XPIXELS / 2) CTRL2,
      .commandWrite (SET_PAGE_ADDRESS ||| p) CTRL2]

/-! ## The driver over an abstract bus

The same functions once more, with the port writes of each transaction
replaced by the bus cycles they cause on an idle bus.  `view` forgets the
port registers; the lemmas below show that on an idle bus both hardware
variants follow this machine step by step. -/

/-- The part of the machine that does not depend on the hardware variant. -/
structure View where
  lcd_x : Nat
  lcd_page : Nat
  left : Controller
  right : Controller
  busIn : Nat
  seen : List Event

/-- Forget the port registers and the raw port writes. -/
def view (s : State) : View :=
  { lcd_x := s.lcd_x, lcd_page := s.lcd_page, left := s.left, right := s.right,
    busIn := s.busIn, seen := obs s.trace }

/-- The controller chip named by `who`. -/
def View.ctrl (v : View) : Ctrl → Controller
  | .left => v.left
  | .right => v.right

/-- The display byte at a page and logical column. -/
def View.byteAt (v : View) (page column : Nat) : Nat :=
  (v.ctrl (Route column).1).mem page (Route column).2

namespace Abs

/-- One enable pulse delivered to the controller `who`. -/
def pulse (who : Ctrl) (a0 rw : Bool) (data : Nat) (v : View) : View :=
  let ev := Event.cycle ⟨who, a0, rw, data⟩
  match who with
  | .left =>
    let r := v.left.cycle a0 rw data
    { v with left := r.1, busIn := r.2.getD v.busIn, seen := v.seen ++ [ev] }
  | .right =>
    let r := v.right.cycle a0 rw data
    { v with right := r.1, busIn := r.2.getD v.busIn, seen := v.seen ++ [ev] }

/-- Bus-level `glcdCommandWrite`. -/
def commandWrite (commandToWrite controller : Nat) (v : View) : View :=
  let commandToWrite := commandToWrite % 256
  let controller := controller % 256
  let v := { v with seen := v.seen ++ [.call (.commandWrite commandToWrite controller)] }
  let v := if controller &&& CTRL1 ≠ 0 then pulse .left false false commandToWrite v else v
  if controller &&& CTRL2 ≠ 0 then pulse .right false false commandToWrite v else v

/-- Bus-level `glcdSetAddress`. -/
def setAddress (x p : Nat) (v : View) : View :=
  let x := x % 256
  let p := p % 256
  let v := { v with seen := v.seen ++ [Event.call (.setAddress x p)] }
  let v := { v with lcd_x := x, lcd_page := p }
  if x < GLCD_XPIXELS / 2 then
    let v := commandWrite (SET_COLUMN_ADDRESS ||| v.lcd_x) CTRL1 v
    let v := commandWrite (SET_COLUMN_ADDRESS ||| 0) CTRL2 v
    commandWrite (SET_PAGE_ADDRESS ||| v.lcd_page) (CTRL1 + CTRL2) v
  else
    let v := commandWrite (SET_COLUMN_ADDRESS ||| (v.lcd_x - GLCD_XPIXELS / 2)) CTRL2 v
    commandWrite (SET_PAGE_ADDRESS ||| v.lcd_page) CTRL2 v

/-- Bus-level `advance`. -/
def advance (v : View) : View :=
  let v := { v with lcd_x := (v.lcd_x + 1) % 256 }
  if v.lcd_x ≥ GLCD_XPIXELS then setAddress 0 (v.lcd_page + 1) v else v

/-- The controller a data transfer at the cursor goes to. -/
def owner (v : View) : Ctrl :=
  if v.lcd_x < GLCD_XPIXELS / 2 then .left else .right

/-- Bus-level `glcdDataWrite`. -/
def dataWrite (dataToWrite : Nat) (v : View) : View :=
  let dataToWrite := dataToWrite % 256
  let v := { v with seen := v.seen ++ [Event.call (.dataWrite dataToWrite)] }
  let v := pulse (owner v) true false dataToWrite v
  advance v

/-- Bus-level `glcdDataRead`. -/
def dataRead (v : View) : View × Nat :=
  let v := { v with seen := v.seen ++ [Event.call .dataRead] }
  let v := pulse (owner v) true true 0 v
  let v := pulse (owner v) true true 0 v
  (advance v, v.busIn)

/-- A loop over views. -/
def forLoop (n : Nat) (body : Nat → View → View) (v : View) : View :=
  (List.range n).foldl (fun v i => body i v) v

/-- Successive bus-level data writes, one per byte of the list. -/
def writeAll (bs : List Nat) (v : View) : View :=
  bs.foldl (fun v b => dataWrite b v) v

/-- Successive bus-level data reads: the final view and the bytes returned. -/
def readMany : Nat → View → View × List Nat
  | 0, v => (v, [])
  | n + 1, v =>
    let r := dataRead v
    let rest := readMany n r.1
    (rest.1, r.2 :: rest.2)

/-- One pass of the outer loop of the bus-level `clearScreen`. -/
def clearRow (j : Nat) (v : View) : View :=
  forLoop GLCD_XPIXELS (fun _ v => dataWrite 0 v) (setAddress 0 j v)

/-- Bus-level `glcdClearScreen`. -/
def clearScreen (v : View) : View :=
  let v := { v with seen := v.seen ++ [Event.call .clearScreen] }
  let v := forLoop (GLCD_YPIXELS / 8) (fun j v =>
    let v := setAddress 0 j v
    forLoop GLCD_XPIXELS (fun _ v => dataWrite 0 v) v) v
  setAddress 0 0 v

end Abs

/-! ## Relations used in the proofs -/

/-- The state `s` is at rest and `v` is what is left of it once the ports are
forgotten. -/
def Sim (hasCS : Bool) (s : State) (v : View) : Prop :=
  Idle hasCS s ∧ view s = v

/-- From `s` to `r` the record only grew, and the function entries among the
new events are `cs`. -/
def Steps (s r : State) (cs : List Call) : Prop :=
  (∃ l, r.trace = s.trace ++ l) ∧ calls r.trace = calls s.trace ++ cs

/-- The cursor `(lcd_x, lcd_page)` of a state. -/
def cursor (s : State) : Nat × Nat :=
  (s.lcd_x, s.lcd_page)

/-- The cursor after the tail of `glcdDataWrite` and `glcdDataRead`, from the
cursor before. -/
def nextCursor (x p : Nat) : Nat × Nat :=
  if (x + 1) % 256 ≥ GLCD_XPIXELS then (0, (p + 1) % 256) else ((x + 1) % 256, p)

/-- The function entries recorded by that tail. -/
def advanceCalls (x p : Nat) : List Call :=
  if (x + 1) % 256 ≥ GLCD_XPIXELS then setAddressCalls 0 ((p + 1) % 256) else []

/-- The controllers' registers agree with the cursor, on page `p`: in the
left half both chips are positioned (the right one at its column 0), in the
right half the right chip is. -/
def Synced (v : View) (p : Nat) : Prop :=
  if v.lcd_x < 61 then
    v.left.column = v.lcd_x ∧ v.left.page = p ∧ v.right.column = 0 ∧ v.right.page = p
  else
    v.right.column = v.lcd_x - 61 ∧ v.right.page = p

/-- One pass of the outer loop of `glcdClearScreen`. -/
def clearRow (hasCS : Bool) (j : Nat) (s : State) : State :=
  forLoop GLCD_XPIXELS (fun _ s => glcdDataWrite hasCS 0 s) (glcdSetAddress hasCS 0 j s)

/-- The function entries recorded by one pass of that loop, for page `j`. -/
def rowCalls (j : Nat) : List Call :=
  setAddressCalls 0 j ++ (List.replicate 121 (Call.dataWrite 0) ++
    Call.dataWrite 0 :: setAddressCalls 0 (j + 1))

/-- The function entries recorded by `glcdClearScreen`. -/
def clearCalls : List Call :=
  Call.clearScreen :: (rowCalls 0 ++ (rowCalls 1 ++ (rowCalls 2 ++ (rowCalls 3 ++
    setAddressCalls 0 0))))

/-- From the record `a` to the record `b`, exactly `n` data cycles were added,
all of them writes of the byte 0. -/
def Adds (a b : List Event) (n : Nat) : Prop :=
  ∃ L, dataCycles b = dataCycles a ++ L ∧ L.length = n ∧
    ∀ c ∈ L, c.a0 = true ∧ c.rw = false ∧ c.data = 0

/-- Both controllers' registers point into the displayed part of their
memory. -/
def RegsOK (v : View) : Prop :=
  v.left.page < 4 ∧ v.left.column < 61 ∧ v.right.page < 4 ∧ v.right.column < 61

/-- The displayed part of both controllers' memory is zero. -/
def Blank (v : View) : Prop :=
  ∀ q c, q < 4 → c < 61 → v.left.mem q c = 0 ∧ v.right.mem q c = 0

/-- The line that enables the left controller is at rest in this event: CS1
high with chip selects, E1 low with two enables (bit 4 of the control port
either way). -/
def leftLineIdle (hasCS : Bool) : Event → Prop
  | .port v _ _ => v.testBit 4 = hasCS
  | _ => True

/-- The state after `glcdInit` from power-up. -/
def afterInit (hasCS : Bool) : State :=
  glcdInit hasCS powerOn

/-- The machine at the moment `glcdDataRead` executes `tmp = SED1520_DATA_PIN`:
the statements of `glcdDataRead` up to the second raising of the enable. -/
def readSample (hasCS : Bool) (s : State) : State :=
  let s := s.log (.call .dataRead)
  let s := ctlSet hasCS SED1520_A0 s
  let s := ctlSet hasCS SED1520_RW s
  let s := dataDDRWrite 0x00 s
  let s := dataPortWrite 0xFF s
  if hasCS then
    let s := if s.lcd_x < GLCD_XPIXELS / 2 then ctlClr hasCS SED1520_CS1 s
      else ctlClr hasCS SED1520_CS2 s
    let s := ctlSet hasCS SED1520_E s
    let s := ctlClr hasCS SED1520_E s
    ctlSet hasCS SED1520_E s
  else
    if s.lcd_x < GLCD_XPIXELS / 2 then
      let s := ctlSet hasCS SED1520_E1 s
      let s := ctlClr hasCS SED1520_E1 s
      ctlSet hasCS SED1520_E1 s
    else
      let s := ctlSet hasCS SED1520_E2 s
      let s := ctlClr hasCS SED1520_E2 s
      ctlSet hasCS SED1520_E2 s

/-- The same state with other bytes in the controllers' output latches and on
the data pins. -/
def withStale (s : State) (l1 l2 b : Nat) : State :=
  { s with left := { s.left with latch := l1 }, right := { s.right with latch := l2 },
           busIn := b }

/-- Is the controller `who` enabled while the control port holds `v`?  With
chip selects: E high and the controller's chip select low; with two enables:
the controller's own enable high. -/
def enabled (hasCS : Bool) (who : Ctrl) (v : Nat) : Bool :=
  match hasCS, who with
  | true, .left => v.testBit 5 && !v.testBit 4
  | true, .right => v.testBit 5 && !v.testBit 3
  | false, .left => v.testBit 4
  | false, .right => v.testBit 3

/-- The controller other than `who`. -/
def Ctrl.other : Ctrl → Ctrl
  | .left => .right
  | .right => .left

/-- The levels seen at one write to the control port: address select (bit 7),
read/write (bit 6), bit 5 (the shared enable E with chip selects), bit 4 (E1,
or CS1 with chip selects), bit 3 (E2, or CS2), and the byte in the data port
latch. -/
structure Lines where
  a0 : Bool
  rw : Bool
  e : Bool
  sel1 : Bool
  sel2 : Bool
  data : Nat
deriving DecidableEq, Repr

/-- The levels at every write to the control port among recorded events. -/
def portLines (t : List Event) : List Lines :=
  t.filterMap fun e => match e with
    | .port v d _ => some ⟨v.testBit 7, v.testBit 6, v.testBit 5, v.testBit 4, v.testBit 3, d⟩
    | _ => none

/-- The level of the reset line (bit 0) at every write to the control port
among recorded events. -/
def resetLevels (t : List Event) : List Bool :=
  t.filterMap fun e => match e with
    | .port v _ _ => some (v.testBit 0)
    | _ => none

/-- No enable input is high: E low with chip selects (whatever the chip
selects), E1 and E2 low with two enables.  This is the state of the port
after power-up. -/
def EnablesLow (hasCS : Bool) (s : State) : Prop :=
  if hasCS then s.control.testBit 5 = false
  else s.control.testBit 4 = false ∧ s.control.testBit 3 = false

/-- Bus-level `glcdInit`. -/
def Abs.init (v : View) : View :=
  let v := { v with seen := v.seen ++ [Event.call .init] }
  let v := Abs.commandWrite RESET (CTRL1 + CTRL2) v
  let v := Abs.commandWrite DISPLAY_ON (CTRL1 + CTRL2) v
  Abs.commandWrite (DISPLAY_START_LINE ||| 0) (CTRL1 + CTRL2) v

/-- One call of a public function of the driver (`sed1520.h`). -/
inductive Op where
  | init
  | commandWrite (commandToWrite controller : Nat)
  | dataWrite (dataToWrite : Nat)
  | dataRead
  | setAddress (x p : Nat)
  | clearScreen
  deriving DecidableEq

/-- The state after one call; the byte `glcdDataRead` returns is dropped. -/
def Op.run (hasCS : Bool) : Op → State → State
  | .init, s => glcdInit hasCS s
  | .commandWrite c t, s => glcdCommandWrite hasCS c t s
  | .dataWrite b, s => glcdDataWrite hasCS b s
  | .dataRead, s => (glcdDataRead hasCS s).1
  | .setAddress x p, s => glcdSetAddress hasCS x p s
  | .clearScreen, s => glcdClearScreen hasCS s

/-- A sequence of calls, in order. -/
def runOps (hasCS : Bool) (ops : List Op) (s : State) : State :=
  ops.foldl (fun s o => o.run hasCS s) s

/-- The calls that move the cursor with arguments on the display:
`glcdSetAddress x p` with `x < 122` and `p < 4`, `glcdDataWrite`,
`glcdDataRead` and `glcdClearScreen`. -/
def Op.addressing : Op → Prop
  | .setAddress x p => x < 122 ∧ p < 4
  | .dataWrite _ => True
  | .dataRead => True
  | .clearScreen => True
  | _ => False

/-- An addressing call that is not a write or read at the last column of the
last page. -/
def Op.inside (o : Op) (s : State) : Prop :=
  match o with
  | .setAddress x p => x < 122 ∧ p < 4
  | .dataWrite _ => ¬ (s.lcd_x = 121 ∧ s.lcd_page = 3)
  | .dataRead => ¬ (s.lcd_x = 121 ∧ s.lcd_page = 3)
  | .clearScreen => True
  | _ => False

/-- Every call of the sequence is `inside` in the state it is made in. -/
def Guarded (hasCS : Bool) : List Op → State → Prop
  | [], _ => True
  | o :: os, s => o.inside s ∧ Guarded hasCS os (o.run hasCS s)

/-- A recorded function entry that addresses the display with a page below
`n`: a `glcdSetAddress` with column below 122 and page below `n`, or a command
write whose byte is a column address below 61 or a page address
`0xB8 .. 0xB8 + n - 1`. -/
def Call.pageOK (n : Nat) : Call → Prop
  | .setAddress x p => x < 122 ∧ p < n
  | .commandWrite b _ => b < 61 ∨ (0xB8 ≤ b ∧ b < 0xB8 + n)
  | _ => True

/-- Bus-level counterpart of `Op.run`. -/
def Abs.run : Op → View → View
  | .init, v => Abs.init v
  | .commandWrite c t, v => Abs.commandWrite c t v
  | .dataWrite b, v => Abs.dataWrite b v
  | .dataRead, v => (Abs.dataRead v).1
  | .setAddress x p, v => Abs.setAddress x p v
  | .clearScreen, v => Abs.clearScreen v

/-- Bus-level counterpart of `runOps`. -/
def Abs.runOps (ops : List Op) (v : View) : View :=
  ops.foldl (fun v o => Abs.run o v) v

/-- The bus cycles delivered to the controller `who`, in order: address-select
level, read/write level and data byte of each. -/
def delivered (who : Ctrl) (t : List Event) : List (Bool × Bool × Nat) :=
  ((cycles t).filter fun c => c.ctrl = who).map fun c => (c.a0, c.rw, c.data)

/-! ## The driver with `BUSYCHECK`

The same functions compiled with `-DBUSYCHECK`: `glcdBusyWait` exists and is
called at the head of `glcdCommandWrite`, `glcdDataWrite` and `glcdDataRead`
and once in `glcdInit`.  Its loop has no bound in the source; here every wait
may make at most `fuel` passes and the result is `none` when they do not
suffice. -/

/-- Busy flag of the status byte (`sed1520.h`). -/
@[simp] def STATUS_BUSY : Nat := 0x80

/-- Reset flag of the status byte (`sed1520.h`). -/
@[simp] def STATUS_RESET : Nat := 0x10

/-- The statements of `glcdCommandWrite` after the `#ifdef BUSYCHECK` block. -/
def commandWriteBody (hasCS : Bool) (commandToWrite controller : Nat) (s : State) : State :=
  let s := ctlClr hasCS SED1520_A0 s
  let s := ctlClr hasCS SED1520_RW s
  let s := dataPortWrite commandToWrite s
  if hasCS then
    let s := if controller &&& CTRL1 ≠ 0 then ctlClr hasCS SED1520_CS1 s else s
    let s := if controller &&& CTRL2 ≠ 0 then ctlClr hasCS SED1520_CS2 s else s
    let s := ctlSet hasCS SED1520_E s
    let s := ctlClr hasCS SED1520_E s
    ctlSet hasCS (SED1520_CS1 ||| SED1520_CS2) s
  else
    let s := if controller &&& CTRL1 ≠ 0 then
        ctlClr hasCS SED1520_E1 (ctlSet hasCS SED1520_E1 s)
      else s
    if controller &&& CTRL2 ≠ 0 then
      ctlClr hasCS SED1520_E2 (ctlSet hasCS SED1520_E2 s)
    else s

/-- The statements of `glcdDataWrite` between the `#ifdef BUSYCHECK` block and
`lcd_x++`. -/
def dataWriteBody (hasCS : Bool) (dataToWrite : Nat) (s : State) : State :=
  let s := ctlSet hasCS SED1520_A0 s
  let s := ctlClr hasCS SED1520_RW s
  let s := dataPortWrite dataToWrite s
  if hasCS then
    let s := if s.lcd_x < GLCD_XPIXELS / 2 then ctlClr hasCS SED1520_CS1 s
      else ctlClr hasCS SED1520_CS2 s
    let s := ctlSet hasCS SED1520_E s
    let s := ctlClr hasCS SED1520_E s
    ctlSet hasCS (SED1520_CS1 ||| SED1520_CS2) s
  else
    if s.lcd_x < GLCD_XPIXELS / 2 then
      ctlClr hasCS SED1520_E1 (ctlSet hasCS SED1520_E1 s)
    else
      ctlClr hasCS SED1520_E2 (ctlSet hasCS SED1520_E2 s)

/-- The statements of `glcdDataRead` between the `#ifdef BUSYCHECK` block and
`lcd_x++`: the state afterwards and `tmp`. -/
def dataReadBody (hasCS : Bool) (s : State) : State × Nat :=
  let s := ctlSet hasCS SED1520_A0 s
  let s := ctlSet hasCS SED1520_RW s
  let s := dataDDRWrite 0x00 s
  let s := dataPortWrite 0xFF s
  let r : State × Nat :=
    if hasCS then
      let s := if s.lcd_x < GLCD_XPIXELS / 2 then ctlClr hasCS SED1520_CS1 s
        else ctlClr hasCS SED1520_CS2 s
      let s := ctlSet hasCS SED1520_E s
      let s := ctlClr hasCS SED1520_E s
      let s := ctlSet hasCS SED1520_E s
      let tmp := dataPin s
      let s := ctlClr hasCS SED1520_E s
      (ctlSet hasCS (SED1520_CS1 ||| SED1520_CS2) s, tmp)
    else
      if s.lcd_x < GLCD_XPIXELS / 2 then
        let s := ctlSet hasCS SED1520_E1 s
        let s := ctlClr hasCS SED1520_E1 s
        let s := ctlSet hasCS SED1520_E1 s
        let tmp := dataPin s
        (ctlClr hasCS SED1520_E1 s, tmp)
      else
        let s := ctlSet hasCS SED1520_E2 s
        let s := ctlClr hasCS SED1520_E2 s
        let s := ctlSet hasCS SED1520_E2 s
        let tmp := dataPin s
        (ctlClr hasCS SED1520_E2 s, tmp)
  (dataDDRWrite 0xFF r.1, r.2)

/-- The enable lines at rest: with chip selects E low and CS1, CS2 high, with
two enables E1 and E2 low. -/
def Resting (hasCS : Bool) (s : State) : Prop :=
  if hasCS then
    s.control.testBit 5 = false ∧ s.control.testBit 4 = true ∧ s.control.testBit 3 = true
  else
    s.control.testBit 4 = false ∧ s.control.testBit 3 = false

/-- Is this the entry of a `glcdBusyWait` call? -/
def Call.isBusyWait : Call → Bool
  | .busyWait _ _ => true
  | _ => false

/-- At most one of the bits `CTRL1`, `CTRL2` is set in `controller`. -/
def oneController (controller : Nat) : Prop :=
  controller &&& CTRL1 = 0 ∨ controller &&& CTRL2 = 0

namespace Busy

/-- One pass of the body of the `do ... while` loop of `glcdBusyWait`: the
state afterwards and `tmp`. -/
def poll (hasCS : Bool) (controller : Nat) (s : State) : State × Nat :=
  if hasCS then
    let s := if controller &&& CTRL1 ≠ 0 then ctlClr hasCS SED1520_CS1 s else s
    let s := if controller &&& CTRL2 ≠ 0 then ctlClr hasCS SED1520_CS2 s else s
    let s := ctlSet hasCS SED1520_E s
    let tmp := dataPin s
    let s := ctlClr hasCS SED1520_E s
    (ctlSet hasCS (SED1520_CS1 ||| SED1520_CS2) s, tmp)
  else
    if controller &&& CTRL1 ≠ 0 then
      let s := ctlSet hasCS SED1520_E1 s
      let tmp := dataPin s
      (ctlClr hasCS SED1520_E1 s, tmp)
    else
      let s := ctlSet hasCS SED1520_E2 s
      let tmp := dataPin s
      (ctlClr hasCS SED1520_E2 s, tmp)

/-- The loop `do ... while (tmp & statusbit)`, given up after `fuel` passes. -/
def pollLoop (hasCS : Bool) (statusbit controller : Nat) : Nat → State → Option State
  | 0, _ => none
  | fuel + 1, s =>
    let r := poll hasCS controller s
    if r.2 &&& statusbit ≠ 0 then pollLoop hasCS statusbit controller fuel r.1 else some r.1

/-- Embedding of `glcdBusyWait`. -/
def glcdBusyWait (hasCS : Bool) (fuel statusbit controller : Nat) (s : State) : Option State :=
  let statusbit := statusbit % 256
  let controller := controller % 256
  let s := s.log (.call (.busyWait statusbit controller))
  if controller = 0 then some s
  else
    let s := ctlClr hasCS SED1520_A0 s
    let s := ctlSet hasCS SED1520_RW s
    let s := dataDDRWrite 0x00 s
    let s := dataPortWrite 0xFF s
    (pollLoop hasCS statusbit controller fuel s).map (dataDDRWrite 0xFF)

/-- Embedding of `glcdCommandWrite` with `BUSYCHECK`. -/
def glcdCommandWrite (hasCS : Bool) (fuel commandToWrite controller : Nat) (s : State) :
    Option State :=
  let commandToWrite := commandToWrite % 256
  let controller := controller % 256
  let s := s.log (.call (.commandWrite commandToWrite controller))
  (glcdBusyWait hasCS fuel STATUS_BUSY (controller &&& CTRL1) s).bind fun s =>
  (glcdBusyWait hasCS fuel STATUS_BUSY (controller &&& CTRL2) s).bind fun s =>
  some (commandWriteBody hasCS commandToWrite controller s)

/-- Embedding of `glcdSetAddress` with `BUSYCHECK`. -/
def glcdSetAddress (hasCS : Bool) (fuel x p : Nat) (s : State) : Option State :=
  let x := x % 256
  let p := p % 256
  let s := s.log (.call (.setAddress x p))
  let s := { s with lcd_x := x, lcd_page := p }
  if x < GLCD_XPIXELS / 2 then
    (glcdCommandWrite hasCS fuel (SET_COLUMN_ADDRESS ||| s.lcd_x) CTRL1 s).bind fun s =>
    (glcdCommandWrite hasCS fuel (SET_COLUMN_ADDRESS ||| 0) CTRL2 s).bind fun s =>
    glcdCommandWrite hasCS fuel (SET_PAGE_ADDRESS ||| s.lcd_page) (CTRL1 + CTRL2) s
  else
    (glcdCommandWrite hasCS fuel (SET_COLUMN_ADDRESS ||| (s.lcd_x - GLCD_XPIXELS / 2)) CTRL2
      s).bind fun s =>
    glcdCommandWrite hasCS fuel (SET_PAGE_ADDRESS ||| s.lcd_page) CTRL2 s

/-- The tail of `glcdDataWrite` and `glcdDataRead` with `BUSYCHECK`. -/
def advance (hasCS : Bool) (fuel : Nat) (s : State) : Option State :=
  let s := { s with lcd_x := (s.lcd_x + 1) % 256 }
  if s.lcd_x ≥ GLCD_XPIXELS then glcdSetAddress hasCS fuel 0 (s.lcd_page + 1) s else some s

/-- Embedding of `glcdDataWrite` with `BUSYCHECK`. -/
def glcdDataWrite (hasCS : Bool) (fuel dataToWrite : Nat) (s : State) : Option State :=
  let dataToWrite := dataToWrite % 256
  let s := s.log (.call (.dataWrite dataToWrite))
  (glcdBusyWait hasCS fuel STATUS_BUSY CTRL1 s).bind fun s =>
  (glcdBusyWait hasCS fuel STATUS_BUSY CTRL2 s).bind fun s =>
  advance hasCS fuel (dataWriteBody hasCS dataToWrite s)

/-- Embedding of `glcdDataRead` with `BUSYCHECK`: the state afterwards and the
byte returned. -/
def glcdDataRead (hasCS : Bool) (fuel : Nat) (s : State) : Option (State × Nat) :=
  let s := s.log (.call .dataRead)
  (glcdBusyWait hasCS fuel STATUS_BUSY CTRL1 s).bind fun s =>
  (glcdBusyWait hasCS fuel STATUS_BUSY CTRL2 s).bind fun s =>
  let r := dataReadBody hasCS s
  (advance hasCS fuel r.1).map fun s => (s, r.2)

/-- A C loop `for (i = 0; i < n; i++) body(i)` whose body may fail to return. -/
def forLoop (n : Nat) (body : Nat → State → Option State) (s : State) : Option State :=
  (List.range n).foldl (fun r i => r.bind (body i)) (some s)

/-- Embedding of `glcdClearScreen` with `BUSYCHECK`. -/
def glcdClearScreen (hasCS : Bool) (fuel : Nat) (s : State) : Option State :=
  let s := s.log (.call .clearScreen)
  (forLoop (GLCD_YPIXELS / 8) (fun j s =>
    (glcdSetAddress hasCS fuel 0 j s).bind fun s =>
    forLoop GLCD_XPIXELS (fun _ s => glcdDataWrite hasCS fuel 0 s) s) s).bind fun s =>
  glcdSetAddress hasCS fuel 0 0 s

/-- Embedding of `glcdInit` with `BUSYCHECK`. -/
def glcdInit (hasCS : Bool) (fuel : Nat) (s : State) : Option State :=
  let s := s.log (.call .init)
  let s := glcdInitHW hasCS s
  (glcdCommandWrite hasCS fuel RESET (CTRL1 + CTRL2) s).bind fun s =>
  (glcdBusyWait hasCS fuel STATUS_RESET (CTRL1 + CTRL2) s).bind fun s =>
  (glcdCommandWrite hasCS fuel DISPLAY_ON (CTRL1 + CTRL2) s).bind fun s =>
  glcdCommandWrite hasCS fuel (DISPLAY_START_LINE ||| 0) (CTRL1 + CTRL2) s

/-- One public call with `BUSYCHECK`; the byte `glcdDataRead` returns is
dropped. -/
def run (hasCS : Bool) (fuel : Nat) : Op → State → Option State
  | .init, s => glcdInit hasCS fuel s
  | .commandWrite c t, s => glcdCommandWrite hasCS fuel c t s
  | .dataWrite b, s => glcdDataWrite hasCS fuel b s
  | .dataRead, s => (glcdDataRead hasCS fuel s).map Prod.fst
  | .setAddress x p, s => glcdSetAddress hasCS fuel x p s
  | .clearScreen, s => glcdClearScreen hasCS fuel s

end Busy

/-- The enable lines in `r` after one pass of the polling loop entered in `s`:
with chip selects they are at rest; with two enables the line that was pulsed
is low and the other one is as it was. -/
def AfterPoll (hasCS : Bool) (controller : Nat) (s r : State) : Prop :=
  if hasCS then
    r.control.testBit 5 = false ∧ r.control.testBit 4 = true ∧ r.control.testBit 3 = true
  else if controller &&& CTRL1 ≠ 0 then
    r.control.testBit 4 = false ∧ r.control.testBit 3 = s.control.testBit 3
  else
    r.control.testBit 3 = false ∧ r.control.testBit 4 = s.control.testBit 4

/-- A recorded function entry that is not a `glcdBusyWait` with both controller
bits set. -/
def Call.singleWait : Call → Prop
  | .busyWait _ controller => oneController controller
  | _ => True

/-- The bit that names a controller in the `controller` arguments: `CTRL1` for
the left one, `CTRL2` for the right one. -/
def Ctrl.bit : Ctrl → Nat
  | .left => CTRL1
  | .right => CTRL2

/-- The control lines as `glcdBusyWait` has them while it polls: address
select low, read/write high, the data bus an input, the enables at rest. -/
def Polling (hasCS : Bool) (s : State) : Prop :=
  Resting hasCS s ∧ s.control.testBit 7 = false ∧ s.control.testBit 6 = true ∧ s.dataDDR = 0

/-- A display with something on it: after `glcdInit` from power-up and
`glcdSetAddress 60 2`, the bytes `0xA5` and `0x3C` are written; the first lands
in the last column of the left controller, the second in the first column of
the right one. -/
def scribbled (hasCS : Bool) : State :=
  writeAll hasCS [0xA5, 0x3C] (glcdSetAddress hasCS 60 2 (afterInit hasCS))

set_option maxRecDepth 100000

/-! ## Bits of the control port -/

theorem and_255 (a : Nat) : a % 256 &&& 255 = a % 256 := by
  have := Nat.and_pow_two_sub_one_eq_mod (a % 256) 8
  simpa using this

theorem testBit_masks :
    Nat.testBit 128 0 = false ∧ Nat.testBit 128 3 = false ∧ Nat.testBit 128 4 = false ∧
    Nat.testBit 128 5 = false ∧ Nat.testBit 128 6 = false ∧ Nat.testBit 128 7 = true ∧
    Nat.testBit 64 0 = false ∧ Nat.testBit 64 3 = false ∧ Nat.testBit 64 4 = false ∧
    Nat.testBit 64 5 = false ∧ Nat.testBit 64 6 = true ∧ Nat.testBit 64 7 = false ∧
    Nat.testBit 32 0 = false ∧ Nat.testBit 32 3 = false ∧ Nat.testBit 32 4 = false ∧
    Nat.testBit 32 5 = true ∧ Nat.testBit 32 6 = false ∧ Nat.testBit 32 7 = false ∧
    Nat.testBit 16 0 = false ∧ Nat.testBit 16 3 = false ∧ Nat.testBit 16 4 = true ∧
    Nat.testBit 16 5 = false ∧ Nat.testBit 16 6 = false ∧ Nat.testBit 16 7 = false ∧
    Nat.testBit 8 0 = false ∧ Nat.testBit 8 3 = true ∧ Nat.testBit 8 4 = false ∧
    Nat.testBit 8 5 = false ∧ Nat.testBit 8 6 = false ∧ Nat.testBit 8 7 = false ∧
    Nat.testBit 24 0 = false ∧ Nat.testBit 24 3 = true ∧ Nat.testBit 24 4 = true ∧
    Nat.testBit 24 5 = false ∧ Nat.testBit 24 6 = false ∧ Nat.testBit 24 7 = false ∧
    Nat.testBit 1 0 = true ∧ Nat.testBit 1 3 = false ∧ Nat.testBit 1 4 = false ∧
    Nat.testBit 1 5 = false ∧ Nat.testBit 1 6 = false ∧ Nat.testBit 1 7 = false ∧
    Nat.testBit 127 0 = true ∧ Nat.testBit 127 3 = true ∧ Nat.testBit 127 4 = true ∧
    Nat.testBit 127 5 = true ∧ Nat.testBit 127 6 = true ∧ Nat.testBit 127 7 = false ∧
    Nat.testBit 191 0 = true ∧ Nat.testBit 191 3 = true ∧ Nat.testBit 191 4 = true ∧
    Nat.testBit 191 5 = true ∧ Nat.testBit 191 6 = false ∧ Nat.testBit 191 7 = true ∧
    Nat.testBit 223 0 = true ∧ Nat.testBit 223 3 = true ∧ Nat.testBit 223 4 = true ∧
    Nat.testBit 223 5 = false ∧ Nat.testBit 223 6 = true ∧ Nat.testBit 223 7 = true ∧
    Nat.testBit 239 0 = true ∧ Nat.testBit 239 3 = true ∧ Nat.testBit 239 4 = false ∧
    Nat.testBit 239 5 = true ∧ Nat.testBit 239 6 = true ∧ Nat.testBit 239 7 = true ∧
    Nat.testBit 247 0 = true ∧ Nat.testBit 247 3 = false ∧ Nat.testBit 247 4 = true ∧
    Nat.testBit 247 5 = true ∧ Nat.testBit 247 6 = true ∧ Nat.testBit 247 7 = true ∧
    Nat.testBit 254 0 = false ∧ Nat.testBit 254 3 = true ∧ Nat.testBit 254 4 = true ∧
    Nat.testBit 254 5 = true ∧ Nat.testBit 254 6 = true ∧ Nat.testBit 254 7 = true := by
  repeat' constructor

theorem obs_append (a b : List Event) : obs (a ++ b) = obs a ++ obs b := by
  simp [obs]

/-- On an idle bus the port writes of `glcdCommandWrite` amount, in both
variants, to one bus cycle on each targeted controller, left first; the bus is
idle again afterwards. -/
theorem sim_commandWrite (hasCS : Bool) (cmd ctl : Nat) (s : State) (v : View)
    (h : Sim hasCS s v) :
    Sim hasCS (glcdCommandWrite hasCS cmd ctl s) (Abs.commandWrite cmd ctl v) := by
  obtain ⟨⟨hd, hc⟩, rfl⟩ := h
  cases hasCS
  · simp only [Bool.false_eq_true, if_false] at hc
    obtain ⟨h4, h3⟩ := hc
    simp only [Sim, glcdCommandWrite, Abs.commandWrite, Bool.false_eq_true, if_false]
    split_ifs <;>
    simp [testBit_masks, and_255, Abs.pulse, view, Idle, ctlSet, ctlClr, writeControl,
      selected, busCycle, State.log, dataPortWrite, dataDDRWrite, driven, obs_append, obs,
      hd, h4, h3]
  · simp only [if_true] at hc
    obtain ⟨h5, h4, h3⟩ := hc
    simp only [Sim, glcdCommandWrite, Abs.commandWrite, if_true]
    split_ifs <;>
    simp [testBit_masks, and_255, Abs.pulse, view, Idle, ctlSet, ctlClr, writeControl,
      selected, busCycle, State.log, dataPortWrite, dataDDRWrite, driven, obs_append, obs,
      hd, h5, h4, h3]

theorem sim_page {hasCS : Bool} {s : State} {v : View} (h : Sim hasCS s v) :
    v.lcd_page = s.lcd_page := by
  rw [← h.2]; rfl

theorem sim_x {hasCS : Bool} {s : State} {v : View} (h : Sim hasCS s v) :
    v.lcd_x = s.lcd_x := by
  rw [← h.2]; rfl

/-- `glcdSetAddress` follows its bus-level counterpart and keeps the bus idle. -/
theorem sim_setAddress (hasCS : Bool) (x p : Nat) (s : State) (v : View)
    (h : Sim hasCS s v) :
    Sim hasCS (glcdSetAddress hasCS x p s) (Abs.setAddress x p v) := by
  have h0 : Sim hasCS
      { s.log (.call (.setAddress (x % 256) (p % 256))) with
        lcd_x := x % 256, lcd_page := p % 256 }
      { v with seen := v.seen ++ [Event.call (.setAddress (x % 256) (p % 256))],
               lcd_x := x % 256, lcd_page := p % 256 } := by
    obtain ⟨hi, rfl⟩ := h
    exact ⟨hi, by simp [view, State.log, obs_append, obs]⟩
  simp only [glcdSetAddress, Abs.setAddress]
  split_ifs
  · have h1 := sim_commandWrite hasCS (SET_COLUMN_ADDRESS ||| x % 256) CTRL1 _ _ h0
    have h2 := sim_commandWrite hasCS (SET_COLUMN_ADDRESS ||| 0) CTRL2 _ _ h1
    rw [sim_page h2]
    exact sim_commandWrite _ _ _ _ _ h2
  · have h1 := sim_commandWrite hasCS (SET_COLUMN_ADDRESS ||| (x % 256 - GLCD_XPIXELS / 2))
      CTRL2 _ _ h0
    rw [sim_page h1]
    exact sim_commandWrite _ _ _ _ _ h1

theorem sim_advance (hasCS : Bool) (s : State) (v : View) (h : Sim hasCS s v) :
    Sim hasCS (advance hasCS s) (Abs.advance v) := by
  obtain ⟨hi, rfl⟩ := h
  have h0 : Sim hasCS { s with lcd_x := (s.lcd_x + 1) % 256 }
      { view s with lcd_x := ((view s).lcd_x + 1) % 256 } := ⟨hi, by simp [view]⟩
  simp only [advance, Abs.advance]
  have hx : (view s).lcd_x = s.lcd_x := rfl
  have hp : (view s).lcd_page = s.lcd_page := rfl
  split_ifs with h1 h2 h2
  · exact sim_setAddress _ _ _ _ _ h0
  · exact absurd h1 h2
  · exact absurd h2 h1
  · exact h0

/-- `glcdDataWrite` follows its bus-level counterpart and keeps the bus idle. -/
theorem sim_dataWrite (hasCS : Bool) (b : Nat) (s : State) (v : View) (h : Sim hasCS s v) :
    Sim hasCS (glcdDataWrite hasCS b s) (Abs.dataWrite b v) := by
  simp only [glcdDataWrite, Abs.dataWrite]
  apply sim_advance
  obtain ⟨⟨hd, hc⟩, rfl⟩ := h
  cases hasCS
  · simp only [Bool.false_eq_true, if_false] at hc
    obtain ⟨h4, h3⟩ := hc
    simp only [Sim, Bool.false_eq_true, if_false]
    by_cases hx : s.lcd_x < 61 <;>
    simp [testBit_masks, and_255, Abs.pulse, Abs.owner, view, Idle, ctlSet, ctlClr, writeControl,
      selected, busCycle, State.log, dataPortWrite, dataDDRWrite, driven, obs_append, obs, hd, h4, h3, hx]
  · simp only [if_true] at hc
    obtain ⟨h5, h4, h3⟩ := hc
    simp only [Sim, if_true]
    by_cases hx : s.lcd_x < 61 <;>
    simp [testBit_masks, and_255, Abs.pulse, Abs.owner, view, Idle, ctlSet, ctlClr, writeControl,
      selected, busCycle, State.log, dataPortWrite, dataDDRWrite, driven, obs_append, obs, hd, h5, h4, h3, hx]

/-- `glcdDataRead` follows its bus-level counterpart, returns the same byte and
keeps the bus idle. -/
theorem sim_dataRead (hasCS : Bool) (s : State) (v : View) (h : Sim hasCS s v) :
    Sim hasCS (glcdDataRead hasCS s).1 (Abs.dataRead v).1 ∧
      (glcdDataRead hasCS s).2 = (Abs.dataRead v).2 := by
  simp only [glcdDataRead, Abs.dataRead]
  obtain ⟨⟨hd, hc⟩, rfl⟩ := h
  cases hasCS
  · simp only [Bool.false_eq_true, if_false] at hc
    obtain ⟨h4, h3⟩ := hc
    refine ⟨?_, ?_⟩
    · apply sim_advance
      simp only [Sim, Bool.false_eq_true, if_false]
      by_cases hx : s.lcd_x < 61 <;>
      simp [testBit_masks, Abs.pulse, Abs.owner, view, Idle, ctlSet, ctlClr, writeControl,
        selected, busCycle, State.log, dataPortWrite, dataDDRWrite, driven, obs_append, obs, h4, h3, hx]
    · by_cases hx : s.lcd_x < 61 <;>
      simp [testBit_masks, Abs.pulse, Abs.owner, view, Idle, ctlSet, ctlClr, writeControl,
        selected, busCycle, State.log, dataPortWrite, dataDDRWrite, driven, obs_append, obs, h4, h3, hx, dataPin]
  · simp only [if_true] at hc
    obtain ⟨h5, h4, h3⟩ := hc
    refine ⟨?_, ?_⟩
    · apply sim_advance
      simp only [Sim, if_true]
      by_cases hx : s.lcd_x < 61 <;>
      simp [testBit_masks, Abs.pulse, Abs.owner, view, Idle, ctlSet, ctlClr, writeControl,
        selected, busCycle, State.log, dataPortWrite, dataDDRWrite, driven, obs_append, obs, h5, h4, h3, hx]
    · by_cases hx : s.lcd_x < 61 <;>
      simp [testBit_masks, Abs.pulse, Abs.owner, view, Idle, ctlSet, ctlClr, writeControl,
        selected, busCycle, State.log, dataPortWrite, dataDDRWrite, driven, obs_append, obs, h5, h4, h3, hx, dataPin]

theorem sim_foldl {α : Type} (hasCS : Bool) (f : State → α → State) (g : View → α → View)
    (hfg : ∀ a s v, Sim hasCS s v → Sim hasCS (f s a) (g v a)) (l : List α) :
    ∀ s v, Sim hasCS s v → Sim hasCS (l.foldl f s) (l.foldl g v) := by
  induction l with
  | nil => intro s v h; exact h
  | cons a l ih => intro s v h; exact ih _ _ (hfg a s v h)

theorem sim_forLoop (hasCS : Bool) (n : Nat) (f : Nat → State → State) (g : Nat → View → View)
    (hfg : ∀ i s v, Sim hasCS s v → Sim hasCS (f i s) (g i v)) (s : State) (v : View)
    (h : Sim hasCS s v) : Sim hasCS (forLoop n f s) (Abs.forLoop n g v) :=
  sim_foldl hasCS _ _ (fun a s v hs => hfg a s v hs) _ s v h

/-- `glcdClearScreen` follows its bus-level counterpart and keeps the bus idle. -/
theorem sim_clearScreen (hasCS : Bool) (s : State) (v : View) (h : Sim hasCS s v) :
    Sim hasCS (glcdClearScreen hasCS s) (Abs.clearScreen v) := by
  have h0 : Sim hasCS (s.log (.call .clearScreen))
      { v with seen := v.seen ++ [Event.call .clearScreen] } := by
    obtain ⟨hi, rfl⟩ := h
    exact ⟨hi, by simp [view, State.log, obs_append, obs]⟩
  simp only [glcdClearScreen, Abs.clearScreen]
  apply sim_setAddress
  apply sim_forLoop _ _ _ _ _ _ _ h0
  intro j s v hs
  apply sim_forLoop _ _ _ _ _ _ _ (sim_setAddress _ _ _ _ _ hs)
  intro _ s v hs
  exact sim_dataWrite _ _ _ _ hs

/-- The idle bus is an invariant of the driver: every function that finds the
bus idle leaves it idle. -/
theorem idle_preserved (hasCS : Bool) (s : State) (h : Idle hasCS s) :
    (∀ cmd ctl, Idle hasCS (glcdCommandWrite hasCS cmd ctl s)) ∧
    (∀ x p, Idle hasCS (glcdSetAddress hasCS x p s)) ∧
    (∀ b, Idle hasCS (glcdDataWrite hasCS b s)) ∧
    Idle hasCS (glcdDataRead hasCS s).1 ∧
    Idle hasCS (glcdClearScreen hasCS s) :=
  ⟨fun cmd ctl => (sim_commandWrite hasCS cmd ctl s _ ⟨h, rfl⟩).1,
    fun x p => (sim_setAddress hasCS x p s _ ⟨h, rfl⟩).1,
    fun b => (sim_dataWrite hasCS b s _ ⟨h, rfl⟩).1,
    (sim_dataRead hasCS s _ ⟨h, rfl⟩).1.1,
    (sim_clearScreen hasCS s _ ⟨h, rfl⟩).1⟩

/-! ## What every function does to the cursor and to the record -/

theorem calls_append (a b : List Event) : calls (a ++ b) = calls a ++ calls b := by
  simp [calls]

theorem cycles_append (a b : List Event) : cycles (a ++ b) = cycles a ++ cycles b := by
  simp [cycles]

theorem dataCycles_append (a b : List Event) :
    dataCycles (a ++ b) = dataCycles a ++ dataCycles b := by
  simp [dataCycles, cycles_append]

theorem Steps.refl (s : State) : Steps s s [] :=
  ⟨⟨[], by simp⟩, by simp⟩

theorem Steps.trans {s r t : State} {a b : List Call} (h1 : Steps s r a) (h2 : Steps r t b) :
    Steps s t (a ++ b) := by
  obtain ⟨⟨l1, e1⟩, c1⟩ := h1
  obtain ⟨⟨l2, e2⟩, c2⟩ := h2
  exact ⟨⟨l1 ++ l2, by rw [e2, e1, List.append_assoc]⟩, by rw [c2, c1, List.append_assoc]⟩

theorem Steps.then {s r t : State} {a : List Call} (h1 : Steps s r a) (h2 : Steps r t []) :
    Steps s t a := by
  simpa using h1.trans h2

theorem steps_of_eq {s r : State} (cs : List Call) (l : List Event)
    (h : r.trace = s.trace ++ l) (hc : calls l = cs) : Steps s r cs :=
  ⟨⟨l, h⟩, by rw [h, calls_append, hc]⟩

theorem steps_busCycle (who : Ctrl) (v : Nat) (s : State) :
    Steps s (busCycle who v s) [] := by
  cases who
  · exact steps_of_eq [] [Event.cycle ⟨.left, v.testBit 7, v.testBit 6, driven s⟩] rfl
      (by simp [calls])
  · exact steps_of_eq [] [Event.cycle ⟨.right, v.testBit 7, v.testBit 6, driven s⟩] rfl
      (by simp [calls])

theorem steps_ite (c : Prop) [Decidable c] (f g : State → State) (s : State) (cs : List Call)
    (hf : Steps s (f s) cs) (hg : Steps s (g s) cs) :
    Steps s (if c then f s else g s) cs := by
  split_ifs
  · exact hf
  · exact hg

theorem steps_writeControl (hasCS : Bool) (v : Nat) (s : State) :
    Steps s (writeControl hasCS v s) [] := by
  unfold writeControl
  have h1 : Steps s
      { s with control := v, trace := s.trace ++ [Event.port v s.dataPort s.dataDDR] } [] :=
    steps_of_eq [] [Event.port v s.dataPort s.dataDDR] rfl (by simp [calls])
  exact (h1.then (steps_ite _ _ id _ _ (steps_busCycle _ _ _) (Steps.refl _))).then
    (steps_ite _ _ id _ _ (steps_busCycle _ _ _) (Steps.refl _))

theorem steps_ctlSet (hasCS : Bool) (m : Nat) (s : State) : Steps s (ctlSet hasCS m s) [] :=
  steps_writeControl _ _ _

theorem steps_ctlClr (hasCS : Bool) (m : Nat) (s : State) : Steps s (ctlClr hasCS m s) [] :=
  steps_writeControl _ _ _

theorem steps_log (s : State) (c : Call) : Steps s (s.log (.call c)) [c] :=
  steps_of_eq [c] [Event.call c] rfl (by simp [calls])

theorem steps_dataPortWrite (v : Nat) (s : State) : Steps s (dataPortWrite v s) [] :=
  steps_of_eq [] [] (by simp [dataPortWrite]) rfl

theorem steps_dataDDRWrite (v : Nat) (s : State) : Steps s (dataDDRWrite v s) [] :=
  steps_of_eq [] [] (by simp [dataDDRWrite]) rfl

@[simp] theorem cursor_busCycle (who : Ctrl) (v : Nat) (s : State) :
    cursor (busCycle who v s) = cursor s := by
  cases who <;> rfl

@[simp] theorem cursor_writeControl (hasCS : Bool) (v : Nat) (s : State) :
    cursor (writeControl hasCS v s) = cursor s := by
  unfold writeControl
  simp only
  split_ifs <;> (try simp only [cursor_busCycle]) <;> rfl

@[simp] theorem cursor_ctlSet (hasCS : Bool) (m : Nat) (s : State) :
    cursor (ctlSet hasCS m s) = cursor s := cursor_writeControl _ _ _

@[simp] theorem cursor_ctlClr (hasCS : Bool) (m : Nat) (s : State) :
    cursor (ctlClr hasCS m s) = cursor s := cursor_writeControl _ _ _

@[simp] theorem cursor_log (s : State) (e : Event) : cursor (s.log e) = cursor s := rfl

@[simp] theorem cursor_dataPortWrite (v : Nat) (s : State) :
    cursor (dataPortWrite v s) = cursor s := rfl

@[simp] theorem cursor_dataDDRWrite (v : Nat) (s : State) :
    cursor (dataDDRWrite v s) = cursor s := rfl

theorem steps_pulse (hasCS : Bool) (m : Nat) (s : State) :
    Steps s (ctlClr hasCS m (ctlSet hasCS m s)) [] :=
  (steps_ctlSet _ _ _).then (steps_ctlClr _ _ _)

/-- From any state, `glcdCommandWrite` only appends to the record, and the only
function entry it records is its own. -/
theorem steps_commandWrite (hasCS : Bool) (cmd ctl : Nat) (s : State) :
    Steps s (glcdCommandWrite hasCS cmd ctl s) [.commandWrite (cmd % 256) (ctl % 256)] := by
  unfold glcdCommandWrite
  have h0 := steps_log s (.commandWrite (cmd % 256) (ctl % 256))
  have h1 := h0.then (steps_ctlClr hasCS SED1520_A0 _)
  have h2 := h1.then (steps_ctlClr hasCS SED1520_RW _)
  have h3 := h2.then (steps_dataPortWrite (cmd % 256) _)
  cases hasCS
  · simp only [Bool.false_eq_true, if_false]
    have h4 := h3.then (steps_ite (ctl % 256 &&& CTRL1 ≠ 0)
      (fun s => ctlClr false SED1520_E1 (ctlSet false SED1520_E1 s)) id _ _
      (steps_pulse _ _ _) (Steps.refl _))
    exact h4.then (steps_ite (ctl % 256 &&& CTRL2 ≠ 0)
      (fun s => ctlClr false SED1520_E2 (ctlSet false SED1520_E2 s)) id _ _
      (steps_pulse _ _ _) (Steps.refl _))
  · simp only [if_true]
    have h4 := h3.then (steps_ite (ctl % 256 &&& CTRL1 ≠ 0)
      (fun s => ctlClr true SED1520_CS1 s) id _ _ (steps_ctlClr _ _ _) (Steps.refl _))
    have h5 := h4.then (steps_ite (ctl % 256 &&& CTRL2 ≠ 0)
      (fun s => ctlClr true SED1520_CS2 s) id _ _ (steps_ctlClr _ _ _) (Steps.refl _))
    exact ((h5.then (steps_ctlSet _ _ _)).then (steps_ctlClr _ _ _)).then (steps_ctlSet _ _ _)

theorem cursor_commandWrite (hasCS : Bool) (cmd ctl : Nat) (s : State) :
    cursor (glcdCommandWrite hasCS cmd ctl s) = cursor s := by
  unfold glcdCommandWrite
  cases hasCS
  · simp only [Bool.false_eq_true, if_false]
    split_ifs <;> simp
  · simp only [if_true]
    split_ifs <;> simp

theorem or_184_lt (p : Nat) (h : p < 256) : 184 ||| p < 256 :=
  @Nat.or_lt_two_pow 184 p 8 (by decide) h

theorem steps_setAddress (hasCS : Bool) (x p : Nat) (s : State) :
    Steps s (glcdSetAddress hasCS x p s) (setAddressCalls (x % 256) (p % 256)) := by
  unfold glcdSetAddress
  have h0 := steps_log s (.setAddress (x % 256) (p % 256))
  have hp : (184 ||| p % 256) % 256 = 184 ||| p % 256 :=
    Nat.mod_eq_of_lt (or_184_lt _ (Nat.mod_lt _ (by decide)))
  have h0b : Steps s ({ s.log (.call (.setAddress (x % 256) (p % 256))) with
      lcd_x := x % 256, lcd_page := p % 256 }) [.setAddress (x % 256) (p % 256)] := h0
  simp only [setAddressCalls]
  split_ifs with hx
  · have h1 := h0b.trans (steps_commandWrite hasCS (SET_COLUMN_ADDRESS ||| x % 256) CTRL1 _)
    have h2 := h1.trans (steps_commandWrite hasCS (SET_COLUMN_ADDRESS ||| 0) CTRL2 _)
    have h3 := h2.trans (steps_commandWrite hasCS (SET_PAGE_ADDRESS ||| p % 256)
      (CTRL1 + CTRL2) _)
    have e : cursor (glcdCommandWrite hasCS (SET_COLUMN_ADDRESS ||| 0) CTRL2
        (glcdCommandWrite hasCS (SET_COLUMN_ADDRESS ||| x % 256) CTRL1
          { s.log (.call (.setAddress (x % 256) (p % 256))) with
            lcd_x := x % 256, lcd_page := p % 256 })) = (x % 256, p % 256) := by
      simp [cursor_commandWrite]; rfl
    have e2 := congrArg Prod.snd e
    simp only [cursor] at e2
    simp only [e2]
    simpa [hp] using h3
  · have h1 := h0b.trans (steps_commandWrite hasCS
      (SET_COLUMN_ADDRESS ||| (x % 256 - GLCD_XPIXELS / 2)) CTRL2 _)
    have h2 := h1.trans (steps_commandWrite hasCS (SET_PAGE_ADDRESS ||| p % 256) CTRL2 _)
    have e : cursor (glcdCommandWrite hasCS (SET_COLUMN_ADDRESS ||| (x % 256 - GLCD_XPIXELS / 2))
        CTRL2 { s.log (.call (.setAddress (x % 256) (p % 256))) with
            lcd_x := x % 256, lcd_page := p % 256 }) = (x % 256, p % 256) := by
      simp [cursor_commandWrite]; rfl
    have e2 := congrArg Prod.snd e
    simp only [cursor] at e2
    simp only [e2]
    have hx2 : (x % 256 - 61) % 256 = x % 256 - 61 :=
      Nat.mod_eq_of_lt (lt_of_le_of_lt (Nat.sub_le _ _) (Nat.mod_lt _ (by decide)))
    simpa [hp, hx2] using h2

theorem cursor_setAddress (hasCS : Bool) (x p : Nat) (s : State) :
    cursor (glcdSetAddress hasCS x p s) = (x % 256, p % 256) := by
  unfold glcdSetAddress
  simp only
  split_ifs <;> simp only [cursor_commandWrite] <;> rfl

theorem steps_advance (hasCS : Bool) (s : State) :
    Steps s (advance hasCS s) (advanceCalls s.lcd_x s.lcd_page) := by
  unfold advance advanceCalls
  simp only
  split_ifs
  · exact steps_setAddress hasCS 0 (s.lcd_page + 1) { s with lcd_x := (s.lcd_x + 1) % 256 }
  · exact Steps.refl s

theorem cursor_advance (hasCS : Bool) (s : State) :
    cursor (advance hasCS s) = nextCursor s.lcd_x s.lcd_page := by
  unfold advance nextCursor
  simp only
  split_ifs
  · exact cursor_setAddress hasCS 0 (s.lcd_page + 1) _
  · rfl

theorem steps_dataWrite (hasCS : Bool) (b : Nat) (s : State) :
    Steps s (glcdDataWrite hasCS b s)
      (.dataWrite (b % 256) :: advanceCalls s.lcd_x s.lcd_page) := by
  unfold glcdDataWrite
  have h0 := steps_log s (.dataWrite (b % 256))
  have h1 := h0.then (steps_ctlSet hasCS SED1520_A0 _)
  have h2 := h1.then (steps_ctlClr hasCS SED1520_RW _)
  have h3 := h2.then (steps_dataPortWrite (b % 256) _)
  have key : ∀ t : State, Steps s t [.dataWrite (b % 256)] → cursor t = cursor s →
      Steps s (advance hasCS t) (.dataWrite (b % 256) :: advanceCalls s.lcd_x s.lcd_page) := by
    intro t ht hc
    have := ht.trans (steps_advance hasCS t)
    have hx : t.lcd_x = s.lcd_x := congrArg Prod.fst hc
    have hp : t.lcd_page = s.lcd_page := congrArg Prod.snd hc
    rw [hx, hp] at this
    exact this
  cases hasCS
  · simp only [Bool.false_eq_true, if_false]
    apply key
    · split_ifs
      · exact h3.then (steps_pulse _ _ _)
      · exact h3.then (steps_pulse _ _ _)
    · split_ifs <;> simp
  · simp only [if_true]
    apply key
    · refine ((?_ : Steps s _ [.dataWrite (b % 256)]).then (steps_ctlSet _ _ _) |>.then
        (steps_ctlClr _ _ _)).then (steps_ctlSet _ _ _)
      split_ifs
      · exact h3.then (steps_ctlClr _ _ _)
      · exact h3.then (steps_ctlClr _ _ _)
    · split_ifs <;> simp

theorem cursor_dataWrite (hasCS : Bool) (b : Nat) (s : State) :
    cursor (glcdDataWrite hasCS b s) = nextCursor s.lcd_x s.lcd_page := by
  unfold glcdDataWrite
  simp only
  rw [cursor_advance]
  cases hasCS
  · simp only [Bool.false_eq_true, if_false]
    have : ∀ t : State, cursor t = cursor s → nextCursor t.lcd_x t.lcd_page
        = nextCursor s.lcd_x s.lcd_page := by
      intro t hc
      rw [show t.lcd_x = s.lcd_x from congrArg Prod.fst hc,
        show t.lcd_page = s.lcd_page from congrArg Prod.snd hc]
    apply this
    split_ifs <;> simp
  · simp only [if_true]
    have : ∀ t : State, cursor t = cursor s → nextCursor t.lcd_x t.lcd_page
        = nextCursor s.lcd_x s.lcd_page := by
      intro t hc
      rw [show t.lcd_x = s.lcd_x from congrArg Prod.fst hc,
        show t.lcd_page = s.lcd_page from congrArg Prod.snd hc]
    apply this
    split_ifs <;> simp

theorem steps_issued {s r : State} {cs : List Call} (h : Steps s r cs) :
    calls (issued s r) = cs := by
  obtain ⟨⟨l, e⟩, c⟩ := h
  have : issued s r = l := by simp [issued, e]
  rw [this]
  rw [e, calls_append] at c
  exact List.append_cancel_left c

theorem steps_writeAll (hasCS : Bool) (bs : List Nat) :
    ∀ s : State, s.lcd_x + bs.length ≤ 121 →
      Steps s (writeAll hasCS bs s) (bs.map fun b => .dataWrite (b % 256)) ∧
      cursor (writeAll hasCS bs s) = (s.lcd_x + bs.length, s.lcd_page) := by
  induction bs with
  | nil => intro s _; exact ⟨Steps.refl s, rfl⟩
  | cons b bs ih =>
    intro s h
    simp only [List.length_cons] at h
    have hn : nextCursor s.lcd_x s.lcd_page = (s.lcd_x + 1, s.lcd_page) := by
      unfold nextCursor
      have : (s.lcd_x + 1) % 256 = s.lcd_x + 1 := Nat.mod_eq_of_lt (by omega)
      simp only [this, GLCD_XPIXELS]
      rw [if_neg (by omega)]
    have ha : advanceCalls s.lcd_x s.lcd_page = [] := by
      unfold advanceCalls
      have : (s.lcd_x + 1) % 256 = s.lcd_x + 1 := Nat.mod_eq_of_lt (by omega)
      simp only [this, GLCD_XPIXELS]
      rw [if_neg (by omega)]
    have hc := cursor_dataWrite hasCS b s
    rw [hn] at hc
    have hs := steps_dataWrite hasCS b s
    rw [ha] at hs
    have hx : (glcdDataWrite hasCS b s).lcd_x = s.lcd_x + 1 := congrArg Prod.fst hc
    have hp : (glcdDataWrite hasCS b s).lcd_page = s.lcd_page := congrArg Prod.snd hc
    obtain ⟨i1, i2⟩ := ih (glcdDataWrite hasCS b s) (by rw [hx]; omega)
    refine ⟨by simpa [writeAll] using hs.trans i1, ?_⟩
    simp only [writeAll, List.foldl_cons] at i2 ⊢
    rw [i2, hx, hp, List.length_cons]
    congr 1
    omega

/-! ## The bus-level driver and the display memory -/

theorem or_184 (p : Nat) (h : p < 4) : 184 ||| p = 184 + p := by
  interval_cases p <;> rfl

@[simp] theorem cycle_cmd_mem (k : Controller) (d : Nat) :
    (k.cycle false false d).1.mem = k.mem := by
  unfold Controller.cycle
  simp only
  split_ifs <;> rfl

@[simp] theorem cycle_cmd_out (k : Controller) (d : Nat) :
    (k.cycle false false d).2 = none := by
  unfold Controller.cycle
  simp only
  split_ifs <;> rfl

theorem cycle_cmd_col (k : Controller) (d : Nat) (h : d < 128) :
    (k.cycle false false d).1 = { k with column := d } := by
  unfold Controller.cycle
  simp only
  rw [if_pos h]

theorem cycle_cmd_page (k : Controller) (p : Nat) (h : p < 4) :
    (k.cycle false false (184 + p)).1 = { k with page := p } := by
  unfold Controller.cycle
  simp only
  rw [if_neg (by omega), if_pos (by omega)]
  simp

theorem abs_setAddress_left (c p : Nat) (v : View) (hc : c < 61) (hp : p < 4) :
    Abs.setAddress c p v =
      { lcd_x := c, lcd_page := p,
        left := { v.left with column := c, page := p },
        right := { v.right with column := 0, page := p },
        busIn := v.busIn,
        seen := v.seen ++ [Event.call (.setAddress c p),
          Event.call (.commandWrite c 1), Event.cycle ⟨.left, false, false, c⟩,
          Event.call (.commandWrite 0 2), Event.cycle ⟨.right, false, false, 0⟩,
          Event.call (.commandWrite (184 + p) 3), Event.cycle ⟨.left, false, false, 184 + p⟩,
          Event.cycle ⟨.right, false, false, 184 + p⟩] } := by
  have h1 : c % 256 = c := Nat.mod_eq_of_lt (by omega)
  have h2 : p % 256 = p := Nat.mod_eq_of_lt (by omega)
  have h3 : (184 + p) % 256 = 184 + p := Nat.mod_eq_of_lt (by omega)
  simp [Abs.setAddress, Abs.commandWrite, Abs.pulse, h1, h2, h3, hc, or_184 p hp,
    cycle_cmd_col _ c (by omega), cycle_cmd_col _ 0 (by omega), cycle_cmd_page _ p hp]

theorem abs_setAddress_right (c p : Nat) (v : View) (hc : 61 ≤ c) (hc2 : c < 122) (hp : p < 4) :
    Abs.setAddress c p v =
      { lcd_x := c, lcd_page := p,
        left := v.left,
        right := { v.right with column := c - 61, page := p },
        busIn := v.busIn,
        seen := v.seen ++ [Event.call (.setAddress c p),
          Event.call (.commandWrite (c - 61) 2), Event.cycle ⟨.right, false, false, c - 61⟩,
          Event.call (.commandWrite (184 + p) 2),
          Event.cycle ⟨.right, false, false, 184 + p⟩] } := by
  have h1 : c % 256 = c := Nat.mod_eq_of_lt (by omega)
  have h2 : p % 256 = p := Nat.mod_eq_of_lt (by omega)
  have h3 : (184 + p) % 256 = 184 + p := Nat.mod_eq_of_lt (by omega)
  have h4 : (c - 61) % 256 = c - 61 := Nat.mod_eq_of_lt (by omega)
  have h5 : ¬ c < 61 := by omega
  simp [Abs.setAddress, Abs.commandWrite, Abs.pulse, h1, h2, h3, h4, h5, or_184 p hp,
    cycle_cmd_col _ (c - 61) (by omega), cycle_cmd_page _ p hp]

theorem byteAt_left (v : View) (q c : Nat) (h : c < 61) : v.byteAt q c = v.left.mem q c := by
  simp [View.byteAt, Route, h, View.ctrl]

theorem byteAt_right (v : View) (q c : Nat) (h : 61 ≤ c) :
    v.byteAt q c = v.right.mem q (c - 61) := by
  have : ¬ c < 61 := by omega
  simp [View.byteAt, Route, this, View.ctrl]

theorem abs_commandWrite_mem (cmd ctl : Nat) (v : View) :
    (Abs.commandWrite cmd ctl v).left.mem = v.left.mem ∧
      (Abs.commandWrite cmd ctl v).right.mem = v.right.mem := by
  unfold Abs.commandWrite
  simp only
  split_ifs <;> simp [Abs.pulse]

theorem abs_commandWrite_cursor (cmd ctl : Nat) (v : View) :
    (Abs.commandWrite cmd ctl v).lcd_x = v.lcd_x ∧
      (Abs.commandWrite cmd ctl v).lcd_page = v.lcd_page := by
  unfold Abs.commandWrite
  simp only
  split_ifs <;> simp [Abs.pulse]

theorem abs_setAddress_cursor (x p : Nat) (v : View) :
    (Abs.setAddress x p v).lcd_x = x % 256 ∧ (Abs.setAddress x p v).lcd_page = p % 256 := by
  unfold Abs.setAddress
  simp only
  split_ifs <;> simp [abs_commandWrite_cursor]

theorem abs_setAddress_mem (x p : Nat) (v : View) :
    (Abs.setAddress x p v).left.mem = v.left.mem ∧
      (Abs.setAddress x p v).right.mem = v.right.mem := by
  unfold Abs.setAddress
  simp only
  split_ifs <;> simp [abs_commandWrite_mem]

theorem abs_setAddress_byteAt (x p : Nat) (v : View) (q c : Nat) :
    (Abs.setAddress x p v).byteAt q c = v.byteAt q c := by
  obtain ⟨h1, h2⟩ := abs_setAddress_mem x p v
  unfold View.byteAt View.ctrl
  cases (Route c).1 <;> simp [h1, h2]

theorem abs_setAddress_synced (c p : Nat) (v : View) (hc : c < 122) (hp : p < 4) :
    (Abs.setAddress c p v).lcd_x = c ∧ (Abs.setAddress c p v).lcd_page = p ∧
      Synced (Abs.setAddress c p v) p := by
  by_cases h : c < 61
  · rw [abs_setAddress_left c p v h hp]
    simp [Synced, h]
  · rw [abs_setAddress_right c p v (by omega) hc hp]
    simp [Synced, h]

/-- One bus-level data write away from the right edge. -/
theorem abs_dataWrite_step (b : Nat) (v : View) (p : Nat) (hx : v.lcd_x < 121)
    (hs : Synced v p) :
    (Abs.dataWrite b v).lcd_x = v.lcd_x + 1 ∧ (Abs.dataWrite b v).lcd_page = v.lcd_page ∧
      Synced (Abs.dataWrite b v) p ∧
      ∀ q c, c < 122 → (Abs.dataWrite b v).byteAt q c =
        if q = p ∧ c = v.lcd_x then b % 256 else v.byteAt q c := by
  have hm : (v.lcd_x + 1) % 256 = v.lcd_x + 1 := Nat.mod_eq_of_lt (by omega)
  have hn : ¬ 122 ≤ v.lcd_x + 1 := by omega
  unfold Synced at hs
  by_cases h : v.lcd_x < 61
  · rw [if_pos h] at hs
    obtain ⟨h1, h2, h3, h4⟩ := hs
    refine ⟨?_, ?_, ?_, ?_⟩
    · simp [Abs.dataWrite, Abs.advance, Abs.pulse, Abs.owner, h, hm, hn]
    · simp [Abs.dataWrite, Abs.advance, Abs.pulse, Abs.owner, h, hm, hn]
    · unfold Synced
      simp [Abs.dataWrite, Abs.advance, Abs.pulse, Abs.owner, h, hm, hn, Controller.cycle,
        h1, h2, h3, h4]
      intro h5
      omega
    · intro q c hc
      by_cases hc1 : c < 61
      · rw [byteAt_left _ _ _ hc1, byteAt_left _ _ _ hc1]
        simp [Abs.dataWrite, Abs.advance, Abs.pulse, Abs.owner, h, hm, hn, Controller.cycle,
          h1, h2, storeByte]
      · rw [byteAt_right _ _ _ (by omega), byteAt_right _ _ _ (by omega)]
        have : ¬ (q = p ∧ c = v.lcd_x) := by omega
        simp [Abs.dataWrite, Abs.advance, Abs.pulse, Abs.owner, h, hm, hn, Controller.cycle,
          this]
  · rw [if_neg h] at hs
    obtain ⟨h1, h2⟩ := hs
    refine ⟨?_, ?_, ?_, ?_⟩
    · simp [Abs.dataWrite, Abs.advance, Abs.pulse, Abs.owner, h, hm, hn]
    · simp [Abs.dataWrite, Abs.advance, Abs.pulse, Abs.owner, h, hm, hn]
    · unfold Synced
      have h6 : ¬ v.lcd_x + 1 < 61 := by omega
      simp [Abs.dataWrite, Abs.advance, Abs.pulse, Abs.owner, h, hm, hn, Controller.cycle,
        h1, h2, h6]
      omega
    · intro q c hc
      by_cases hc1 : c < 61
      · rw [byteAt_left _ _ _ hc1, byteAt_left _ _ _ hc1]
        have : ¬ (q = p ∧ c = v.lcd_x) := by omega
        simp [Abs.dataWrite, Abs.advance, Abs.pulse, Abs.owner, h, hm, hn, Controller.cycle,
          this]
      · rw [byteAt_right _ _ _ (by omega), byteAt_right _ _ _ (by omega)]
        have e : (c - 61 = v.lcd_x - 61) ↔ c = v.lcd_x := by omega
        simp [Abs.dataWrite, Abs.advance, Abs.pulse, Abs.owner, h, hm, hn, Controller.cycle,
          h1, h2, storeByte, e]

/-- The bus-level data write at the last column: the byte is stored and the
cursor wraps to the next page. -/
theorem abs_dataWrite_edge (b : Nat) (v : View) (p : Nat) (hx : v.lcd_x = 121)
    (hs : Synced v p) :
    (Abs.dataWrite b v).lcd_x = 0 ∧ (Abs.dataWrite b v).lcd_page = (v.lcd_page + 1) % 256 ∧
      ∀ q c, c < 122 → (Abs.dataWrite b v).byteAt q c =
        if q = p ∧ c = v.lcd_x then b % 256 else v.byteAt q c := by
  unfold Synced at hs
  rw [if_neg (by omega)] at hs
  obtain ⟨h1, h2⟩ := hs
  have hw : Abs.dataWrite b v = Abs.setAddress 0 (v.lcd_page + 1)
      { Abs.pulse .right true false (b % 256)
          { v with seen := v.seen ++ [Event.call (.dataWrite (b % 256))] } with
        lcd_x := 122 } := by
    simp [Abs.dataWrite, Abs.advance, Abs.owner, hx, Abs.pulse]
  rw [hw]
  refine ⟨(abs_setAddress_cursor _ _ _).1, ?_, ?_⟩
  · rw [(abs_setAddress_cursor _ _ _).2]
  · intro q c hc
    rw [abs_setAddress_byteAt]
    by_cases hc1 : c < 61
    · rw [byteAt_left _ _ _ hc1, byteAt_left _ _ _ hc1]
      have : ¬ (q = p ∧ c = v.lcd_x) := by omega
      simp [Abs.pulse, Controller.cycle, this]
    · rw [byteAt_right _ _ _ (by omega), byteAt_right _ _ _ (by omega)]
      have e : (c - 61 = 60) ↔ c = 121 := by omega
      simp [Abs.pulse, Controller.cycle, h1, h2, storeByte, hx, e]

/-- A run of data writes that starts with the registers in step with the cursor
and stays on the page stores its bytes at consecutive logical columns and
leaves every other displayed byte alone. -/
theorem abs_writeAll_byteAt (bs : List Nat) :
    ∀ (v : View) (p : Nat), Synced v p → v.lcd_x + bs.length ≤ 122 →
      ∀ q c, c < 122 → (Abs.writeAll bs v).byteAt q c =
        if q = p ∧ v.lcd_x ≤ c ∧ c < v.lcd_x + bs.length then bs.getD (c - v.lcd_x) 0 % 256
        else v.byteAt q c := by
  induction bs with
  | nil =>
    intro v p _ _ q c _
    have : ¬ (q = p ∧ v.lcd_x ≤ c ∧ c < v.lcd_x + ([] : List Nat).length) := by
      simp only [List.length_nil]; omega
    rw [if_neg this]
    rfl
  | cons b bs ih =>
    intro v p hs hl q c hc
    simp only [List.length_cons] at hl
    simp only [Abs.writeAll, List.foldl_cons, List.length_cons]
    by_cases hx : v.lcd_x < 121
    · obtain ⟨h1, _, h3, h4⟩ := abs_dataWrite_step b v p hx hs
      have := ih (Abs.dataWrite b v) p h3 (by rw [h1]; omega) q c hc
      simp only [Abs.writeAll] at this
      rw [this, h1, h4 q c hc]
      by_cases e : q = p ∧ c = v.lcd_x
      · obtain ⟨e1, e2⟩ := e
        have n1 : ¬ (q = p ∧ v.lcd_x + 1 ≤ c ∧ c < v.lcd_x + 1 + bs.length) := by omega
        have n2 : q = p ∧ v.lcd_x ≤ c ∧ c < v.lcd_x + (bs.length + 1) := by omega
        rw [if_neg n1, if_pos ⟨e1, e2⟩, if_pos n2, e2]
        simp
      · rw [if_neg e]
        by_cases g : q = p ∧ v.lcd_x + 1 ≤ c ∧ c < v.lcd_x + 1 + bs.length
        · have n2 : q = p ∧ v.lcd_x ≤ c ∧ c < v.lcd_x + (bs.length + 1) := by omega
          rw [if_pos g, if_pos n2]
          have : c - v.lcd_x = (c - (v.lcd_x + 1)) + 1 := by omega
          rw [this]
          simp
        · have n2 : ¬ (q = p ∧ v.lcd_x ≤ c ∧ c < v.lcd_x + (bs.length + 1)) := by omega
          rw [if_neg g, if_neg n2]
    · have hx1 : v.lcd_x = 121 := by omega
      have hb : bs = [] := List.eq_nil_of_length_eq_zero (by omega)
      subst hb
      obtain ⟨_, _, h4⟩ := abs_dataWrite_edge b v p hx1 hs
      simp only [List.foldl_nil, List.length_nil]
      rw [h4 q c hc]
      by_cases e : q = p ∧ c = v.lcd_x
      · have n2 : q = p ∧ v.lcd_x ≤ c ∧ c < v.lcd_x + (0 + 1) := by omega
        rw [if_pos e, if_pos n2, e.2]
        simp
      · have n2 : ¬ (q = p ∧ v.lcd_x ≤ c ∧ c < v.lcd_x + (0 + 1)) := by omega
        rw [if_neg e, if_neg n2]

theorem sim_writeAll (hasCS : Bool) (bs : List Nat) (s : State) (v : View)
    (h : Sim hasCS s v) : Sim hasCS (writeAll hasCS bs s) (Abs.writeAll bs v) :=
  sim_foldl hasCS _ _ (fun b s v hs => sim_dataWrite hasCS b s v hs) bs s v h

theorem sim_byteAt {hasCS : Bool} {s : State} {v : View} (h : Sim hasCS s v) (q c : Nat) :
    byteAt s q c = v.byteAt q c := by
  rw [← h.2]
  unfold byteAt View.byteAt State.ctrl View.ctrl view
  cases (Route c).1 <;> rfl

/-! ## Events issued by a call -/

@[simp] theorem control_busCycle (who : Ctrl) (v : Nat) (s : State) :
    (busCycle who v s).control = s.control := by
  cases who <;> rfl

@[simp] theorem dataDDR_busCycle (who : Ctrl) (v : Nat) (s : State) :
    (busCycle who v s).dataDDR = s.dataDDR := by
  cases who <;> rfl

@[simp] theorem control_writeControl (hasCS : Bool) (v : Nat) (s : State) :
    (writeControl hasCS v s).control = v := by
  unfold writeControl
  simp only
  split_ifs <;> simp

@[simp] theorem dataDDR_writeControl (hasCS : Bool) (v : Nat) (s : State) :
    (writeControl hasCS v s).dataDDR = s.dataDDR := by
  unfold writeControl
  simp only
  split_ifs <;> simp

/-- Whatever the ports held before, `glcdInit` leaves the bus at rest. -/
theorem glcdInit_idle (hasCS : Bool) (s : State) : Idle hasCS (glcdInit hasCS s) := by
  cases hasCS <;>
  simp [Idle, glcdInit, glcdInitHW, glcdCommandWrite, ctlSet, ctlClr, State.log,
    dataPortWrite, dataDDRWrite, testBit_masks]

theorem issued_of_eq {s r : State} {l : List Event} (h : r.trace = s.trace ++ l) :
    issued s r = l := by
  simp [issued, h]

theorem obs_issued {s r : State} {cs : List Call} {X : List Event} (h : Steps s r cs)
    (ho : obs r.trace = obs s.trace ++ X) : obs (issued s r) = X := by
  obtain ⟨⟨l, e⟩, _⟩ := h
  rw [issued_of_eq e]
  rw [e, obs_append] at ho
  exact List.append_cancel_left ho

theorem sim_seen {hasCS : Bool} {s : State} {v : View} (h : Sim hasCS s v) :
    v.seen = obs s.trace := by
  rw [← h.2]; rfl

theorem cw2_quiet (hasCS : Bool) (cmd : Nat) (s : State) (h : Idle hasCS s) :
    ∀ e ∈ issued s (glcdCommandWrite hasCS cmd 2 s), leftLineIdle hasCS e := by
  obtain ⟨hd, hc⟩ := h
  cases hasCS
  · simp only [Bool.false_eq_true, if_false] at hc
    obtain ⟨h4, h3⟩ := hc
    have : issued s (glcdCommandWrite false cmd 2 s) =
        [Event.call (.commandWrite (cmd % 256) 2),
         Event.port (s.control &&& 127) s.dataPort 255,
         Event.port (s.control &&& 127 &&& 191) s.dataPort 255,
         Event.port (s.control &&& 127 &&& 191 ||| 8) (cmd % 256) 255,
         Event.cycle ⟨.right, false, false, cmd % 256⟩,
         Event.port ((s.control &&& 127 &&& 191 ||| 8) &&& 247) (cmd % 256) 255] := by
      apply issued_of_eq
      simp [testBit_masks, and_255, glcdCommandWrite, ctlSet, ctlClr, writeControl,
        selected, busCycle, State.log, dataPortWrite, driven, hd, h4, h3]
    rw [this]
    simp [leftLineIdle, testBit_masks, h4]
  · simp only [if_true] at hc
    obtain ⟨h5, h4, h3⟩ := hc
    have : issued s (glcdCommandWrite true cmd 2 s) =
        [Event.call (.commandWrite (cmd % 256) 2),
         Event.port (s.control &&& 127) s.dataPort 255,
         Event.port (s.control &&& 127 &&& 191) s.dataPort 255,
         Event.port (s.control &&& 127 &&& 191 &&& 247) (cmd % 256) 255,
         Event.port (s.control &&& 127 &&& 191 &&& 247 ||| 32) (cmd % 256) 255,
         Event.cycle ⟨.right, false, false, cmd % 256⟩,
         Event.port ((s.control &&& 127 &&& 191 &&& 247 ||| 32) &&& 223) (cmd % 256) 255,
         Event.port ((s.control &&& 127 &&& 191 &&& 247 ||| 32) &&& 223 ||| 24) (cmd % 256) 255] := by
      apply issued_of_eq
      simp [testBit_masks, and_255, glcdCommandWrite, ctlSet, ctlClr, writeControl,
        selected, busCycle, State.log, dataPortWrite, driven, hd, h5, h4, h3]
    rw [this]
    simp [leftLineIdle, testBit_masks, h4]

theorem cycles_obs (t : List Event) : cycles (obs t) = cycles t := by
  induction t with
  | nil => rfl
  | cons e t ih =>
    cases e <;> simp [obs, cycles, List.filter_cons, List.filterMap_cons] at ih ⊢ <;> exact ih

theorem dataCycles_obs (t : List Event) : dataCycles (obs t) = dataCycles t := by
  simp [dataCycles, cycles_obs]

theorem dataCycles_issued {s r : State} {cs : List Call} {X : List Cycle} (h : Steps s r cs)
    (hd : dataCycles r.trace = dataCycles s.trace ++ X) : dataCycles (issued s r) = X := by
  obtain ⟨⟨l, e⟩, _⟩ := h
  rw [issued_of_eq e]
  rw [e, dataCycles_append] at hd
  exact List.append_cancel_left hd

theorem abs_commandWrite_dataCycles (cmd ctl : Nat) (v : View) :
    dataCycles (Abs.commandWrite cmd ctl v).seen = dataCycles v.seen := by
  unfold Abs.commandWrite
  simp only
  split_ifs <;> simp [Abs.pulse, dataCycles, cycles]

theorem abs_setAddress_dataCycles (x p : Nat) (v : View) :
    dataCycles (Abs.setAddress x p v).seen = dataCycles v.seen := by
  unfold Abs.setAddress
  simp only
  split_ifs <;> simp [abs_commandWrite_dataCycles] <;> simp [dataCycles, cycles]

theorem abs_owner (v : View) : Abs.owner v = (Route v.lcd_x).1 := by
  unfold Abs.owner Route
  split_ifs <;> rfl

@[simp] theorem abs_pulse_seen (who : Ctrl) (a0 rw : Bool) (d : Nat) (v : View) :
    (Abs.pulse who a0 rw d v).seen = v.seen ++ [Event.cycle ⟨who, a0, rw, d⟩] := by
  cases who <;> rfl

@[simp] theorem abs_pulse_lcd_x (who : Ctrl) (a0 rw : Bool) (d : Nat) (v : View) :
    (Abs.pulse who a0 rw d v).lcd_x = v.lcd_x := by
  cases who <;> rfl

@[simp] theorem abs_pulse_lcd_page (who : Ctrl) (a0 rw : Bool) (d : Nat) (v : View) :
    (Abs.pulse who a0 rw d v).lcd_page = v.lcd_page := by
  cases who <;> rfl

theorem abs_dataWrite_dataCycles (b : Nat) (v : View) :
    dataCycles (Abs.dataWrite b v).seen =
      dataCycles v.seen ++ [⟨Abs.owner v, true, false, b % 256⟩] := by
  unfold Abs.dataWrite Abs.advance
  simp only
  split_ifs
  · rw [abs_setAddress_dataCycles]
    simp [dataCycles, cycles, Abs.owner]
  · simp [dataCycles, cycles, Abs.owner]

theorem abs_dataWrite_seen (b : Nat) (v : View) (hx : v.lcd_x < 121) :
    (Abs.dataWrite b v).seen = v.seen ++
      [Event.call (.dataWrite (b % 256)), Event.cycle ⟨Abs.owner v, true, false, b % 256⟩] := by
  have hm : (v.lcd_x + 1) % 256 = v.lcd_x + 1 := Nat.mod_eq_of_lt (by omega)
  have hn : ¬ 122 ≤ v.lcd_x + 1 := by omega
  simp [Abs.dataWrite, Abs.advance, Abs.owner, hm, hn]

theorem cycle_cmd_high (k : Controller) (d : Nat) (h : 128 ≤ d) :
    (k.cycle false false d).1.column = k.column := by
  unfold Controller.cycle
  simp only
  rw [if_neg (by omega)]
  split_ifs <;> rfl

theorem or_184_ge_aux : ∀ q, q < 256 → 128 ≤ (184 ||| q) % 256 := by
  decide

theorem or_184_ge (p : Nat) : 128 ≤ (184 ||| p % 256) % 256 :=
  or_184_ge_aux _ (Nat.mod_lt _ (by decide))

theorem abs_setAddress_column (c p : Nat) (v : View) (hc : c < 122) :
    ((Abs.setAddress c p v).ctrl (Route c).1).column = (Route c).2 := by
  have h1 : c % 256 = c := Nat.mod_eq_of_lt (by omega)
  by_cases h : c < 61
  · simp [Abs.setAddress, Abs.commandWrite, Abs.pulse, View.ctrl, Route, h1, h,
      cycle_cmd_high _ _ (or_184_ge p), cycle_cmd_col _ c (by omega)]
  · have h4 : (c - 61) % 256 = c - 61 := Nat.mod_eq_of_lt (by omega)
    simp [Abs.setAddress, Abs.commandWrite, Abs.pulse, View.ctrl, Route, h1, h, h4,
      cycle_cmd_high _ _ (or_184_ge p), cycle_cmd_col _ (c - 61) (by omega)]

theorem sim_ctrl {hasCS : Bool} {s : State} {v : View} (h : Sim hasCS s v) (who : Ctrl) :
    s.ctrl who = v.ctrl who := by
  rw [← h.2]
  cases who <;> rfl

theorem issued_trans {s r t : State} {a b : List Call} (h1 : Steps s r a) (h2 : Steps r t b) :
    issued s t = issued s r ++ issued r t := by
  obtain ⟨⟨l1, e1⟩, _⟩ := h1
  obtain ⟨⟨l2, e2⟩, _⟩ := h2
  rw [issued_of_eq e1, issued_of_eq e2, issued_of_eq (by rw [e2, e1, List.append_assoc])]

/-! ## Rows of data writes -/

theorem nextCursor_lt (x p : Nat) (h : x < 121) : nextCursor x p = (x + 1, p) := by
  unfold nextCursor
  have : (x + 1) % 256 = x + 1 := Nat.mod_eq_of_lt (by omega)
  simp only [this, GLCD_XPIXELS]
  rw [if_neg (by omega)]

theorem nextCursor_edge (p : Nat) : nextCursor 121 p = (0, (p + 1) % 256) := by
  simp [nextCursor]

theorem advanceCalls_edge (p : Nat) :
    advanceCalls 121 p = setAddressCalls 0 ((p + 1) % 256) := by
  simp [advanceCalls]

theorem writeAll_append (hasCS : Bool) (as bs : List Nat) (s : State) :
    writeAll hasCS (as ++ bs) s = writeAll hasCS bs (writeAll hasCS as s) := by
  simp [writeAll, List.foldl_append]

/-! ## Clearing the screen -/

theorem forLoop_const (hasCS : Bool) (b n : Nat) (s : State) :
    forLoop n (fun _ s => glcdDataWrite hasCS b s) s = writeAll hasCS (List.replicate n b) s := by
  induction n with
  | zero => simp only [forLoop, writeAll, List.range_zero, List.replicate_zero, List.foldl_nil]
  | succ n ih =>
    unfold forLoop at ih ⊢
    rw [List.range_succ, List.foldl_append, ih, List.replicate_succ', writeAll_append]
    simp only [writeAll, List.foldl_cons, List.foldl_nil]

theorem range_four : List.range 4 = [0, 1, 2, 3] := by decide

theorem forLoop_four (f : Nat → State → State) (s : State) :
    forLoop 4 f s = f 3 (f 2 (f 1 (f 0 s))) := by
  simp only [forLoop, range_four, List.foldl_cons, List.foldl_nil]

theorem steps_clearRow (hasCS : Bool) (j : Nat) (s : State) (hj : j < 255) :
    Steps s (clearRow hasCS j s) (rowCalls j) ∧ cursor (clearRow hasCS j s) = (0, j + 1) := by
  unfold clearRow
  rw [GLCD_XPIXELS, forLoop_const, show (122 : Nat) = 121 + 1 from rfl, List.replicate_succ',
    writeAll_append]
  have h0 : cursor (glcdSetAddress hasCS 0 j s) = (0, j) := by
    rw [cursor_setAddress, Nat.mod_eq_of_lt (show j < 256 by omega)]
  have hx0 : (glcdSetAddress hasCS 0 j s).lcd_x = 0 := congrArg Prod.fst h0
  have hp0 : (glcdSetAddress hasCS 0 j s).lcd_page = j := congrArg Prod.snd h0
  have s0 := steps_setAddress hasCS 0 j s
  rw [Nat.mod_eq_of_lt (show j < 256 by omega)] at s0
  obtain ⟨w1, w2⟩ := steps_writeAll hasCS (List.replicate 121 0) (glcdSetAddress hasCS 0 j s)
    (by rw [hx0]; simp)
  rw [hx0, hp0] at w2
  have hx1 : (writeAll hasCS (List.replicate 121 0) (glcdSetAddress hasCS 0 j s)).lcd_x = 121 := by
    have := congrArg Prod.fst w2
    simpa [cursor] using this
  have hp1 : (writeAll hasCS (List.replicate 121 0) (glcdSetAddress hasCS 0 j s)).lcd_page = j :=
    congrArg Prod.snd w2
  have d1 := steps_dataWrite hasCS 0
    (writeAll hasCS (List.replicate 121 0) (glcdSetAddress hasCS 0 j s))
  have d2 := cursor_dataWrite hasCS 0
    (writeAll hasCS (List.replicate 121 0) (glcdSetAddress hasCS 0 j s))
  rw [hx1, hp1, advanceCalls_edge, Nat.mod_eq_of_lt (show j + 1 < 256 by omega)] at d1
  rw [hx1, hp1, nextCursor_edge, Nat.mod_eq_of_lt (show j + 1 < 256 by omega)] at d2
  refine ⟨?_, d2⟩
  have := (s0.trans w1).trans d1
  simpa [rowCalls, writeAll] using this

theorem steps_clearScreen (hasCS : Bool) (s : State) :
    Steps s (glcdClearScreen hasCS s) clearCalls ∧ cursor (glcdClearScreen hasCS s) = (0, 0) := by
  have e : glcdClearScreen hasCS s = glcdSetAddress hasCS 0 0
      (clearRow hasCS 3 (clearRow hasCS 2 (clearRow hasCS 1 (clearRow hasCS 0
        (s.log (.call .clearScreen)))))) := by
    have h4 : GLCD_YPIXELS / 8 = 4 := by decide
    simp only [glcdClearScreen, h4, forLoop_four, clearRow]
  rw [e]
  refine ⟨?_, cursor_setAddress hasCS 0 0 _⟩
  have h0 := steps_log s .clearScreen
  have h1 := h0.trans (steps_clearRow hasCS 0 _ (by decide)).1
  have h2 := h1.trans (steps_clearRow hasCS 1 _ (by decide)).1
  have h3 := h2.trans (steps_clearRow hasCS 2 _ (by decide)).1
  have h4 := h3.trans (steps_clearRow hasCS 3 _ (by decide)).1
  have h5 := h4.trans (steps_setAddress hasCS 0 0 _)
  simpa [clearCalls] using h5

theorem rowCalls_setAddress (j : Nat) :
    (rowCalls j).filter Call.isSetAddress = [.setAddress 0 j, .setAddress 0 (j + 1)] := by
  simp [rowCalls, setAddressCalls, Call.isSetAddress, List.filter_cons, List.filter_append,
    List.filter_replicate]

theorem rowCalls_dataWrite (j : Nat) :
    (rowCalls j).filter Call.isDataWrite = List.replicate 122 (.dataWrite 0) := by
  simp [rowCalls, setAddressCalls, Call.isDataWrite, List.filter_cons, List.filter_append,
    List.filter_replicate, List.replicate_succ']

theorem clearCalls_setAddress :
    clearCalls.filter Call.isSetAddress =
      [.setAddress 0 0, .setAddress 0 1, .setAddress 0 1, .setAddress 0 2, .setAddress 0 2,
        .setAddress 0 3, .setAddress 0 3, .setAddress 0 4, .setAddress 0 0] := by
  simp [clearCalls, List.filter_cons, List.filter_append, rowCalls_setAddress,
    setAddressCalls, Call.isSetAddress]

theorem clearCalls_dataWrite :
    clearCalls.filter Call.isDataWrite = List.replicate 488 (.dataWrite 0) := by
  simp only [clearCalls, List.filter_cons, List.filter_append, rowCalls_dataWrite]
  simp [setAddressCalls, Call.isDataWrite, List.filter_cons, ← List.replicate_add]

theorem abs_writeAll_append (as bs : List Nat) (v : View) :
    Abs.writeAll (as ++ bs) v = Abs.writeAll bs (Abs.writeAll as v) := by
  simp [Abs.writeAll, List.foldl_append]

theorem abs_forLoop_const (b n : Nat) (v : View) :
    Abs.forLoop n (fun _ v => Abs.dataWrite b v) v = Abs.writeAll (List.replicate n b) v := by
  induction n with
  | zero =>
    simp only [Abs.forLoop, Abs.writeAll, List.range_zero, List.replicate_zero, List.foldl_nil]
  | succ n ih =>
    unfold Abs.forLoop at ih ⊢
    rw [List.range_succ, List.foldl_append, ih, List.replicate_succ', abs_writeAll_append]
    simp only [Abs.writeAll, List.foldl_cons, List.foldl_nil]

theorem abs_forLoop_four (f : Nat → View → View) (v : View) :
    Abs.forLoop 4 f v = f 3 (f 2 (f 1 (f 0 v))) := by
  simp only [Abs.forLoop, range_four, List.foldl_cons, List.foldl_nil]

theorem abs_clearScreen_eq (v : View) :
    Abs.clearScreen v = Abs.setAddress 0 0
      (Abs.clearRow 3 (Abs.clearRow 2 (Abs.clearRow 1 (Abs.clearRow 0
        { v with seen := v.seen ++ [Event.call .clearScreen] })))) := by
  have h4 : GLCD_YPIXELS / 8 = 4 := by decide
  simp only [Abs.clearScreen, h4, abs_forLoop_four, Abs.clearRow]

theorem getD_replicate_zero (n i : Nat) : (List.replicate n 0).getD i 0 = 0 := by
  rw [List.getD_eq_getElem?_getD, List.getElem?_replicate]
  split_ifs <;> rfl

theorem abs_clearRow_byteAt (j : Nat) (v : View) (hj : j < 4) (q c : Nat) (hc : c < 122) :
    (Abs.clearRow j v).byteAt q c = if q = j then 0 else v.byteAt q c := by
  unfold Abs.clearRow
  rw [GLCD_XPIXELS, abs_forLoop_const]
  obtain ⟨a1, _, a3⟩ := abs_setAddress_synced 0 j v (by decide) hj
  rw [abs_writeAll_byteAt _ _ j a3 (by rw [a1]; simp) q c hc, a1, abs_setAddress_byteAt]
  by_cases h : q = j
  · rw [if_pos ⟨h, by omega, by simpa using hc⟩, if_pos h]
    rw [getD_replicate_zero]
  · rw [if_neg (fun h2 => h h2.1), if_neg h]

theorem abs_clearScreen_byteAt (v : View) (q c : Nat) (hq : q < 4) (hc : c < 122) :
    (Abs.clearScreen v).byteAt q c = 0 := by
  rw [abs_clearScreen_eq, abs_setAddress_byteAt,
    abs_clearRow_byteAt 3 _ (by decide) q c hc, abs_clearRow_byteAt 2 _ (by decide) q c hc,
    abs_clearRow_byteAt 1 _ (by decide) q c hc, abs_clearRow_byteAt 0 _ (by decide) q c hc]
  interval_cases q <;> simp

theorem adds_refl (a : List Event) : Adds a a 0 :=
  ⟨[], by simp, rfl, by simp⟩

theorem adds_trans {a b c : List Event} {n m : Nat} (h1 : Adds a b n) (h2 : Adds b c m) :
    Adds a c (n + m) := by
  obtain ⟨L1, e1, l1, p1⟩ := h1
  obtain ⟨L2, e2, l2, p2⟩ := h2
  refine ⟨L1 ++ L2, by rw [e2, e1, List.append_assoc], by simp [l1, l2], ?_⟩
  intro c hc
  rcases List.mem_append.1 hc with h | h
  · exact p1 c h
  · exact p2 c h

theorem adds_setAddress (x p : Nat) (v : View) : Adds v.seen (Abs.setAddress x p v).seen 0 :=
  ⟨[], by rw [abs_setAddress_dataCycles]; simp, rfl, by simp⟩

theorem adds_dataWrite (v : View) : Adds v.seen (Abs.dataWrite 0 v).seen 1 :=
  ⟨[⟨Abs.owner v, true, false, 0⟩], by rw [abs_dataWrite_dataCycles], rfl, by simp⟩

theorem adds_writeAll (n : Nat) :
    ∀ v : View, Adds v.seen (Abs.writeAll (List.replicate n 0) v).seen n := by
  induction n with
  | zero => intro v; exact adds_refl _
  | succ n ih =>
    intro v
    rw [List.replicate_succ]
    have := adds_trans (adds_dataWrite v) (ih (Abs.dataWrite 0 v))
    rw [Nat.add_comm] at this
    simpa only [Abs.writeAll, List.foldl_cons] using this

theorem adds_clearRow (j : Nat) (v : View) : Adds v.seen (Abs.clearRow j v).seen 122 := by
  unfold Abs.clearRow
  rw [GLCD_XPIXELS, abs_forLoop_const]
  simpa using adds_trans (adds_setAddress 0 j v) (adds_writeAll 122 _)

theorem adds_clearScreen (v : View) : Adds v.seen (Abs.clearScreen v).seen 488 := by
  rw [abs_clearScreen_eq]
  have h0 : Adds v.seen
      ({ v with seen := v.seen ++ [Event.call .clearScreen] } : View).seen 0 :=
    ⟨[], by simp [dataCycles, cycles], rfl, by simp⟩
  have h1 := adds_trans h0 (adds_clearRow 0 _)
  have h2 := adds_trans h1 (adds_clearRow 1 _)
  have h3 := adds_trans h2 (adds_clearRow 2 _)
  have h4 := adds_trans h3 (adds_clearRow 3 _)
  exact adds_trans h4 (adds_setAddress 0 0 _)

/-! ## Reading back -/

theorem blank_of_byteAt (v : View) (h : ∀ q c, q < 4 → c < 122 → v.byteAt q c = 0) :
    Blank v := by
  intro q c hq hc
  have h1 := h q c hq (by omega)
  have h2 := h q (c + 61) hq (by omega)
  rw [byteAt_left _ _ _ hc] at h1
  rw [byteAt_right _ _ _ (by omega)] at h2
  simp only [Nat.add_sub_cancel] at h2
  exact ⟨h1, h2⟩

theorem cycle_cmd_regs (k : Controller) (d : Nat) (hp : k.page < 4) (hc : k.column < 61)
    (hd : d < 61 ∨ 128 ≤ d) :
    (k.cycle false false d).1.page < 4 ∧ (k.cycle false false d).1.column < 61 := by
  unfold Controller.cycle
  simp only
  split_ifs with h1 h2
  · exact ⟨hp, by show d < 61; omega⟩
  · exact ⟨by show d - 184 < 4; omega, hc⟩
  · exact ⟨hp, hc⟩

theorem abs_commandWrite_regs (cmd ctl : Nat) (v : View) (h : RegsOK v)
    (hd : cmd % 256 < 61 ∨ 128 ≤ cmd % 256) : RegsOK (Abs.commandWrite cmd ctl v) := by
  obtain ⟨h1, h2, h3, h4⟩ := h
  have hl := cycle_cmd_regs v.left _ h1 h2 hd
  have hr := cycle_cmd_regs v.right _ h3 h4 hd
  unfold Abs.commandWrite RegsOK
  simp only
  split_ifs <;> simp [Abs.pulse, h1, h2, h3, h4, hl, hr]

theorem abs_setAddress_regs (x p : Nat) (v : View) (h : RegsOK v) (hx : x % 256 < 122) :
    RegsOK (Abs.setAddress x p v) := by
  have h0 : RegsOK { v with
      seen := v.seen ++ [Event.call (.setAddress (x % 256) (p % 256))],
      lcd_x := x % 256, lcd_page := p % 256 } := h
  unfold Abs.setAddress
  simp only
  split_ifs with hc
  · refine abs_commandWrite_regs _ _ _ (abs_commandWrite_regs _ _ _
      (abs_commandWrite_regs _ _ _ h0 ?_) ?_) ?_
    · left
      simp only [SET_COLUMN_ADDRESS, Nat.zero_or]
      rw [Nat.mod_eq_of_lt (by omega)]
      simpa using hc
    · left; decide
    · right
      simp only [abs_commandWrite_cursor, SET_PAGE_ADDRESS]
      exact or_184_ge p
  · refine abs_commandWrite_regs _ _ _ (abs_commandWrite_regs _ _ _ h0 ?_) ?_
    · left
      simp only [SET_COLUMN_ADDRESS, Nat.zero_or, GLCD_XPIXELS] at hc ⊢
      rw [Nat.mod_eq_of_lt (by omega)]
      omega
    · right
      simp only [abs_commandWrite_cursor, SET_PAGE_ADDRESS]
      exact or_184_ge p

theorem abs_setAddress_blank (x p : Nat) (v : View) (h : Blank v) :
    Blank (Abs.setAddress x p v) := by
  obtain ⟨h1, h2⟩ := abs_setAddress_mem x p v
  intro q c hq hc
  rw [h1, h2]
  exact h q c hq hc

theorem abs_advance_regs (v : View) (h : RegsOK v) : RegsOK (Abs.advance v) := by
  unfold Abs.advance
  simp only
  split_ifs
  · exact abs_setAddress_regs _ _ _ h (by decide)
  · exact h

theorem abs_advance_blank (v : View) (h : Blank v) : Blank (Abs.advance v) := by
  unfold Abs.advance
  simp only
  split_ifs
  · exact abs_setAddress_blank _ _ _ h
  · exact h

theorem abs_pulse_read_mem (who : Ctrl) (d : Nat) (v : View) :
    (Abs.pulse who true true d v).left.mem = v.left.mem ∧
      (Abs.pulse who true true d v).right.mem = v.right.mem := by
  cases who <;> exact ⟨rfl, rfl⟩

theorem abs_pulse_read_blank (who : Ctrl) (d : Nat) (v : View) (h : Blank v) :
    Blank (Abs.pulse who true true d v) := by
  obtain ⟨h1, h2⟩ := abs_pulse_read_mem who d v
  intro q c hq hc
  rw [h1, h2]
  exact h q c hq hc

theorem abs_dataRead_zero (v : View) (hr : RegsOK v) (hb : Blank v) :
    (Abs.dataRead v).2 = 0 ∧ RegsOK (Abs.dataRead v).1 ∧ Blank (Abs.dataRead v).1 := by
  obtain ⟨h1, h2, h3, h4⟩ := hr
  have zl := (hb _ _ h1 h2).1
  have zr := (hb _ _ h3 h4).2
  unfold Abs.dataRead
  simp only
  refine ⟨?_, ?_, ?_⟩
  · by_cases hx : v.lcd_x < 61 <;>
    simp [Abs.owner, Abs.pulse, Controller.cycle, hx, zl, zr]
  · apply abs_advance_regs
    by_cases hx : v.lcd_x < 61 <;>
    simp [RegsOK, Abs.owner, Abs.pulse, Controller.cycle, hx, h1, h2, h3, h4]
  · apply abs_advance_blank
    apply abs_pulse_read_blank
    apply abs_pulse_read_blank
    exact hb

theorem abs_readMany_zero (n : Nat) :
    ∀ v : View, RegsOK v → Blank v → (Abs.readMany n v).2 = List.replicate n 0 := by
  induction n with
  | zero => intro v _ _; rfl
  | succ n ih =>
    intro v hr hb
    obtain ⟨z, r, b⟩ := abs_dataRead_zero v hr hb
    simp only [Abs.readMany, List.replicate_succ, z, ih _ r b]

theorem sim_readMany (hasCS : Bool) (n : Nat) :
    ∀ (s : State) (v : View), Sim hasCS s v →
      Sim hasCS (readMany hasCS n s).1 (Abs.readMany n v).1 ∧
        (readMany hasCS n s).2 = (Abs.readMany n v).2 := by
  induction n with
  | zero => intro s v h; exact ⟨h, rfl⟩
  | succ n ih =>
    intro s v h
    obtain ⟨h1, h2⟩ := sim_dataRead hasCS s v h
    obtain ⟨i1, i2⟩ := ih _ _ h1
    exact ⟨by simpa only [readMany, Abs.readMany] using i1,
      by simp only [readMany, Abs.readMany, h2, i2]⟩

theorem abs_clearScreen_regs (v : View) : RegsOK (Abs.clearScreen v) := by
  rw [abs_clearScreen_eq, abs_setAddress_left 0 0 _ (by decide) (by decide)]
  simp [RegsOK]

theorem steps_dataRead (hasCS : Bool) (s : State) :
    Steps s (glcdDataRead hasCS s).1 (.dataRead :: advanceCalls s.lcd_x s.lcd_page) := by
  unfold glcdDataRead
  have h0 := steps_log s .dataRead
  have h1 := h0.then (steps_ctlSet hasCS SED1520_A0 _)
  have h2 := h1.then (steps_ctlSet hasCS SED1520_RW _)
  have h3 := h2.then (steps_dataDDRWrite 0x00 _)
  have h4 := h3.then (steps_dataPortWrite 0xFF _)
  have key : ∀ t : State, Steps s t [.dataRead] → cursor t = cursor s →
      Steps s (advance hasCS (dataDDRWrite 0xFF t))
        (.dataRead :: advanceCalls s.lcd_x s.lcd_page) := by
    intro t ht hc
    have := (ht.then (steps_dataDDRWrite 0xFF t)).trans (steps_advance hasCS _)
    have hx : (dataDDRWrite 0xFF t).lcd_x = s.lcd_x := congrArg Prod.fst hc
    have hp : (dataDDRWrite 0xFF t).lcd_page = s.lcd_page := congrArg Prod.snd hc
    rw [hx, hp] at this
    exact this
  cases hasCS
  · simp only [Bool.false_eq_true, if_false]
    split_ifs
    · exact key _ (((h4.then (steps_ctlSet _ _ _)).then (steps_ctlClr _ _ _)).then
        (steps_ctlSet _ _ _) |>.then (steps_ctlClr _ _ _)) (by simp)
    · exact key _ (((h4.then (steps_ctlSet _ _ _)).then (steps_ctlClr _ _ _)).then
        (steps_ctlSet _ _ _) |>.then (steps_ctlClr _ _ _)) (by simp)
  · simp only [if_true]
    apply key
    · refine (((((?_ : Steps s _ [.dataRead]).then (steps_ctlSet _ _ _)).then
        (steps_ctlClr _ _ _)).then (steps_ctlSet _ _ _)).then (steps_ctlClr _ _ _)).then
        (steps_ctlSet _ _ _)
      split_ifs
      · exact h4.then (steps_ctlClr _ _ _)
      · exact h4.then (steps_ctlClr _ _ _)
    · split_ifs <;> simp

theorem abs_dataRead_dataCycles (v : View) :
    dataCycles (Abs.dataRead v).1.seen =
      dataCycles v.seen ++ [⟨Abs.owner v, true, true, 0⟩, ⟨Abs.owner v, true, true, 0⟩] := by
  unfold Abs.dataRead Abs.advance
  simp only
  split_ifs
  · rw [abs_setAddress_dataCycles]
    simp [dataCycles, cycles, Abs.owner]
  · simp [dataCycles, cycles, Abs.owner]

theorem abs_dataRead_seen (v : View) (hx : v.lcd_x < 121) :
    (Abs.dataRead v).1.seen = v.seen ++
      [Event.call .dataRead, Event.cycle ⟨Abs.owner v, true, true, 0⟩,
        Event.cycle ⟨Abs.owner v, true, true, 0⟩] := by
  have hm : (v.lcd_x + 1) % 256 = v.lcd_x + 1 := Nat.mod_eq_of_lt (by omega)
  have hn : ¬ 122 ≤ v.lcd_x + 1 := by omega
  simp [Abs.dataRead, Abs.advance, Abs.owner, hm, hn]

theorem abs_setAddress_zero_seen (q : Nat) (v : View) (hq : q < 256) :
    (Abs.setAddress 0 q v).seen = v.seen ++
      [Event.call (.setAddress 0 q),
        Event.call (.commandWrite 0 1), Event.cycle ⟨.left, false, false, 0⟩,
        Event.call (.commandWrite 0 2), Event.cycle ⟨.right, false, false, 0⟩,
        Event.call (.commandWrite (184 ||| q) 3), Event.cycle ⟨.left, false, false, 184 ||| q⟩,
        Event.cycle ⟨.right, false, false, 184 ||| q⟩] := by
  have h2 : q % 256 = q := Nat.mod_eq_of_lt hq
  have h3 : (184 ||| q) % 256 = 184 ||| q := Nat.mod_eq_of_lt (or_184_lt q hq)
  simp [Abs.setAddress, Abs.commandWrite, h2, h3]

theorem abs_dataRead_seen_edge (v : View) (hx : v.lcd_x = 121) :
    (Abs.dataRead v).1.seen = v.seen ++
      [Event.call .dataRead, Event.cycle ⟨.right, true, true, 0⟩,
        Event.cycle ⟨.right, true, true, 0⟩,
        Event.call (.setAddress 0 ((v.lcd_page + 1) % 256)),
        Event.call (.commandWrite 0 1), Event.cycle ⟨.left, false, false, 0⟩,
        Event.call (.commandWrite 0 2), Event.cycle ⟨.right, false, false, 0⟩,
        Event.call (.commandWrite (184 ||| (v.lcd_page + 1) % 256) 3),
        Event.cycle ⟨.left, false, false, 184 ||| (v.lcd_page + 1) % 256⟩,
        Event.cycle ⟨.right, false, false, 184 ||| (v.lcd_page + 1) % 256⟩] := by
  have e : (Abs.dataRead v).1 = Abs.setAddress 0 ((v.lcd_page + 1) % 256)
      { Abs.pulse .right true true 0 (Abs.pulse .right true true 0
          { v with seen := v.seen ++ [Event.call .dataRead] }) with lcd_x := 122 } := by
    simp [Abs.dataRead, Abs.advance, Abs.owner, hx, Abs.setAddress]
  rw [e, abs_setAddress_zero_seen _ _ (Nat.mod_lt _ (by decide))]
  simp

/-- What `glcdDataRead` puts on the bus, on an idle bus with the cursor on the
display. -/
theorem dataRead_cycles (hasCS : Bool) (s : State) (hi : Idle hasCS s) :
    dataCycles (issued s (glcdDataRead hasCS s).1) =
      [⟨(Route s.lcd_x).1, true, true, 0⟩, ⟨(Route s.lcd_x).1, true, true, 0⟩] ∧
    (s.lcd_x < 121 → cycles (issued s (glcdDataRead hasCS s).1) =
      [⟨(Route s.lcd_x).1, true, true, 0⟩, ⟨(Route s.lcd_x).1, true, true, 0⟩]) ∧
    (s.lcd_x = 121 → cycles (issued s (glcdDataRead hasCS s).1) =
      [⟨.right, true, true, 0⟩, ⟨.right, true, true, 0⟩,
        ⟨.left, false, false, 0⟩, ⟨.right, false, false, 0⟩,
        ⟨.left, false, false, SET_PAGE_ADDRESS ||| (s.lcd_page + 1) % 256⟩,
        ⟨.right, false, false, SET_PAGE_ADDRESS ||| (s.lcd_page + 1) % 256⟩]) := by
  have h1 := (sim_dataRead hasCS s _ ⟨hi, rfl⟩).1
  have hst := steps_dataRead hasCS s
  refine ⟨?_, ?_, ?_⟩
  · apply dataCycles_issued hst
    rw [← dataCycles_obs, ← sim_seen h1, abs_dataRead_dataCycles, abs_owner]
    show dataCycles (obs s.trace) ++ _ = _
    rw [dataCycles_obs]
    rfl
  · intro hx
    rw [← cycles_obs, obs_issued hst
      (by rw [← sim_seen h1, abs_dataRead_seen _ (show (view s).lcd_x < 121 from hx),
        abs_owner]; rfl)]
    rfl
  · intro hx
    rw [← cycles_obs, obs_issued hst
      (by rw [← sim_seen h1, abs_dataRead_seen_edge _ (show (view s).lcd_x = 121 from hx)]; rfl)]
    rfl

/-! ## Properties of the specification -/

/-- C1: on an idle bus (busy check not compiled in), `glcdDataWrite` at a
cursor column `c < 122` delivers its data-write pulse to the controller
`Route c` names and to no other: the only bus cycle with address select high
goes there, and away from the last column it is the only bus cycle of the
call at all.  `glcdSetAddress c p` leaves that controller's column register at
the physical column `Route c` names.  `Route c` is `(left, c)` below 61 and
`(right, c - 61)` from 61 on. -/
theorem C1_route (hasCS : Bool) (s t : State) (c p b : Nat) (hs : Idle hasCS s)
    (ht : Idle hasCS t) (hx : s.lcd_x = c) (hc : c < 122) :
    dataCycles (issued s (glcdDataWrite hasCS b s)) = [⟨(Route c).1, true, false, b % 256⟩] ∧
    (c < 121 →
      cycles (issued s (glcdDataWrite hasCS b s)) = [⟨(Route c).1, true, false, b % 256⟩]) ∧
    ((glcdSetAddress hasCS c p t).ctrl (Route c).1).column = (Route c).2 ∧
    (c < 61 → Route c = (Ctrl.left, c)) ∧ (61 ≤ c → Route c = (Ctrl.right, c - 61)) := by
  have h0 : Sim hasCS s (view s) := ⟨hs, rfl⟩
  have h1 := sim_dataWrite hasCS b s _ h0
  have hv : (view s).lcd_x = c := hx
  refine ⟨?_, ?_, ?_, ?_, ?_⟩
  · apply dataCycles_issued (steps_dataWrite hasCS b s)
    rw [← dataCycles_obs, ← sim_seen h1, abs_dataWrite_dataCycles, abs_owner, hv]
    show dataCycles (obs s.trace) ++ _ = _
    rw [dataCycles_obs]
  · intro hc1
    rw [← cycles_obs, obs_issued (steps_dataWrite hasCS b s)
      (by rw [← sim_seen h1, abs_dataWrite_seen b _ (by rw [hv]; exact hc1), abs_owner, hv]; rfl)]
    rfl
  · rw [sim_ctrl (sim_setAddress hasCS c p t _ ⟨ht, rfl⟩)]
    exact abs_setAddress_column c p _ hc
  · intro h
    simp [Route, h]
  · intro h
    have : ¬ c < 61 := by omega
    simp [Route, this]

/-- Witness for C1: after `glcdInit` and `glcdSetAddress 61 2` in the
chip-select variant, a data write of 7 pulses the right controller only, and
`glcdSetAddress 61 2` leaves the right controller at column 0. -/
theorem C1_route_witness :
    Idle true (glcdSetAddress true 61 2 (afterInit true)) ∧ Idle true (afterInit true) ∧
    (glcdSetAddress true 61 2 (afterInit true)).lcd_x = 61 ∧ 61 < 122 ∧
    cycles (issued (glcdSetAddress true 61 2 (afterInit true))
      (glcdDataWrite true 7 (glcdSetAddress true 61 2 (afterInit true)))) =
        [⟨Ctrl.right, true, false, 7⟩] ∧
    (glcdSetAddress true 61 2 (afterInit true)).right.column = 0 :=
  have hi : Idle true (afterInit true) := glcdInit_idle true powerOn
  have hs : Idle true (glcdSetAddress true 61 2 (afterInit true)) :=
    (sim_setAddress true 61 2 _ _ ⟨hi, rfl⟩).1
  have h := C1_route true (glcdSetAddress true 61 2 (afterInit true)) (afterInit true) 61 2 7
    hs hi (by decide) (by decide)
  ⟨hs, hi, by decide, by decide, h.2.1 (by decide), h.2.2.1⟩

/-- C2: on an idle bus, for a column `c < 61` and a page `p < 4`,
`glcdSetAddress c p` records, besides its own entry, exactly three command
writes and the four bus cycles they cause: column command `c` to the left
controller only, column command 0 to the right controller only, and page
command `0xB8 | p` to both.  Afterwards the left controller is at column `c`,
the right one at column 0, and both at page `p`. -/
theorem C2_setAddress_left (hasCS : Bool) (s : State) (c p : Nat) (hi : Idle hasCS s)
    (hc : c < 61) (hp : p < 4) :
    obs (issued s (glcdSetAddress hasCS c p s)) =
      [Event.call (.setAddress c p),
        Event.call (.commandWrite (SET_COLUMN_ADDRESS ||| c) CTRL1),
        Event.cycle ⟨.left, false, false, c⟩,
        Event.call (.commandWrite (SET_COLUMN_ADDRESS ||| 0) CTRL2),
        Event.cycle ⟨.right, false, false, 0⟩,
        Event.call (.commandWrite (SET_PAGE_ADDRESS ||| p) (CTRL1 + CTRL2)),
        Event.cycle ⟨.left, false, false, SET_PAGE_ADDRESS ||| p⟩,
        Event.cycle ⟨.right, false, false, SET_PAGE_ADDRESS ||| p⟩] ∧
    (glcdSetAddress hasCS c p s).left.column = c ∧
    (glcdSetAddress hasCS c p s).right.column = 0 ∧
    (glcdSetAddress hasCS c p s).left.page = p ∧
    (glcdSetAddress hasCS c p s).right.page = p := by
  have h1 := sim_setAddress hasCS c p s _ ⟨hi, rfl⟩
  have hv := h1.2
  rw [abs_setAddress_left c p _ hc hp] at hv
  have hl : (glcdSetAddress hasCS c p s).left = _ := congrArg View.left hv
  have hr : (glcdSetAddress hasCS c p s).right = _ := congrArg View.right hv
  have hseen : obs (glcdSetAddress hasCS c p s).trace = _ := congrArg View.seen hv
  refine ⟨?_, ?_, ?_, ?_, ?_⟩
  · have hs := steps_setAddress hasCS c p s
    rw [obs_issued hs hseen]
    simp [or_184 p hp]
  · rw [hl]
  · rw [hr]
  · rw [hl]
  · rw [hr]

/-- Witness for C2: `glcdSetAddress 60 2` after `glcdInit`, two-enable
variant. -/
theorem C2_setAddress_left_witness :
    Idle false (afterInit false) ∧ 60 < 61 ∧ 2 < 4 ∧
    (glcdSetAddress false 60 2 (afterInit false)).left.column = 60 ∧
    (glcdSetAddress false 60 2 (afterInit false)).right.column = 0 ∧
    (glcdSetAddress false 60 2 (afterInit false)).left.page = 2 ∧
    (glcdSetAddress false 60 2 (afterInit false)).right.page = 2 :=
  ⟨glcdInit_idle false powerOn, by decide, by decide,
    (C2_setAddress_left false (afterInit false) 60 2 (glcdInit_idle false powerOn)
      (by decide) (by decide)).2⟩

/-- C3: on an idle bus, for a column `c` in `[61, 122)` and a page `p < 4`,
`glcdSetAddress c p` records, besides its own entry, exactly two command
writes, column command `c - 61` and page command `0xB8 | p`, each causing one
bus cycle on the right controller.  The right controller ends at column
`c - 61`, page `p`; the left controller is unchanged, and in every port write
of the call its enabling line stays at rest (CS1 high, respectively E1 low). -/
theorem C3_setAddress_right (hasCS : Bool) (s : State) (c p : Nat) (hi : Idle hasCS s)
    (hc1 : 61 ≤ c) (hc2 : c < 122) (hp : p < 4) :
    obs (issued s (glcdSetAddress hasCS c p s)) =
      [Event.call (.setAddress c p),
        Event.call (.commandWrite (SET_COLUMN_ADDRESS ||| (c - GLCD_XPIXELS / 2)) CTRL2),
        Event.cycle ⟨.right, false, false, c - GLCD_XPIXELS / 2⟩,
        Event.call (.commandWrite (SET_PAGE_ADDRESS ||| p) CTRL2),
        Event.cycle ⟨.right, false, false, SET_PAGE_ADDRESS ||| p⟩] ∧
    (glcdSetAddress hasCS c p s).right.column = c - GLCD_XPIXELS / 2 ∧
    (glcdSetAddress hasCS c p s).right.page = p ∧
    (glcdSetAddress hasCS c p s).left = s.left ∧
    ∀ e ∈ issued s (glcdSetAddress hasCS c p s), leftLineIdle hasCS e := by
  have h1 := sim_setAddress hasCS c p s _ ⟨hi, rfl⟩
  have hv := h1.2
  rw [abs_setAddress_right c p _ hc1 hc2 hp] at hv
  have hl : (glcdSetAddress hasCS c p s).left = _ := congrArg View.left hv
  have hr : (glcdSetAddress hasCS c p s).right = _ := congrArg View.right hv
  have hseen : obs (glcdSetAddress hasCS c p s).trace = _ := congrArg View.seen hv
  refine ⟨?_, ?_, ?_, ?_, ?_⟩
  · have hs := steps_setAddress hasCS c p s
    rw [obs_issued hs hseen]
    simp [or_184 p hp]
  · simp [hr]
  · simp [hr]
  · rw [hl]; rfl
  · have hm : c % 256 = c := Nat.mod_eq_of_lt (by omega)
    have hn : ¬ c < 61 := by omega
    have e0 : glcdSetAddress hasCS c p s =
        glcdCommandWrite hasCS (SET_PAGE_ADDRESS ||| p % 256) 2
          (glcdCommandWrite hasCS (SET_COLUMN_ADDRESS ||| (c - 61)) 2
            { s.log (.call (.setAddress c (p % 256))) with lcd_x := c, lcd_page := p % 256 }) := by
      unfold glcdSetAddress
      simp only [hm, GLCD_XPIXELS, CTRL2]
      rw [if_neg (by omega)]
      congr 1
      have := cursor_commandWrite hasCS (SET_COLUMN_ADDRESS ||| (c - 61)) 2
        { s.log (.call (.setAddress c (p % 256))) with lcd_x := c, lcd_page := p % 256 }
      have := congrArg Prod.snd this
      simp only [cursor] at this
      rw [this]
    rw [e0]
    have i0 : Idle hasCS
        ({ s.log (.call (.setAddress c (p % 256))) with lcd_x := c, lcd_page := p % 256 }) := hi
    have i1 := (sim_commandWrite hasCS (SET_COLUMN_ADDRESS ||| (c - 61)) 2 _ _ ⟨i0, rfl⟩).1
    have st0 : Steps s
        ({ s.log (.call (.setAddress c (p % 256))) with lcd_x := c, lcd_page := p % 256 })
        [.setAddress c (p % 256)] := steps_log s _
    have st1 := steps_commandWrite hasCS (SET_COLUMN_ADDRESS ||| (c - 61)) 2
      { s.log (.call (.setAddress c (p % 256))) with lcd_x := c, lcd_page := p % 256 }
    have st2 := steps_commandWrite hasCS (SET_PAGE_ADDRESS ||| p % 256) 2
      (glcdCommandWrite hasCS (SET_COLUMN_ADDRESS ||| (c - 61)) 2
        { s.log (.call (.setAddress c (p % 256))) with lcd_x := c, lcd_page := p % 256 })
    rw [issued_trans (st0.trans st1) st2, issued_trans st0 st1]
    intro e he
    rcases List.mem_append.1 he with he | he
    · rcases List.mem_append.1 he with he | he
      · have : issued s ({ s.log (.call (.setAddress c (p % 256))) with
            lcd_x := c, lcd_page := p % 256 }) = [Event.call (.setAddress c (p % 256))] :=
          issued_of_eq rfl
        rw [this] at he
        simp only [List.mem_singleton] at he
        rw [he]
        trivial
      · exact cw2_quiet hasCS _ _ i0 e he
    · exact cw2_quiet hasCS _ _ i1 e he

/-- Witness for C3: `glcdSetAddress 61 2` after `glcdInit`, chip-select
variant. -/
theorem C3_setAddress_right_witness :
    Idle true (afterInit true) ∧ 61 ≤ 61 ∧ 61 < 122 ∧ 2 < 4 ∧
    (glcdSetAddress true 61 2 (afterInit true)).right.column = 0 ∧
    (glcdSetAddress true 61 2 (afterInit true)).right.page = 2 ∧
    (glcdSetAddress true 61 2 (afterInit true)).left = (afterInit true).left :=
  have h := C3_setAddress_right true (afterInit true) 61 2 (glcdInit_idle true powerOn)
    (by decide) (by decide) (by decide)
  ⟨glcdInit_idle true powerOn, by decide, by decide, by decide, h.2.1, h.2.2.1, h.2.2.2.1⟩

/-- C4: on an idle bus, with the controller model of `Controller.cycle`, for a
column `c < 122`, a page `p < 4` and bytes `bs` with `c + bs.length ≤ 122`,
after `glcdSetAddress c p` and one `glcdDataWrite` per byte the `k`-th byte is
the display byte at page `p`, logical column `c + k`, that is at the physical
column `Route (c + k)` names on the controller it names, for every
`k < bs.length`, also when the run crosses from column 60 to column 61. -/
theorem C4_write_run (hasCS : Bool) (s : State) (c p : Nat) (bs : List Nat)
    (hi : Idle hasCS s) (hc : c < 122) (hp : p < 4) (hl : c + bs.length ≤ 122)
    (hb : ∀ b ∈ bs, b < 256) :
    ∀ k, k < bs.length →
      bs[k]? = some (byteAt (writeAll hasCS bs (glcdSetAddress hasCS c p s)) p (c + k)) := by
  intro k hk
  have h0 : Sim hasCS s (view s) := ⟨hi, rfl⟩
  have h1 := sim_setAddress hasCS c p s _ h0
  have h2 := sim_writeAll hasCS bs _ _ h1
  obtain ⟨a1, _, a3⟩ := abs_setAddress_synced c p (view s) hc hp
  rw [sim_byteAt h2, abs_writeAll_byteAt bs _ p a3 (by rw [a1]; exact hl) p (c + k) (by omega)]
  rw [a1, if_pos ⟨rfl, by omega, by omega⟩]
  have : c + k - c = k := by omega
  rw [this, List.getD_eq_getElem?_getD, List.getElem?_eq_getElem hk]
  simp only [Option.getD_some]
  rw [Nat.mod_eq_of_lt (hb _ (List.getElem_mem hk))]

/-- Witness for C4: three bytes written from column 60 of page 2; the second
lands at logical column 61, the first column of the right controller. -/
theorem C4_write_run_witness :
    Idle false (afterInit false) ∧ 60 < 122 ∧ 2 < 4 ∧ 60 + [170, 85, 1].length ≤ 122 ∧
    [170, 85, 1][1]? = some (byteAt
      (writeAll false [170, 85, 1] (glcdSetAddress false 60 2 (afterInit false))) 2 (60 + 1)) :=
  ⟨glcdInit_idle false powerOn, by decide, by decide, by decide,
    C4_write_run false (afterInit false) 60 2 [170, 85, 1] (glcdInit_idle false powerOn)
      (by decide) (by decide) (by decide) (by decide) 1 (by decide)⟩

/-- C5: from the cursor `(0, p)` set by `glcdSetAddress 0 p`, the first 121 data
writes record no function entry but their own (no command write, no
`glcdSetAddress`), the 122nd calls `glcdSetAddress 0 (p + 1)` once, with its
three command writes, and the cursor ends at column 0 of page `p + 1` (as an
`unsigned char`; `p + 1` itself for every `p < 255`). -/
theorem C5_row_wrap (hasCS : Bool) (s : State) (p b : Nat) (bs : List Nat) (hp : p < 256)
    (hl : bs.length = 121) :
    cursor (glcdSetAddress hasCS 0 p s) = (0, p) ∧
    calls (issued (glcdSetAddress hasCS 0 p s) (writeAll hasCS bs (glcdSetAddress hasCS 0 p s)))
      = bs.map (fun x => Call.dataWrite (x % 256)) ∧
    calls (issued (writeAll hasCS bs (glcdSetAddress hasCS 0 p s))
        (glcdDataWrite hasCS b (writeAll hasCS bs (glcdSetAddress hasCS 0 p s))))
      = [.dataWrite (b % 256), .setAddress 0 ((p + 1) % 256),
          .commandWrite 0 CTRL1, .commandWrite 0 CTRL2,
          .commandWrite (SET_PAGE_ADDRESS ||| (p + 1) % 256) (CTRL1 + CTRL2)] ∧
    cursor (writeAll hasCS (bs ++ [b]) (glcdSetAddress hasCS 0 p s)) = (0, (p + 1) % 256) ∧
    (p < 255 → cursor (writeAll hasCS (bs ++ [b]) (glcdSetAddress hasCS 0 p s)) = (0, p + 1)) := by
  have h0 : cursor (glcdSetAddress hasCS 0 p s) = (0, p) := by
    rw [cursor_setAddress, Nat.mod_eq_of_lt hp]
  have hx0 : (glcdSetAddress hasCS 0 p s).lcd_x = 0 := congrArg Prod.fst h0
  have hp0 : (glcdSetAddress hasCS 0 p s).lcd_page = p := congrArg Prod.snd h0
  obtain ⟨w1, w2⟩ := steps_writeAll hasCS bs (glcdSetAddress hasCS 0 p s) (by rw [hx0, hl])
  rw [hx0, hp0, hl] at w2
  have hx1 : (writeAll hasCS bs (glcdSetAddress hasCS 0 p s)).lcd_x = 121 := by
    have := congrArg Prod.fst w2
    simpa [cursor] using this
  have hp1 : (writeAll hasCS bs (glcdSetAddress hasCS 0 p s)).lcd_page = p :=
    congrArg Prod.snd w2
  have d1 := steps_dataWrite hasCS b (writeAll hasCS bs (glcdSetAddress hasCS 0 p s))
  have d2 := cursor_dataWrite hasCS b (writeAll hasCS bs (glcdSetAddress hasCS 0 p s))
  rw [hx1, hp1, advanceCalls_edge] at d1
  rw [hx1, hp1, nextCursor_edge] at d2
  have hfin : cursor (writeAll hasCS (bs ++ [b]) (glcdSetAddress hasCS 0 p s))
      = (0, (p + 1) % 256) := by
    rw [writeAll_append]
    exact d2
  refine ⟨h0, steps_issued w1, ?_, hfin, ?_⟩
  · rw [steps_issued d1]
    simp [setAddressCalls]
  · intro h
    rw [hfin, Nat.mod_eq_of_lt (by omega)]

/-- Witness for C5: the last page, in the two-enable variant, with 122 zero
bytes: the cursor ends at `(0, 4)`. -/
theorem C5_row_wrap_witness :
    3 < 256 ∧ (List.replicate 121 0).length = 121 ∧
    cursor (writeAll false (List.replicate 121 0 ++ [0]) (glcdSetAddress false 0 3 powerOn))
      = (0, 3 + 1) :=
  ⟨by decide, by simp,
    (C5_row_wrap false powerOn 3 0 (List.replicate 121 0) (by decide) (by simp)).2.2.2.2
      (by decide)⟩

/-- C6: for 8-bit `c` and `p`, whatever the state before and wherever `c`
lies, the cursor right after `glcdSetAddress c p` is `(c, p)`. -/
theorem C6_setAddress_cursor (hasCS : Bool) (s : State) (c p : Nat) (hc : c < 256)
    (hp : p < 256) :
    (glcdSetAddress hasCS c p s).lcd_x = c ∧ (glcdSetAddress hasCS c p s).lcd_page = p := by
  have h := cursor_setAddress hasCS c p s
  rw [Nat.mod_eq_of_lt hc, Nat.mod_eq_of_lt hp] at h
  exact ⟨congrArg Prod.fst h, congrArg Prod.snd h⟩

/-- Witness for C6: a column beyond the display and a page beyond the last. -/
theorem C6_setAddress_cursor_witness :
    200 < 256 ∧ 9 < 256 ∧
    (glcdSetAddress true 200 9 powerOn).lcd_x = 200 ∧
    (glcdSetAddress true 200 9 powerOn).lcd_page = 9 :=
  ⟨by decide, by decide, C6_setAddress_cursor true powerOn 200 9 (by decide) (by decide)⟩

/-- The state `scribbled` is at rest. -/
theorem scribbled_idle (hasCS : Bool) : Idle hasCS (scribbled hasCS) :=
  (sim_writeAll hasCS _ _ _
    (sim_setAddress hasCS 60 2 _ _ ⟨glcdInit_idle hasCS powerOn, rfl⟩)).1

/-- C7: with the controller model of `Controller.cycle`, `glcdClearScreen`
started on an idle bus from any cursor and any memory contents leaves every
displayed byte zero (pages 0..3, physical columns 0..60 of both controllers,
that is logical columns 0..121); afterwards `glcdDataRead` returns 0 at every
position addressed with `glcdSetAddress`, and so does every read of a
sequence of `glcdDataRead` calls: what the dummy cycle puts on the bus never
reaches the result. -/
theorem C7_clearScreen_zero (hasCS : Bool) (s : State) (hi : Idle hasCS s) :
    (∀ p c, p < 4 → c < 61 →
      (glcdClearScreen hasCS s).left.mem p c = 0 ∧ (glcdClearScreen hasCS s).right.mem p c = 0) ∧
    (∀ p c, p < 4 → c < 122 → byteAt (glcdClearScreen hasCS s) p c = 0) ∧
    (∀ p c, p < 4 → c < 122 →
      (glcdDataRead hasCS (glcdSetAddress hasCS c p (glcdClearScreen hasCS s))).2 = 0) ∧
    (∀ n, (readMany hasCS n (glcdClearScreen hasCS s)).2 = List.replicate n 0) := by
  have h1 := sim_clearScreen hasCS s _ ⟨hi, rfl⟩
  have hb : Blank (Abs.clearScreen (view s)) :=
    blank_of_byteAt _ (fun q c hq hc => abs_clearScreen_byteAt _ q c hq hc)
  have hr := abs_clearScreen_regs (view s)
  refine ⟨?_, ?_, ?_, ?_⟩
  · intro p c hp hc
    have := hb p c hp hc
    rw [← h1.2] at this
    exact this
  · intro p c hp hc
    rw [sim_byteAt h1]
    exact abs_clearScreen_byteAt _ p c hp hc
  · intro p c _ hc
    have h2 := sim_setAddress hasCS c p _ _ h1
    rw [(sim_dataRead hasCS _ _ h2).2]
    exact (abs_dataRead_zero _
      (abs_setAddress_regs c p _ hr (by rw [Nat.mod_eq_of_lt (by omega)]; exact hc))
      (abs_setAddress_blank c p _ hb)).1
  · intro n
    rw [(sim_readMany hasCS n _ _ h1).2]
    exact abs_readMany_zero n _ hr hb

/-- Witness for C7: a display that is not blank.  After `glcdInit`,
`glcdSetAddress 60 2` and writes of `0xA5` and `0x3C` (chip-select variant), the
reads at columns 60 and 61 of page 2 return these bytes, one from each
controller; once `glcdClearScreen` has run, both reads return 0. -/
theorem C7_clearScreen_zero_witness :
    Idle true (scribbled true) ∧
    (glcdDataRead true (glcdSetAddress true 60 2 (scribbled true))).2 = 0xA5 ∧
    (glcdDataRead true (glcdSetAddress true 61 2 (scribbled true))).2 = 0x3C ∧
    (glcdDataRead true (glcdSetAddress true 60 2 (glcdClearScreen true (scribbled true)))).2
      = 0 ∧
    (glcdDataRead true (glcdSetAddress true 61 2 (glcdClearScreen true (scribbled true)))).2
      = 0 :=
  have h := C7_clearScreen_zero true (scribbled true) (scribbled_idle true)
  ⟨scribbled_idle true, by decide, by decide,
    h.2.2.1 2 60 (by decide) (by decide), h.2.2.1 2 61 (by decide) (by decide)⟩

/-- C8, as the code has it: one `glcdClearScreen` on an idle bus makes exactly
488 `glcdDataWrite` calls, all with the byte 0, causing exactly 488 data cycles
on the bus, all writes of 0; and it makes exactly nine `glcdSetAddress` calls,
all with column 0: one at the head of each page, one from the page wrap of the
122nd write of each page, and the closing `glcdSetAddress 0 0`. -/
theorem C8_clearScreen_counts (hasCS : Bool) (s : State) (hi : Idle hasCS s) :
    (calls (issued s (glcdClearScreen hasCS s))).filter Call.isDataWrite
      = List.replicate 488 (.dataWrite 0) ∧
    (dataCycles (issued s (glcdClearScreen hasCS s))).length = 488 ∧
    (∀ c ∈ dataCycles (issued s (glcdClearScreen hasCS s)),
      c.a0 = true ∧ c.rw = false ∧ c.data = 0) ∧
    (calls (issued s (glcdClearScreen hasCS s))).filter Call.isSetAddress
      = [.setAddress 0 0, .setAddress 0 1, .setAddress 0 1, .setAddress 0 2, .setAddress 0 2,
          .setAddress 0 3, .setAddress 0 3, .setAddress 0 4, .setAddress 0 0] := by
  have hst := (steps_clearScreen hasCS s).1
  have h1 := sim_clearScreen hasCS s _ ⟨hi, rfl⟩
  obtain ⟨L, e, l, pl⟩ := adds_clearScreen (view s)
  have hd : dataCycles (issued s (glcdClearScreen hasCS s)) = L := by
    apply dataCycles_issued hst
    rw [← dataCycles_obs, ← sim_seen h1, e]
    show dataCycles (obs s.trace) ++ _ = _
    rw [dataCycles_obs]
  rw [steps_issued hst, hd]
  exact ⟨clearCalls_dataWrite, l, pl, clearCalls_setAddress⟩

/-- Witness for C8 as amended: after `glcdInit` from power-up, two-enable
variant. -/
theorem C8_clearScreen_counts_witness :
    Idle false (afterInit false) ∧
    (dataCycles (issued (afterInit false) (glcdClearScreen false (afterInit false)))).length
      = 488 :=
  ⟨glcdInit_idle false powerOn,
    (C8_clearScreen_counts false (afterInit false) (glcdInit_idle false powerOn)).2.1⟩

/-- C8 as stated fails: after `glcdInit` from power-up, `glcdClearScreen` does
not make four `glcdSetAddress` calls but nine. -/
theorem C8_counterexample :
    ((calls (issued (afterInit false) (glcdClearScreen false (afterInit false)))).filter
        Call.isSetAddress).length = 9 ∧
    ((calls (issued (afterInit false) (glcdClearScreen false (afterInit false)))).filter
        Call.isSetAddress).length ≠ 4 := by
  rw [steps_issued (steps_clearScreen false (afterInit false)).1, clearCalls_setAddress]
  decide

/-- C9: from every state, `glcdClearScreen` returns (the embedding is a total
function; there is no busy wait to hang in), the cursor afterwards is
`(0, 0)`, and the last function entries recorded are those of
`glcdSetAddress 0 0` with its three command writes. -/
theorem C9_clearScreen_cursor (hasCS : Bool) (s : State) :
    (glcdClearScreen hasCS s).lcd_x = 0 ∧ (glcdClearScreen hasCS s).lcd_page = 0 ∧
    ∃ before, calls (issued s (glcdClearScreen hasCS s)) = before ++
      [.setAddress 0 0, .commandWrite (SET_COLUMN_ADDRESS ||| 0) CTRL1,
        .commandWrite (SET_COLUMN_ADDRESS ||| 0) CTRL2,
        .commandWrite (SET_PAGE_ADDRESS ||| 0) (CTRL1 + CTRL2)] := by
  obtain ⟨hst, hc⟩ := steps_clearScreen hasCS s
  refine ⟨congrArg Prod.fst hc, congrArg Prod.snd hc, ?_⟩
  rw [steps_issued hst]
  exact ⟨Call.clearScreen :: (rowCalls 0 ++ (rowCalls 1 ++ (rowCalls 2 ++ rowCalls 3))),
    by simp [clearCalls, setAddressCalls]⟩

/-- C10, as the code has it: on an idle bus, one `glcdDataRead` causes exactly
two data-read cycles (address select high, read), both on the controller
owning the cursor column.  Below column 121 these are the only bus cycles of
the call.  At column 121 the page wrap follows within the same call:
`glcdSetAddress 0 (lcd_page + 1)` adds four command-write cycles, two of them
on the left controller. -/
theorem C10_dataRead_pulses (hasCS : Bool) (s : State) (hi : Idle hasCS s) :
    dataCycles (issued s (glcdDataRead hasCS s).1) =
      [⟨(Route s.lcd_x).1, true, true, 0⟩, ⟨(Route s.lcd_x).1, true, true, 0⟩] ∧
    (s.lcd_x < 121 → cycles (issued s (glcdDataRead hasCS s).1) =
      [⟨(Route s.lcd_x).1, true, true, 0⟩, ⟨(Route s.lcd_x).1, true, true, 0⟩]) ∧
    (s.lcd_x = 121 → cycles (issued s (glcdDataRead hasCS s).1) =
      [⟨.right, true, true, 0⟩, ⟨.right, true, true, 0⟩,
        ⟨.left, false, false, 0⟩, ⟨.right, false, false, 0⟩,
        ⟨.left, false, false, SET_PAGE_ADDRESS ||| (s.lcd_page + 1) % 256⟩,
        ⟨.right, false, false, SET_PAGE_ADDRESS ||| (s.lcd_page + 1) % 256⟩]) := by
  exact dataRead_cycles hasCS s hi

/-- Witness for C10 as amended: a read at column 60 after `glcdInit` and
`glcdSetAddress 60 1`, chip-select variant: two cycles, both on the left
controller. -/
theorem C10_dataRead_pulses_witness :
    Idle true (glcdSetAddress true 60 1 (afterInit true)) ∧
    dataCycles (issued (glcdSetAddress true 60 1 (afterInit true))
        (glcdDataRead true (glcdSetAddress true 60 1 (afterInit true))).1) =
      [⟨(Route (glcdSetAddress true 60 1 (afterInit true)).lcd_x).1, true, true, 0⟩,
        ⟨(Route (glcdSetAddress true 60 1 (afterInit true)).lcd_x).1, true, true, 0⟩] :=
  have hs : Idle true (glcdSetAddress true 60 1 (afterInit true)) :=
    (sim_setAddress true 60 1 _ _ ⟨glcdInit_idle true powerOn, rfl⟩).1
  ⟨hs, (C10_dataRead_pulses true _ hs).1⟩

/-- C10 as stated fails at the last column: after `glcdInit` and
`glcdSetAddress 121 0` in the two-enable variant, one `glcdDataRead` causes six
bus cycles, not two, and the third and fifth are on the left controller,
which does not own column 121. -/
theorem C10_counterexample :
    (cycles (issued (glcdSetAddress false 121 0 (afterInit false))
      (glcdDataRead false (glcdSetAddress false 121 0 (afterInit false))).1)).map Cycle.ctrl
      = [Ctrl.right, Ctrl.right, Ctrl.left, Ctrl.right, Ctrl.left, Ctrl.right] ∧
    (cycles (issued (glcdSetAddress false 121 0 (afterInit false))
      (glcdDataRead false (glcdSetAddress false 121 0 (afterInit false))).1)).length ≠ 2 := by
  have hs : Idle false (glcdSetAddress false 121 0 (afterInit false)) :=
    (sim_setAddress false 121 0 _ _ ⟨glcdInit_idle false powerOn, rfl⟩).1
  have hx : (glcdSetAddress false 121 0 (afterInit false)).lcd_x = 121 :=
    congrArg Prod.fst (cursor_setAddress false 121 0 (afterInit false))
  rw [(dataRead_cycles false _ hs).2.2 hx]
  exact ⟨rfl, by decide⟩

theorem cursor_dataRead (hasCS : Bool) (s : State) :
    cursor (glcdDataRead hasCS s).1 = nextCursor s.lcd_x s.lcd_page := by
  unfold glcdDataRead
  simp only
  rw [cursor_advance]
  have key : ∀ t : State, cursor t = cursor s →
      nextCursor (dataDDRWrite 255 t).lcd_x (dataDDRWrite 255 t).lcd_page
        = nextCursor s.lcd_x s.lcd_page := by
    intro t hc
    rw [show (dataDDRWrite 255 t).lcd_x = s.lcd_x from congrArg Prod.fst hc,
      show (dataDDRWrite 255 t).lcd_page = s.lcd_page from congrArg Prod.snd hc]
  cases hasCS
  · simp only [Bool.false_eq_true, if_false]
    split_ifs <;> (apply key; simp)
  · simp only [if_true]
    apply key
    split_ifs <;> simp

theorem nextCursor_fst_lt (x p : Nat) : (nextCursor x p).1 < 122 := by
  unfold nextCursor
  simp only [GLCD_XPIXELS]
  split_ifs with h
  · show 0 < 122
    decide
  · show (x + 1) % 256 < 122
    omega

/-- C16: from every state (in particular from every state with `lcd_x < 122`),
in both variants, `lcd_x` is below 122 after `glcdDataWrite`, `glcdDataRead`,
`glcdClearScreen` and after `glcdSetAddress x p` with `x < 122`; a write or a
read at column 121 leaves `lcd_x = 0`. -/
theorem C16_column_range (hasCS : Bool) (s : State) (x p b : Nat) (hx : x < 122) :
    (glcdDataWrite hasCS b s).lcd_x < 122 ∧
    (glcdDataRead hasCS s).1.lcd_x < 122 ∧
    (glcdClearScreen hasCS s).lcd_x < 122 ∧
    (glcdSetAddress hasCS x p s).lcd_x < 122 ∧
    (s.lcd_x = 121 →
      (glcdDataWrite hasCS b s).lcd_x = 0 ∧ (glcdDataRead hasCS s).1.lcd_x = 0) := by
  have hw : (glcdDataWrite hasCS b s).lcd_x = (nextCursor s.lcd_x s.lcd_page).1 :=
    congrArg Prod.fst (cursor_dataWrite hasCS b s)
  have hr : (glcdDataRead hasCS s).1.lcd_x = (nextCursor s.lcd_x s.lcd_page).1 :=
    congrArg Prod.fst (cursor_dataRead hasCS s)
  have hc : (glcdClearScreen hasCS s).lcd_x = 0 :=
    congrArg Prod.fst (steps_clearScreen hasCS s).2
  have ha : (glcdSetAddress hasCS x p s).lcd_x = x % 256 :=
    congrArg Prod.fst (cursor_setAddress hasCS x p s)
  refine ⟨by rw [hw]; exact nextCursor_fst_lt _ _, by rw [hr]; exact nextCursor_fst_lt _ _,
    by rw [hc]; decide, by rw [ha, Nat.mod_eq_of_lt (by omega)]; exact hx, ?_⟩
  intro h1
  rw [hw, hr, h1, nextCursor_edge]
  exact ⟨rfl, rfl⟩

/-- Witness for C16: the last column of page 2, chip-select variant. -/
theorem C16_column_range_witness :
    5 < 122 ∧
    (glcdDataWrite true 9 { powerOn with lcd_x := 121, lcd_page := 2 }).lcd_x = 0 ∧
    (glcdDataRead true { powerOn with lcd_x := 121, lcd_page := 2 }).1.lcd_x = 0 :=
  ⟨by decide,
    (C16_column_range true { powerOn with lcd_x := 121, lcd_page := 2 } 5 0 9
      (by decide)).2.2.2.2 rfl⟩

theorem dataRead_sample (hasCS : Bool) (s : State) :
    (glcdDataRead hasCS s).2 = dataPin (readSample hasCS s) := by
  unfold glcdDataRead readSample
  cases hasCS
  · simp only [Bool.false_eq_true, if_false]
    split_ifs <;> rfl
  · simp only [if_true]

theorem readSample_idle (hasCS : Bool) (s : State) (hi : Idle hasCS s) :
    (readSample hasCS s).control.testBit 7 = true ∧
    (readSample hasCS s).control.testBit 6 = true ∧
    (readSample hasCS s).dataDDR = 0 ∧
    (if hasCS then (readSample hasCS s).control.testBit 5 = true ∧
        (readSample hasCS s).control.testBit 4 = !decide (s.lcd_x < 61) ∧
        (readSample hasCS s).control.testBit 3 = decide (s.lcd_x < 61)
      else (readSample hasCS s).control.testBit 4 = decide (s.lcd_x < 61) ∧
        (readSample hasCS s).control.testBit 3 = !decide (s.lcd_x < 61)) ∧
    cycles (issued s (readSample hasCS s)) =
      [⟨(Route s.lcd_x).1, true, true, 0⟩, ⟨(Route s.lcd_x).1, true, true, 0⟩] ∧
    dataPin (readSample hasCS s) =
      (s.ctrl (Route s.lcd_x).1).mem (s.ctrl (Route s.lcd_x).1).page
        (s.ctrl (Route s.lcd_x).1).column := by
  obtain ⟨hd, hc⟩ := hi
  cases hasCS
  · simp only [Bool.false_eq_true, if_false] at hc
    obtain ⟨h4, h3⟩ := hc
    by_cases hx : s.lcd_x < 61 <;>
    simp [readSample, testBit_masks, ctlSet, ctlClr, writeControl, selected, busCycle, State.log,
      dataPortWrite, dataDDRWrite, driven, dataPin, issued, cycles, Route, State.ctrl,
      Controller.cycle, h4, h3, hx]
  · simp only [if_true] at hc
    obtain ⟨h5, h4, h3⟩ := hc
    by_cases hx : s.lcd_x < 61 <;>
    simp [readSample, testBit_masks, ctlSet, ctlClr, writeControl, selected, busCycle, State.log,
      dataPortWrite, dataDDRWrite, driven, dataPin, issued, cycles, Route, State.ctrl,
      Controller.cycle, h5, h4, h3, hx]

theorem withStale_ctrl (s : State) (l1 l2 b : Nat) (who : Ctrl) :
    ((withStale s l1 l2 b).ctrl who).mem = (s.ctrl who).mem ∧
    ((withStale s l1 l2 b).ctrl who).page = (s.ctrl who).page ∧
    ((withStale s l1 l2 b).ctrl who).column = (s.ctrl who).column := by
  cases who <;> exact ⟨rfl, rfl, rfl⟩

theorem readSample_enabled (hasCS : Bool) (s : State) (hi : Idle hasCS s) :
    enabled hasCS (Route s.lcd_x).1 (readSample hasCS s).control = true ∧
    enabled hasCS (Route s.lcd_x).1.other (readSample hasCS s).control = false := by
  obtain ⟨_, _, _, h, _⟩ := readSample_idle hasCS s hi
  cases hasCS
  · simp only [Bool.false_eq_true, if_false] at h
    by_cases hx : s.lcd_x < 61 <;> simp [enabled, Route, Ctrl.other, hx, h]
  · simp only [if_true] at h
    by_cases hx : s.lcd_x < 61 <;> simp [enabled, Route, Ctrl.other, hx, h]

/-- C11: on an idle bus, the byte `glcdDataRead` returns is the value of the
data pins in the state in which it samples them.  In that state address select
and read/write are high, the data direction register is `0x00`, the
controller owning the cursor column is enabled and the other one is not, and
the bus cycles so far are the two read cycles on the owning controller.  The
sampled value is what that controller drives in the second cycle, the byte at
its page and column; it does not depend on what the output latches and the
data pins held before, which is all that the first cycle puts on the bus.
When the call returns the data direction register is `0xFF`. -/
theorem C11_dataRead_sample (hasCS : Bool) (s : State) (hi : Idle hasCS s) :
    (glcdDataRead hasCS s).2 = dataPin (readSample hasCS s) ∧
    (readSample hasCS s).control.testBit 7 = true ∧
    (readSample hasCS s).control.testBit 6 = true ∧
    (readSample hasCS s).dataDDR = 0x00 ∧
    enabled hasCS (Route s.lcd_x).1 (readSample hasCS s).control = true ∧
    enabled hasCS (Route s.lcd_x).1.other (readSample hasCS s).control = false ∧
    cycles (issued s (readSample hasCS s)) =
      [⟨(Route s.lcd_x).1, true, true, 0⟩, ⟨(Route s.lcd_x).1, true, true, 0⟩] ∧
    (glcdDataRead hasCS s).2 =
      (s.ctrl (Route s.lcd_x).1).mem (s.ctrl (Route s.lcd_x).1).page
        (s.ctrl (Route s.lcd_x).1).column ∧
    (∀ l1 l2 b, (glcdDataRead hasCS (withStale s l1 l2 b)).2 = (glcdDataRead hasCS s).2) ∧
    (glcdDataRead hasCS s).1.dataDDR = 0xFF := by
  obtain ⟨h7, h6, hd, _, hcy, hv⟩ := readSample_idle hasCS s hi
  obtain ⟨e1, e2⟩ := readSample_enabled hasCS s hi
  refine ⟨dataRead_sample hasCS s, h7, h6, hd, e1, e2, hcy, ?_, ?_,
    (idle_preserved hasCS s hi).2.2.2.1.1⟩
  · rw [dataRead_sample, hv]
  · intro l1 l2 b
    have hi2 : Idle hasCS (withStale s l1 l2 b) := hi
    rw [dataRead_sample, dataRead_sample, hv, (readSample_idle hasCS _ hi2).2.2.2.2.2]
    have hx : (withStale s l1 l2 b).lcd_x = s.lcd_x := rfl
    obtain ⟨a1, a2, a3⟩ := withStale_ctrl s l1 l2 b (Route s.lcd_x).1
    rw [hx, a1, a2, a3]

/-- Witness for C11: a read at column 61 after `glcdInit` and
`glcdSetAddress 61 0`, two-enable variant. -/
theorem C11_dataRead_sample_witness :
    Idle false (glcdSetAddress false 61 0 (afterInit false)) ∧
    (glcdDataRead false (glcdSetAddress false 61 0 (afterInit false))).2 =
      dataPin (readSample false (glcdSetAddress false 61 0 (afterInit false))) ∧
    (glcdDataRead false (glcdSetAddress false 61 0 (afterInit false))).1.dataDDR = 0xFF :=
  have hs : Idle false (glcdSetAddress false 61 0 (afterInit false)) :=
    (idle_preserved false _ (glcdInit_idle false powerOn)).2.1 61 0
  have h := C11_dataRead_sample false (glcdSetAddress false 61 0 (afterInit false)) hs
  ⟨hs, h.1, h.2.2.2.2.2.2.2.2.2⟩

theorem commandWrite_lines_dual (s : State) (b t : Nat) (hi : Idle false s) (hb : b < 256)
    (ht : t < 4) :
    portLines (issued s (glcdCommandWrite false b t s)) =
      [⟨false, s.control.testBit 6, s.control.testBit 5, false, false, s.dataPort⟩,
        ⟨false, false, s.control.testBit 5, false, false, s.dataPort⟩] ++
      (if t &&& CTRL1 ≠ 0 then
        [⟨false, false, s.control.testBit 5, true, false, b⟩,
          ⟨false, false, s.control.testBit 5, false, false, b⟩] else []) ++
      (if t &&& CTRL2 ≠ 0 then
        [⟨false, false, s.control.testBit 5, false, true, b⟩,
          ⟨false, false, s.control.testBit 5, false, false, b⟩] else []) := by
  obtain ⟨hd, hc⟩ := hi
  simp only [Bool.false_eq_true, if_false] at hc
  obtain ⟨h4, h3⟩ := hc
  have hb' : b % 256 = b := Nat.mod_eq_of_lt hb
  interval_cases t <;>
  simp [portLines, issued, testBit_masks, and_255, glcdCommandWrite, ctlSet, ctlClr,
    writeControl, selected, busCycle, State.log, dataPortWrite, driven, hd, h4, h3, hb']

theorem commandWrite_lines_cs (s : State) (b t : Nat) (hi : Idle true s) (hb : b < 256)
    (ht : t < 4) :
    portLines (issued s (glcdCommandWrite true b t s)) =
      [⟨false, s.control.testBit 6, false, true, true, s.dataPort⟩,
        ⟨false, false, false, true, true, s.dataPort⟩] ++
      (if t &&& CTRL1 ≠ 0 then [⟨false, false, false, false, true, b⟩] else []) ++
      (if t &&& CTRL2 ≠ 0 then
        [⟨false, false, false, decide (t &&& CTRL1 = 0), false, b⟩] else []) ++
      [⟨false, false, true, decide (t &&& CTRL1 = 0), decide (t &&& CTRL2 = 0), b⟩,
        ⟨false, false, false, decide (t &&& CTRL1 = 0), decide (t &&& CTRL2 = 0), b⟩,
        ⟨false, false, false, true, true, b⟩] := by
  obtain ⟨hd, hc⟩ := hi
  simp only [if_true] at hc
  obtain ⟨h5, h4, h3⟩ := hc
  have hb' : b % 256 = b := Nat.mod_eq_of_lt hb
  interval_cases t <;>
  simp [portLines, issued, testBit_masks, and_255, glcdCommandWrite, ctlSet, ctlClr,
    writeControl, selected, busCycle, State.log, dataPortWrite, driven, hd, h5, h4, h3, hb']

theorem commandWrite_cycles (hasCS : Bool) (s : State) (b t : Nat) (hi : Idle hasCS s)
    (hb : b < 256) (ht : t < 4) :
    cycles (issued s (glcdCommandWrite hasCS b t s)) =
      (if t &&& CTRL1 ≠ 0 then [⟨.left, false, false, b⟩] else []) ++
      (if t &&& CTRL2 ≠ 0 then [⟨.right, false, false, b⟩] else []) := by
  obtain ⟨hd, hc⟩ := hi
  have hb' : b % 256 = b := Nat.mod_eq_of_lt hb
  have hb2 : b &&& 255 = b := by
    have := and_255 b
    rwa [hb'] at this
  cases hasCS
  · simp only [Bool.false_eq_true, if_false] at hc
    obtain ⟨h4, h3⟩ := hc
    interval_cases t <;>
    simp [cycles, issued, testBit_masks, and_255, glcdCommandWrite, ctlSet, ctlClr,
      writeControl, selected, busCycle, State.log, dataPortWrite, driven, hd, h4, h3, hb', hb2]
  · simp only [if_true] at hc
    obtain ⟨h5, h4, h3⟩ := hc
    interval_cases t <;>
    simp [cycles, issued, testBit_masks, and_255, glcdCommandWrite, ctlSet, ctlClr,
      writeControl, selected, busCycle, State.log, dataPortWrite, driven, hd, h5, h4, h3,
      hb', hb2]

/-- C13: on an idle bus, for a byte `b` and a target set `t` (bits `CTRL1`,
`CTRL2`), the writes `glcdCommandWrite b t` makes to the control port, with
the data port latch at each of them, are exactly the following.  First address
select goes low, then read/write goes low (write).  With two enables: then, if
`CTRL1` is in `t`, E1 goes high and low again, and after that, if `CTRL2` is in
`t`, E2 goes high and low again, the data port holding `b` at each of these
writes.  With chip selects: CS1 goes low if `CTRL1` is in `t`, CS2 goes low if
`CTRL2` is in `t`, then E goes high once and low again, then both chip selects
go high, the data port holding `b` throughout.  In both variants the bus
cycles caused are one command write of `b` on the left controller if `CTRL1`
is in `t`, followed by one on the right controller if `CTRL2` is in `t`. -/
theorem C13_commandWrite_pulses (hasCS : Bool) (s : State) (b t : Nat) (hi : Idle hasCS s)
    (hb : b < 256) (ht : t < 4) :
    (hasCS = false →
      portLines (issued s (glcdCommandWrite hasCS b t s)) =
        [⟨false, s.control.testBit 6, s.control.testBit 5, false, false, s.dataPort⟩,
          ⟨false, false, s.control.testBit 5, false, false, s.dataPort⟩] ++
        (if t &&& CTRL1 ≠ 0 then
          [⟨false, false, s.control.testBit 5, true, false, b⟩,
            ⟨false, false, s.control.testBit 5, false, false, b⟩] else []) ++
        (if t &&& CTRL2 ≠ 0 then
          [⟨false, false, s.control.testBit 5, false, true, b⟩,
            ⟨false, false, s.control.testBit 5, false, false, b⟩] else [])) ∧
    (hasCS = true →
      portLines (issued s (glcdCommandWrite hasCS b t s)) =
        [⟨false, s.control.testBit 6, false, true, true, s.dataPort⟩,
          ⟨false, false, false, true, true, s.dataPort⟩] ++
        (if t &&& CTRL1 ≠ 0 then [⟨false, false, false, false, true, b⟩] else []) ++
        (if t &&& CTRL2 ≠ 0 then
          [⟨false, false, false, decide (t &&& CTRL1 = 0), false, b⟩] else []) ++
        [⟨false, false, true, decide (t &&& CTRL1 = 0), decide (t &&& CTRL2 = 0), b⟩,
          ⟨false, false, false, decide (t &&& CTRL1 = 0), decide (t &&& CTRL2 = 0), b⟩,
          ⟨false, false, false, true, true, b⟩]) ∧
    cycles (issued s (glcdCommandWrite hasCS b t s)) =
      (if t &&& CTRL1 ≠ 0 then [⟨.left, false, false, b⟩] else []) ++
      (if t &&& CTRL2 ≠ 0 then [⟨.right, false, false, b⟩] else []) := by
  refine ⟨?_, ?_, commandWrite_cycles hasCS s b t hi hb ht⟩
  · intro h
    subst h
    exact commandWrite_lines_dual s b t hi hb ht
  · intro h
    subst h
    exact commandWrite_lines_cs s b t hi hb ht

/-- Witness for C13: the Reset command to both controllers after `glcdInit`,
two-enable variant: E1 is pulsed, then E2. -/
theorem C13_commandWrite_pulses_witness :
    Idle false (afterInit false) ∧ 226 < 256 ∧ 3 < 4 ∧
    cycles (issued (afterInit false) (glcdCommandWrite false 226 3 (afterInit false))) =
      (if 3 &&& CTRL1 ≠ 0 then [⟨.left, false, false, 226⟩] else []) ++
      (if 3 &&& CTRL2 ≠ 0 then [⟨.right, false, false, 226⟩] else []) :=
  ⟨glcdInit_idle false powerOn, by decide, by decide,
    (C13_commandWrite_pulses false (afterInit false) 226 3 (glcdInit_idle false powerOn)
      (by decide) (by decide)).2.2⟩

theorem resetLevels_append (a b : List Event) :
    resetLevels (a ++ b) = resetLevels a ++ resetLevels b := by
  simp [resetLevels]

/-- The first command write after `glcdInitHW`: the enables are low and the
data bus is an output, the chip selects may be anywhere. -/
theorem sim_commandWrite_first (hasCS : Bool) (cmd : Nat) (s : State)
    (he : EnablesLow hasCS s) (hd : s.dataDDR = 0xFF) :
    Sim hasCS (glcdCommandWrite hasCS cmd 3 s) (Abs.commandWrite cmd 3 (view s)) := by
  cases hasCS
  · simp only [EnablesLow, Bool.false_eq_true, if_false] at he
    obtain ⟨h4, h3⟩ := he
    simp [Sim, glcdCommandWrite, Abs.commandWrite, testBit_masks, and_255, Abs.pulse, view, Idle,
      ctlSet, ctlClr, writeControl, selected, busCycle, State.log, dataPortWrite, driven,
      obs_append, obs, hd, h4, h3]
  · simp only [EnablesLow, if_true] at he
    simp [Sim, glcdCommandWrite, Abs.commandWrite, testBit_masks, and_255, Abs.pulse, view, Idle,
      ctlSet, ctlClr, writeControl, selected, busCycle, State.log, dataPortWrite, driven,
      obs_append, obs, hd, he]

theorem initHW_low (hasCS : Bool) (s : State) (he : EnablesLow hasCS s) :
    EnablesLow hasCS (glcdInitHW hasCS s) ∧ (glcdInitHW hasCS s).dataDDR = 0xFF ∧
    view (glcdInitHW hasCS s) = view s ∧
    issued s (glcdInitHW hasCS s) =
      [Event.port (s.control ||| 1) s.dataPort 255,
        Event.port ((s.control ||| 1) &&& 254) s.dataPort 255,
        Event.port ((s.control ||| 1) &&& 254 ||| 1) s.dataPort 255] := by
  cases hasCS
  · simp only [EnablesLow, Bool.false_eq_true, if_false] at he ⊢
    obtain ⟨h4, h3⟩ := he
    simp [glcdInitHW, testBit_masks, view, issued, ctlSet, ctlClr, writeControl, selected,
      busCycle, State.log, dataDDRWrite, obs_append, obs, h4, h3]
  · simp only [EnablesLow, if_true] at he ⊢
    simp [glcdInitHW, testBit_masks, view, issued, ctlSet, ctlClr, writeControl, selected,
      busCycle, State.log, dataDDRWrite, obs_append, obs, he]

theorem sim_init (hasCS : Bool) (s : State) (he : EnablesLow hasCS s) :
    Sim hasCS (glcdInit hasCS s) (Abs.init (view s)) := by
  have he0 : EnablesLow hasCS (s.log (.call .init)) := he
  obtain ⟨h1, h2, h3, _⟩ := initHW_low hasCS _ he0
  have hv : view (glcdInitHW hasCS (s.log (.call .init))) =
      { view s with seen := (view s).seen ++ [Event.call .init] } := by
    rw [h3]
    simp [view, State.log, obs_append, obs]
  have a := sim_commandWrite_first hasCS RESET _ h1 h2
  rw [hv] at a
  have b := sim_commandWrite hasCS DISPLAY_ON (CTRL1 + CTRL2) _ _ a
  exact sim_commandWrite hasCS (DISPLAY_START_LINE ||| 0) (CTRL1 + CTRL2) _ _ b

theorem steps_initHW (hasCS : Bool) (s : State) : Steps s (glcdInitHW hasCS s) [] := by
  unfold glcdInitHW
  have h0 := steps_dataDDRWrite 0xFF s
  cases hasCS
  · simp only [Bool.false_eq_true, if_false]
    have h1 : Steps s ({ dataDDRWrite 0xFF s with controlDDR := (dataDDRWrite 0xFF s).controlDDR |||
        (SED1520_E1 ||| SED1520_E2 ||| SED1520_RW ||| SED1520_A0 ||| SED1520_RES) }) [] := h0
    exact ((h1.then (steps_ctlSet _ _ _)).then (steps_ctlClr _ _ _)).then (steps_ctlSet _ _ _)
  · simp only [if_true]
    have h1 : Steps s ({ dataDDRWrite 0xFF s with controlDDR := (dataDDRWrite 0xFF s).controlDDR |||
        (SED1520_CS1 ||| SED1520_CS2 ||| SED1520_E ||| SED1520_RW ||| SED1520_A0 |||
          SED1520_RES) }) [] := h0
    exact ((h1.then (steps_ctlSet _ _ _)).then (steps_ctlClr _ _ _)).then (steps_ctlSet _ _ _)

theorem steps_init (hasCS : Bool) (s : State) :
    Steps s (glcdInit hasCS s)
      [.init, .commandWrite RESET (CTRL1 + CTRL2), .commandWrite DISPLAY_ON (CTRL1 + CTRL2),
        .commandWrite (DISPLAY_START_LINE ||| 0) (CTRL1 + CTRL2)] := by
  unfold glcdInit
  have h0 := (steps_log s .init).then (steps_initHW hasCS _)
  have h1 := h0.trans (steps_commandWrite hasCS RESET (CTRL1 + CTRL2) _)
  have h2 := h1.trans (steps_commandWrite hasCS DISPLAY_ON (CTRL1 + CTRL2) _)
  have h3 := h2.trans (steps_commandWrite hasCS (DISPLAY_START_LINE ||| 0) (CTRL1 + CTRL2) _)
  simpa using h3

theorem resetLevels_busCycle (who : Ctrl) (v : Nat) (s : State) :
    resetLevels (busCycle who v s).trace = resetLevels s.trace := by
  cases who <;> simp [busCycle, resetLevels]

@[simp] theorem resetLevels_writeControl (hasCS : Bool) (v : Nat) (s : State) :
    resetLevels (writeControl hasCS v s).trace = resetLevels s.trace ++ [v.testBit 0] := by
  unfold writeControl
  simp only
  split_ifs <;> simp [resetLevels_busCycle] <;> simp [resetLevels]

theorem resetLevels_ctlSet (hasCS : Bool) (m : Nat) (s : State) :
    resetLevels (ctlSet hasCS m s).trace = resetLevels s.trace ++ [(s.control ||| m).testBit 0] ∧
    (ctlSet hasCS m s).control = s.control ||| m :=
  ⟨resetLevels_writeControl _ _ _, control_writeControl _ _ _⟩

theorem resetLevels_ctlClr (hasCS : Bool) (m : Nat) (s : State) :
    resetLevels (ctlClr hasCS m s).trace =
      resetLevels s.trace ++ [(s.control &&& (0xFF - m)).testBit 0] ∧
    (ctlClr hasCS m s).control = s.control &&& (0xFF - m) :=
  ⟨resetLevels_writeControl _ _ _, control_writeControl _ _ _⟩

theorem resetLevels_log (s : State) (c : Call) :
    resetLevels (s.log (.call c)).trace = resetLevels s.trace ∧
    (s.log (.call c)).control = s.control := by
  simp [State.log, resetLevels]

theorem resetLevels_dataPortWrite (v : Nat) (s : State) :
    resetLevels (dataPortWrite v s).trace = resetLevels s.trace ∧
    (dataPortWrite v s).control = s.control :=
  ⟨rfl, rfl⟩

theorem resetLevels_dataDDRWrite (v : Nat) (s : State) :
    resetLevels (dataDDRWrite v s).trace = resetLevels s.trace ∧
    (dataDDRWrite v s).control = s.control :=
  ⟨rfl, rfl⟩

theorem resetLevels_commandWrite (hasCS : Bool) (cmd : Nat) (s : State) :
    resetLevels (glcdCommandWrite hasCS cmd (CTRL1 + CTRL2) s).trace = resetLevels s.trace ++
      List.replicate (if hasCS then 7 else 6) (s.control.testBit 0) ∧
    (glcdCommandWrite hasCS cmd (CTRL1 + CTRL2) s).control.testBit 0 = s.control.testBit 0 := by
  cases hasCS <;>
  simp [glcdCommandWrite, resetLevels_ctlSet, resetLevels_ctlClr, resetLevels_log,
    resetLevels_dataPortWrite, testBit_masks, List.replicate]

theorem resetLevels_init (hasCS : Bool) (s : State) :
    resetLevels (glcdInit hasCS s).trace = resetLevels s.trace ++ ([true, false, true] ++
      List.replicate (if hasCS then 21 else 18) true) ∧
    (glcdInit hasCS s).control.testBit 0 = true := by
  have hw : resetLevels (glcdInitHW hasCS (s.log (.call .init))).trace =
      resetLevels s.trace ++ [true, false, true] ∧
      (glcdInitHW hasCS (s.log (.call .init))).control.testBit 0 = true := by
    cases hasCS <;>
    simp [glcdInitHW, resetLevels_ctlSet, resetLevels_ctlClr, resetLevels_log,
      resetLevels_dataDDRWrite, testBit_masks]
  unfold glcdInit
  simp only
  obtain ⟨a1, a2⟩ := resetLevels_commandWrite hasCS RESET (glcdInitHW hasCS (s.log (.call .init)))
  obtain ⟨b1, b2⟩ := resetLevels_commandWrite hasCS DISPLAY_ON
    (glcdCommandWrite hasCS RESET (CTRL1 + CTRL2) (glcdInitHW hasCS (s.log (.call .init))))
  obtain ⟨c1, c2⟩ := resetLevels_commandWrite hasCS (DISPLAY_START_LINE ||| 0)
    (glcdCommandWrite hasCS DISPLAY_ON (CTRL1 + CTRL2)
      (glcdCommandWrite hasCS RESET (CTRL1 + CTRL2) (glcdInitHW hasCS (s.log (.call .init)))))
  refine ⟨?_, ?_⟩
  · rw [c1, b1, a1, hw.1, b2, a2, hw.2]
    cases hasCS <;> simp [List.replicate]
  · rw [c2, b2, a2, hw.2]

theorem abs_init_seen (v : View) :
    (Abs.init v).seen = v.seen ++
      [Event.call .init,
        Event.call (.commandWrite RESET (CTRL1 + CTRL2)),
        Event.cycle ⟨.left, false, false, RESET⟩, Event.cycle ⟨.right, false, false, RESET⟩,
        Event.call (.commandWrite DISPLAY_ON (CTRL1 + CTRL2)),
        Event.cycle ⟨.left, false, false, DISPLAY_ON⟩,
        Event.cycle ⟨.right, false, false, DISPLAY_ON⟩,
        Event.call (.commandWrite (DISPLAY_START_LINE ||| 0) (CTRL1 + CTRL2)),
        Event.cycle ⟨.left, false, false, DISPLAY_START_LINE ||| 0⟩,
        Event.cycle ⟨.right, false, false, DISPLAY_START_LINE ||| 0⟩] := by
  simp [Abs.init, Abs.commandWrite]

/-- C14: called with the enable inputs low (as after power-up), without busy
check, `glcdInit` writes the reset line high, then low, then high, and keeps
it high in every later write to the control port and at the end.  The function
entries recorded are its own and three command writes, Reset (`0xE2`),
DisplayOn (`0xAF`) and SetStartLine 0 (`0xC0`), in this order, each with the
targets `CTRL1 + CTRL2`; each causes one command cycle on the left and one on
the right controller, and nothing else reaches the controllers: no data write
is called and no bus cycle has address select high. -/
theorem C14_init_sequence (hasCS : Bool) (s : State) (he : EnablesLow hasCS s) :
    resetLevels (issued s (glcdInit hasCS s)) =
      [true, false, true] ++ List.replicate (if hasCS then 21 else 18) true ∧
    (glcdInit hasCS s).control.testBit 0 = true ∧
    calls (issued s (glcdInit hasCS s)) =
      [.init, .commandWrite RESET (CTRL1 + CTRL2), .commandWrite DISPLAY_ON (CTRL1 + CTRL2),
        .commandWrite (DISPLAY_START_LINE ||| 0) (CTRL1 + CTRL2)] ∧
    obs (issued s (glcdInit hasCS s)) =
      [Event.call .init,
        Event.call (.commandWrite RESET (CTRL1 + CTRL2)),
        Event.cycle ⟨.left, false, false, RESET⟩, Event.cycle ⟨.right, false, false, RESET⟩,
        Event.call (.commandWrite DISPLAY_ON (CTRL1 + CTRL2)),
        Event.cycle ⟨.left, false, false, DISPLAY_ON⟩,
        Event.cycle ⟨.right, false, false, DISPLAY_ON⟩,
        Event.call (.commandWrite (DISPLAY_START_LINE ||| 0) (CTRL1 + CTRL2)),
        Event.cycle ⟨.left, false, false, DISPLAY_START_LINE ||| 0⟩,
        Event.cycle ⟨.right, false, false, DISPLAY_START_LINE ||| 0⟩] ∧
    dataCycles (issued s (glcdInit hasCS s)) = [] := by
  have hst := steps_init hasCS s
  have hsim := sim_init hasCS s he
  obtain ⟨r1, r2⟩ := resetLevels_init hasCS s
  have hobs : obs (issued s (glcdInit hasCS s)) = _ :=
    obs_issued hst (by rw [← sim_seen hsim, abs_init_seen]; rfl)
  refine ⟨?_, r2, steps_issued hst, hobs, ?_⟩
  · obtain ⟨⟨l, e⟩, _⟩ := hst
    rw [issued_of_eq e]
    rw [e, resetLevels_append] at r1
    exact List.append_cancel_left r1
  · rw [← dataCycles_obs, hobs]
    simp [dataCycles, cycles]

/-- Witness for C14: `glcdInit` from power-up, chip-select variant. -/
theorem C14_init_sequence_witness :
    EnablesLow true powerOn ∧
    calls (issued powerOn (glcdInit true powerOn)) =
      [.init, .commandWrite RESET (CTRL1 + CTRL2), .commandWrite DISPLAY_ON (CTRL1 + CTRL2),
        .commandWrite (DISPLAY_START_LINE ||| 0) (CTRL1 + CTRL2)] ∧
    (glcdInit true powerOn).control.testBit 0 = true :=
  have he : EnablesLow true powerOn := by
    simp [EnablesLow, powerOn]
  have h := C14_init_sequence true powerOn he
  ⟨he, h.2.2.1, h.2.1⟩

theorem pageOK_mono {n m : Nat} (h : n ≤ m) (c : Call) (hc : c.pageOK n) : c.pageOK m := by
  cases c <;> simp only [Call.pageOK] at hc ⊢ <;> omega

theorem pageOK_setAddressCalls (n q : Nat) (hq : q < n) (hn : n ≤ 8) :
    ∀ c ∈ setAddressCalls 0 q, c.pageOK n := by
  have h1 : 184 ||| q = 184 + q := by
    have : q < 8 := by omega
    interval_cases q <;> rfl
  intro c hc
  simp only [setAddressCalls, GLCD_XPIXELS, SET_PAGE_ADDRESS, CTRL1, CTRL2] at hc
  simp at hc
  rcases hc with rfl | rfl | rfl | rfl <;> simp only [Call.pageOK] <;> omega

theorem pageOK_setAddressCalls_any (x p : Nat) (hx : x < 122) (hp : p < 4) :
    ∀ c ∈ setAddressCalls x p, c.pageOK 4 := by
  have h1 : 184 ||| p = 184 + p := by
    interval_cases p <;> rfl
  intro c hc
  simp only [setAddressCalls, GLCD_XPIXELS, SET_PAGE_ADDRESS, CTRL1, CTRL2] at hc
  split_ifs at hc with h <;> simp at hc
  · rcases hc with rfl | rfl | rfl | rfl <;> simp only [Call.pageOK] <;> omega
  · rcases hc with rfl | rfl | rfl <;> simp only [Call.pageOK] <;> omega

theorem pageOK_advanceCalls (x p : Nat) (hx : x < 122) (hp : p < 4)
    (h : ¬ (x = 121 ∧ p = 3)) : ∀ c ∈ advanceCalls x p, c.pageOK 4 := by
  unfold advanceCalls
  have hm : (x + 1) % 256 = x + 1 := Nat.mod_eq_of_lt (by omega)
  simp only [hm, GLCD_XPIXELS]
  split_ifs with h1
  · have hp2 : (p + 1) % 256 = p + 1 := Nat.mod_eq_of_lt (by omega)
    rw [hp2]
    exact pageOK_setAddressCalls 4 (p + 1) (by omega) (by decide)
  · intro c hc
    simp at hc

theorem nextCursor_inside (x p : Nat) (hx : x < 122) (hp : p < 4)
    (h : ¬ (x = 121 ∧ p = 3)) : (nextCursor x p).1 < 122 ∧ (nextCursor x p).2 < 4 := by
  unfold nextCursor
  have hm : (x + 1) % 256 = x + 1 := Nat.mod_eq_of_lt (by omega)
  simp only [hm, GLCD_XPIXELS]
  split_ifs with h1
  · have hp2 : (p + 1) % 256 = p + 1 := Nat.mod_eq_of_lt (by omega)
    simp only [hp2]
    omega
  · simp only
    omega

theorem pageOK_rowCalls (j : Nat) (hj : j < 4) : ∀ c ∈ rowCalls j, c.pageOK 5 := by
  intro c hc
  simp only [rowCalls, List.mem_append, List.mem_cons, List.mem_replicate] at hc
  rcases hc with h | h | h | h
  · exact pageOK_setAddressCalls 5 j (by omega) (by decide) c h
  · rw [h.2]
    trivial
  · rw [h]
    trivial
  · exact pageOK_setAddressCalls 5 (j + 1) (by omega) (by decide) c h

theorem pageOK_clearCalls : ∀ c ∈ clearCalls, c.pageOK 5 := by
  intro c hc
  simp only [clearCalls, List.mem_append, List.mem_cons] at hc
  rcases hc with h | h | h | h | h | h
  · rw [h]
    trivial
  · exact pageOK_rowCalls 0 (by decide) c h
  · exact pageOK_rowCalls 1 (by decide) c h
  · exact pageOK_rowCalls 2 (by decide) c h
  · exact pageOK_rowCalls 3 (by decide) c h
  · exact pageOK_setAddressCalls 5 0 (by decide) (by decide) c h

/-- One guarded call: the function entries it records and the cursor it
leaves. -/
theorem op_inside (hasCS : Bool) (o : Op) (s : State) (hx : s.lcd_x < 122)
    (hp : s.lcd_page < 4) (hg : o.inside s) :
    ∃ cs, Steps s (o.run hasCS s) cs ∧ (∀ c ∈ cs, c.pageOK 5) ∧
      (o ≠ .clearScreen → ∀ c ∈ cs, c.pageOK 4) ∧
      (o.run hasCS s).lcd_x < 122 ∧ (o.run hasCS s).lcd_page < 4 := by
  cases o with
  | init => exact absurd hg (by simp [Op.inside])
  | commandWrite c t => exact absurd hg (by simp [Op.inside])
  | dataWrite b =>
    have hc := cursor_dataWrite hasCS b s
    have hn := nextCursor_inside _ _ hx hp hg
    have hok : ∀ c ∈ Call.dataWrite (b % 256) :: advanceCalls s.lcd_x s.lcd_page,
        c.pageOK 4 := by
      intro c h
      rcases List.mem_cons.1 h with h | h
      · rw [h]
        trivial
      · exact pageOK_advanceCalls _ _ hx hp hg c h
    refine ⟨_, steps_dataWrite hasCS b s, fun c h => pageOK_mono (by decide) c (hok c h),
      fun _ => hok, ?_, ?_⟩
    · show (cursor (glcdDataWrite hasCS b s)).1 < 122
      rw [hc]
      exact hn.1
    · show (cursor (glcdDataWrite hasCS b s)).2 < 4
      rw [hc]
      exact hn.2
  | dataRead =>
    have hc := cursor_dataRead hasCS s
    have hn := nextCursor_inside _ _ hx hp hg
    have hok : ∀ c ∈ Call.dataRead :: advanceCalls s.lcd_x s.lcd_page, c.pageOK 4 := by
      intro c h
      rcases List.mem_cons.1 h with h | h
      · rw [h]
        trivial
      · exact pageOK_advanceCalls _ _ hx hp hg c h
    refine ⟨_, steps_dataRead hasCS s, fun c h => pageOK_mono (by decide) c (hok c h),
      fun _ => hok, ?_, ?_⟩
    · show (cursor (glcdDataRead hasCS s).1).1 < 122
      rw [hc]
      exact hn.1
    · show (cursor (glcdDataRead hasCS s).1).2 < 4
      rw [hc]
      exact hn.2
  | setAddress x p =>
    obtain ⟨h1, h2⟩ : x < 122 ∧ p < 4 := hg
    have hc := cursor_setAddress hasCS x p s
    have e1 : x % 256 = x := Nat.mod_eq_of_lt (by omega)
    have e2 : p % 256 = p := Nat.mod_eq_of_lt (by omega)
    rw [e1, e2] at hc
    have hst := steps_setAddress hasCS x p s
    rw [e1, e2] at hst
    have hok := pageOK_setAddressCalls_any x p h1 h2
    refine ⟨_, hst, fun c h => pageOK_mono (by decide) c (hok c h), fun _ => hok, ?_, ?_⟩
    · show (cursor (glcdSetAddress hasCS x p s)).1 < 122
      rw [hc]
      exact h1
    · show (cursor (glcdSetAddress hasCS x p s)).2 < 4
      rw [hc]
      exact h2
  | clearScreen =>
    obtain ⟨hst, hc⟩ := steps_clearScreen hasCS s
    refine ⟨_, hst, pageOK_clearCalls, fun h => absurd rfl h, ?_, ?_⟩
    · show (cursor (glcdClearScreen hasCS s)).1 < 122
      rw [hc]
      decide
    · show (cursor (glcdClearScreen hasCS s)).2 < 4
      rw [hc]
      decide

theorem runOps_inside (hasCS : Bool) (ops : List Op) :
    ∀ s : State, s.lcd_x < 122 → s.lcd_page < 4 → Guarded hasCS ops s →
      ∃ cs, Steps s (runOps hasCS ops s) cs ∧ (∀ c ∈ cs, c.pageOK 5) ∧
        (Op.clearScreen ∉ ops → ∀ c ∈ cs, c.pageOK 4) ∧
        (runOps hasCS ops s).lcd_x < 122 ∧ (runOps hasCS ops s).lcd_page < 4 := by
  induction ops with
  | nil =>
    intro s hx hp _
    exact ⟨[], Steps.refl s, by simp, by simp, hx, hp⟩
  | cons o os ih =>
    intro s hx hp hg
    obtain ⟨g1, g2⟩ := hg
    obtain ⟨cs1, st1, a1, b1, x1, p1⟩ := op_inside hasCS o s hx hp g1
    obtain ⟨cs2, st2, a2, b2, x2, p2⟩ := ih (o.run hasCS s) x1 p1 g2
    refine ⟨cs1 ++ cs2, st1.trans st2, ?_, ?_, x2, p2⟩
    · intro c hc
      rcases List.mem_append.1 hc with h | h
      · exact a1 c h
      · exact a2 c h
    · intro hno c hc
      have n1 : o ≠ .clearScreen := fun e => hno (by rw [e]; exact List.mem_cons_self _ _)
      have n2 : Op.clearScreen ∉ os := fun e => hno (List.mem_cons_of_mem _ e)
      rcases List.mem_append.1 hc with h | h
      · exact b1 n1 c h
      · exact b2 n2 c h

theorem cursor_init (hasCS : Bool) (s : State) : cursor (glcdInit hasCS s) = cursor s := by
  unfold glcdInit
  simp only [cursor_commandWrite]
  cases hasCS <;> simp [glcdInitHW] <;> rfl

/-- C17, as the code has it: the page stays below 4 as long as no write or
read is made at the last column of page 3.  From a cursor on the display
(`lcd_x < 122`, `lcd_page < 4`, as `(0, 0)` is), after any sequence of
`glcdSetAddress x p` with `x < 122`, `p < 4`, `glcdDataWrite`, `glcdDataRead`
and `glcdClearScreen` in which no write or read is made at the cursor
`(121, 3)`, the cursor is on the display again; every `glcdSetAddress` entered
on the way has a page below 4 and every command byte is a column address
below 61 or a page address `0xB8 .. 0xBB`, unless `glcdClearScreen` is among
the calls, which enters `glcdSetAddress 0 4` and issues `0xBC` once.  A write
or read at `(121, 3)` leaves the cursor at `(0, 4)`. -/
theorem C17_page_range (hasCS : Bool) (ops : List Op) (s : State)
    (hx : s.lcd_x < 122) (hp : s.lcd_page < 4) (hg : Guarded hasCS ops s) :
    (runOps hasCS ops s).lcd_x < 122 ∧ (runOps hasCS ops s).lcd_page < 4 ∧
    (∀ c ∈ calls (issued s (runOps hasCS ops s)), c.pageOK 5) ∧
    (Op.clearScreen ∉ ops → ∀ c ∈ calls (issued s (runOps hasCS ops s)), c.pageOK 4) ∧
    (s.lcd_x = 121 → s.lcd_page = 3 →
      (∀ b, cursor (glcdDataWrite hasCS b s) = (0, 4)) ∧
      cursor (glcdDataRead hasCS s).1 = (0, 4)) := by
  obtain ⟨cs, hst, a, b, x1, p1⟩ := runOps_inside hasCS ops s hx hp hg
  rw [steps_issued hst]
  refine ⟨x1, p1, a, b, ?_⟩
  intro h1 h3
  refine ⟨fun b => ?_, ?_⟩
  · rw [cursor_dataWrite, h1, h3, nextCursor_edge]
  · rw [cursor_dataRead, h1, h3, nextCursor_edge]

/-- Witness for C17 as amended: after `glcdInit`, `glcdSetAddress 121 2` and one
write, which wraps to page 3. -/
theorem C17_page_range_witness :
    (afterInit true).lcd_x < 122 ∧ (afterInit true).lcd_page < 4 ∧
    Guarded true [.setAddress 121 2, .dataWrite 7] (afterInit true) ∧
    (runOps true [.setAddress 121 2, .dataWrite 7] (afterInit true)).lcd_page < 4 :=
  have h0 : cursor (afterInit true) = (0, 0) := cursor_init true powerOn
  have hx : (afterInit true).lcd_x < 122 := by
    rw [show (afterInit true).lcd_x = 0 from congrArg Prod.fst h0]
    decide
  have hp : (afterInit true).lcd_page < 4 := by
    rw [show (afterInit true).lcd_page = 0 from congrArg Prod.snd h0]
    decide
  have hc : (glcdSetAddress true 121 2 (afterInit true)).lcd_page = 2 :=
    congrArg Prod.snd (cursor_setAddress true 121 2 (afterInit true))
  have hg : Guarded true [.setAddress 121 2, .dataWrite 7] (afterInit true) :=
    ⟨⟨by decide, by decide⟩, fun h => absurd (hc.symm.trans h.2) (by decide), trivial⟩
  ⟨hx, hp, hg, (C17_page_range true _ (afterInit true) hx hp hg).2.1⟩

/-- C17 as stated fails: after `glcdInit` from power-up the cursor is `(0, 0)`;
`glcdSetAddress 121 3` followed by one `glcdDataRead` leaves `lcd_page = 4`, and
the byte `0xBC`, which is not one of `0xB8 .. 0xBB`, is written as a command to
the left controller. -/
theorem C17_counterexample :
    cursor (afterInit true) = (0, 0) ∧
    Op.addressing (.setAddress 121 3) ∧ Op.addressing .dataRead ∧
    (runOps true [.setAddress 121 3, .dataRead] (afterInit true)).lcd_page = 4 ∧
    ¬ (runOps true [.setAddress 121 3, .dataRead] (afterInit true)).lcd_page < 4 ∧
    (⟨.left, false, false, 0xBC⟩ : Cycle) ∈
      cycles (issued (afterInit true)
        (runOps true [.setAddress 121 3, .dataRead] (afterInit true))) := by
  have hs : Idle true (glcdSetAddress true 121 3 (afterInit true)) :=
    (sim_setAddress true 121 3 _ _ ⟨glcdInit_idle true powerOn, rfl⟩).1
  have hc := cursor_setAddress true 121 3 (afterInit true)
  have hx : (glcdSetAddress true 121 3 (afterInit true)).lcd_x = 121 := congrArg Prod.fst hc
  have hp : (glcdSetAddress true 121 3 (afterInit true)).lcd_page = 3 := congrArg Prod.snd hc
  have hr : runOps true [.setAddress 121 3, .dataRead] (afterInit true) =
      (glcdDataRead true (glcdSetAddress true 121 3 (afterInit true))).1 := by
    simp only [runOps, List.foldl_cons, List.foldl_nil, Op.run]
  have h4 : (glcdDataRead true (glcdSetAddress true 121 3 (afterInit true))).1.lcd_page = 4 := by
    have := cursor_dataRead true (glcdSetAddress true 121 3 (afterInit true))
    rw [hx, hp, nextCursor_edge] at this
    exact congrArg Prod.snd this
  refine ⟨cursor_init true powerOn, ⟨by decide, by decide⟩, trivial, ?_, ?_, ?_⟩
  · rw [hr, h4]
  · rw [hr, h4]
    decide
  · rw [hr, issued_trans (steps_setAddress true 121 3 (afterInit true))
      (steps_dataRead true _), cycles_append, (dataRead_cycles true _ hs).2.2 hx, hp]
    simp [SET_PAGE_ADDRESS]

theorem enablesLow_of_idle {hasCS : Bool} {s : State} (h : Idle hasCS s) :
    EnablesLow hasCS s := by
  obtain ⟨_, hc⟩ := h
  cases hasCS
  · exact hc
  · exact hc.1

theorem sim_run (hasCS : Bool) (o : Op) (s : State) (v : View) (h : Sim hasCS s v) :
    Sim hasCS (o.run hasCS s) (Abs.run o v) := by
  cases o with
  | init =>
    have := sim_init hasCS s (enablesLow_of_idle h.1)
    rw [h.2] at this
    exact this
  | commandWrite c t => exact sim_commandWrite hasCS c t s v h
  | dataWrite b => exact sim_dataWrite hasCS b s v h
  | dataRead => exact (sim_dataRead hasCS s v h).1
  | setAddress x p => exact sim_setAddress hasCS x p s v h
  | clearScreen => exact sim_clearScreen hasCS s v h

theorem sim_runOps (hasCS : Bool) (ops : List Op) :
    ∀ (s : State) (v : View), Sim hasCS s v →
      Sim hasCS (runOps hasCS ops s) (Abs.runOps ops v) := by
  induction ops with
  | nil =>
    intro s v h
    exact h
  | cons o os ih =>
    intro s v h
    exact ih _ _ (sim_run hasCS o s v h)

theorem steps_run (hasCS : Bool) (o : Op) (s : State) : ∃ cs, Steps s (o.run hasCS s) cs := by
  cases o with
  | init => exact ⟨_, steps_init hasCS s⟩
  | commandWrite c t => exact ⟨_, steps_commandWrite hasCS c t s⟩
  | dataWrite b => exact ⟨_, steps_dataWrite hasCS b s⟩
  | dataRead => exact ⟨_, steps_dataRead hasCS s⟩
  | setAddress x p => exact ⟨_, steps_setAddress hasCS x p s⟩
  | clearScreen => exact ⟨_, (steps_clearScreen hasCS s).1⟩

theorem steps_runOps (hasCS : Bool) (ops : List Op) :
    ∀ s : State, ∃ cs, Steps s (runOps hasCS ops s) cs := by
  induction ops with
  | nil =>
    intro s
    exact ⟨[], Steps.refl s⟩
  | cons o os ih =>
    intro s
    obtain ⟨a, ha⟩ := steps_run hasCS o s
    obtain ⟨b, hb⟩ := ih (o.run hasCS s)
    exact ⟨a ++ b, ha.trans hb⟩

/-- A sequence of calls that begins with `glcdInit`, entered with the enables
low: the abstract machine follows it. -/
theorem sim_session (hasCS : Bool) (ops : List Op) (s : State) (he : EnablesLow hasCS s) :
    Sim hasCS (runOps hasCS (.init :: ops) s) (Abs.runOps (.init :: ops) (view s)) :=
  sim_runOps hasCS ops _ _ (sim_init hasCS s he)

theorem delivered_obs (who : Ctrl) (t : List Event) :
    delivered who (obs t) = delivered who t := by
  simp [delivered, cycles_obs]

/-- C19: without busy check, the two hardware variants are equivalent at the
controller level.  Take the chip-select build in a state `s1` and the
two-enable build in a state `s2`, both with the enable inputs low (as at
power-up), that agree on everything but the ports (cursor, controllers, bus
level, function entries and bus cycles so far).  After `glcdInit` followed by
any sequence of public calls, each controller has received the same sequence
of bus cycles (address-select level, read/write level, data byte) in both
builds, the whole interleaved record of function entries and bus cycles is
the same, the cursors are equal, both controllers are in the same state, and
a further `glcdDataRead` returns the same byte. -/
theorem C19_variants (ops : List Op) (s1 s2 : State) (h1 : EnablesLow true s1)
    (h2 : EnablesLow false s2) (hv : view s1 = view s2) :
    (∀ who, delivered who (issued s1 (runOps true (.init :: ops) s1)) =
      delivered who (issued s2 (runOps false (.init :: ops) s2))) ∧
    obs (issued s1 (runOps true (.init :: ops) s1)) =
      obs (issued s2 (runOps false (.init :: ops) s2)) ∧
    cursor (runOps true (.init :: ops) s1) = cursor (runOps false (.init :: ops) s2) ∧
    (runOps true (.init :: ops) s1).left = (runOps false (.init :: ops) s2).left ∧
    (runOps true (.init :: ops) s1).right = (runOps false (.init :: ops) s2).right ∧
    (glcdDataRead true (runOps true (.init :: ops) s1)).2 =
      (glcdDataRead false (runOps false (.init :: ops) s2)).2 := by
  have a1 := sim_session true ops s1 h1
  have a2 := sim_session false ops s2 h2
  rw [hv] at a1
  have hview : view (runOps true (.init :: ops) s1) = view (runOps false (.init :: ops) s2) :=
    a1.2.trans a2.2.symm
  obtain ⟨c1, ⟨l1, e1⟩, _⟩ := steps_runOps true (.init :: ops) s1
  obtain ⟨c2, ⟨l2, e2⟩, _⟩ := steps_runOps false (.init :: ops) s2
  have hobs : obs (issued s1 (runOps true (.init :: ops) s1)) =
      obs (issued s2 (runOps false (.init :: ops) s2)) := by
    rw [issued_of_eq e1, issued_of_eq e2]
    have h3 : obs (runOps true (.init :: ops) s1).trace =
        obs (runOps false (.init :: ops) s2).trace := congrArg View.seen hview
    have h4 : obs s1.trace = obs s2.trace := congrArg View.seen hv
    rw [e1, e2, obs_append, obs_append, h4] at h3
    exact List.append_cancel_left h3
  refine ⟨fun who => ?_, hobs, ?_, congrArg View.left hview, congrArg View.right hview, ?_⟩
  · rw [← delivered_obs, hobs, delivered_obs]
  · show ((view (runOps true (.init :: ops) s1)).lcd_x,
      (view (runOps true (.init :: ops) s1)).lcd_page) = _
    rw [hview]
    rfl
  · rw [(sim_dataRead true _ _ a1).2, (sim_dataRead false _ _ a2).2]

/-- Witness for C19: both builds from power-up, `glcdInit`, then a write at
column 60 that crosses to the right controller and a read. -/
theorem C19_variants_witness :
    EnablesLow true powerOn ∧ EnablesLow false powerOn ∧
    cursor (runOps true [.init, .setAddress 60 1, .dataWrite 5, .dataRead] powerOn) =
      cursor (runOps false [.init, .setAddress 60 1, .dataWrite 5, .dataRead] powerOn) ∧
    (∀ who, delivered who (issued powerOn
        (runOps true [.init, .setAddress 60 1, .dataWrite 5, .dataRead] powerOn)) =
      delivered who (issued powerOn
        (runOps false [.init, .setAddress 60 1, .dataWrite 5, .dataRead] powerOn))) :=
  have e1 : EnablesLow true powerOn := by simp [EnablesLow, powerOn]
  have e2 : EnablesLow false powerOn := by simp [EnablesLow, powerOn]
  have h := C19_variants [.setAddress 60 1, .dataWrite 5, .dataRead] powerOn powerOn e1 e2 rfl
  ⟨e1, e2, h.2.2.1, h.1⟩

/-- Without `BUSYCHECK` the bodies are all there is. -/
theorem body_eq (hasCS : Bool) (s : State) :
    (∀ c t, GLCD.glcdCommandWrite hasCS c t s =
      commandWriteBody hasCS (c % 256) (t % 256) (s.log (.call (.commandWrite (c % 256) (t % 256))))) ∧
    (∀ b, GLCD.glcdDataWrite hasCS b s =
      GLCD.advance hasCS (dataWriteBody hasCS (b % 256) (s.log (.call (.dataWrite (b % 256)))))) ∧
    GLCD.glcdDataRead hasCS s =
      (GLCD.advance hasCS (dataReadBody hasCS (s.log (.call .dataRead))).1,
        (dataReadBody hasCS (s.log (.call .dataRead))).2) :=
  ⟨fun _ _ => rfl, fun _ => rfl, rfl⟩

theorem idle_iff (hasCS : Bool) (s : State) :
    Idle hasCS s ↔ s.dataDDR = 0xFF ∧ Resting hasCS s := Iff.rfl

theorem poll_lines (hasCS : Bool) (c : Nat) (s : State) :
    (Busy.poll hasCS c s).1.dataDDR = s.dataDDR ∧ AfterPoll hasCS c s (Busy.poll hasCS c s).1 := by
  cases hasCS
  · simp only [Busy.poll, AfterPoll, Bool.false_eq_true, if_false]
    split_ifs <;> simp [ctlSet, ctlClr, testBit_masks]
  · simp only [Busy.poll, AfterPoll, if_true]
    split_ifs <;> simp [ctlSet, ctlClr, testBit_masks]

theorem afterPoll_trans {hasCS : Bool} {c : Nat} {s r t : State}
    (h1 : AfterPoll hasCS c s r) (h2 : AfterPoll hasCS c r t) : AfterPoll hasCS c s t := by
  cases hasCS
  · simp only [AfterPoll, Bool.false_eq_true, if_false] at *
    split_ifs at * <;> exact ⟨h2.1, h2.2.trans h1.2⟩
  · exact h2

theorem pollLoop_lines (hasCS : Bool) (sb c : Nat) :
    ∀ (fuel : Nat) (s r : State), Busy.pollLoop hasCS sb c fuel s = some r →
      r.dataDDR = s.dataDDR ∧ AfterPoll hasCS c s r := by
  intro fuel
  induction fuel with
  | zero =>
    intro s r h
    simp [Busy.pollLoop] at h
  | succ n ih =>
    intro s r h
    obtain ⟨p1, p2⟩ := poll_lines hasCS c s
    simp only [Busy.pollLoop] at h
    split_ifs at h
    · obtain ⟨q1, q2⟩ := ih _ _ h
      exact ⟨q1.trans p1, afterPoll_trans p2 q2⟩
    · cases h
      exact ⟨p1, p2⟩

/-- What a `glcdBusyWait` that returns leaves on the ports: with no controller
named, everything as it was; otherwise the data direction register at `0xFF`
and the enable lines as after a pass of the loop. -/
theorem busyWait_lines (hasCS : Bool) (fuel sb c : Nat) (s r : State)
    (h : Busy.glcdBusyWait hasCS fuel sb c s = some r) :
    (c % 256 = 0 → r = s.log (.call (.busyWait (sb % 256) 0))) ∧
    (c % 256 ≠ 0 → r.dataDDR = 0xFF ∧ AfterPoll hasCS (c % 256) s r) := by
  simp only [Busy.glcdBusyWait] at h
  refine ⟨fun h0 => ?_, fun h0 => ?_⟩
  · rw [if_pos h0] at h
    cases h
    rw [h0]
  · rw [if_neg h0] at h
    obtain ⟨t, ht, rfl⟩ := Option.map_eq_some'.1 h
    obtain ⟨q1, q2⟩ := pollLoop_lines hasCS _ _ _ _ _ ht
    refine ⟨rfl, ?_⟩
    cases hasCS
    · simp only [AfterPoll, Bool.false_eq_true, if_false] at q2 ⊢
      split_ifs at q2 ⊢ <;>
      simpa [ctlSet, ctlClr, testBit_masks, dataDDRWrite, dataPortWrite, State.log] using q2
    · exact q2

theorem busyWait_idle (hasCS : Bool) (fuel sb c : Nat) (s r : State) (hi : Idle hasCS s)
    (h : Busy.glcdBusyWait hasCS fuel sb c s = some r) : Idle hasCS r := by
  obtain ⟨h1, h2⟩ := busyWait_lines hasCS fuel sb c s r h
  by_cases h0 : c % 256 = 0
  · rw [h1 h0]
    exact hi
  · obtain ⟨d, a⟩ := h2 h0
    obtain ⟨_, hc⟩ := hi
    refine ⟨d, ?_⟩
    cases hasCS
    · simp only [AfterPoll, Bool.false_eq_true, if_false] at a hc ⊢
      split_ifs at a
      · exact ⟨a.1, a.2.trans hc.2⟩
      · exact ⟨a.2.trans hc.1, a.1⟩
    · exact a

theorem body_idle (hasCS : Bool) (s : State) (hi : Idle hasCS s) :
    (∀ c t, Idle hasCS (commandWriteBody hasCS c t s)) ∧
    (∀ b, Idle hasCS (dataWriteBody hasCS b s)) ∧
    Idle hasCS (dataReadBody hasCS s).1 := by
  obtain ⟨hd, hc⟩ := hi
  cases hasCS
  · simp only [Bool.false_eq_true, if_false] at hc
    obtain ⟨h4, h3⟩ := hc
    refine ⟨fun c t => ?_, fun b => ?_, ?_⟩
    · simp only [Idle, commandWriteBody, Bool.false_eq_true, if_false]
      split_ifs <;>
      simp [ctlSet, ctlClr, dataPortWrite, testBit_masks, hd, h4, h3]
    · simp only [Idle, dataWriteBody, Bool.false_eq_true, if_false]
      split_ifs <;>
      simp [ctlSet, ctlClr, dataPortWrite, testBit_masks, hd, h4, h3]
    · simp only [Idle, dataReadBody, Bool.false_eq_true, if_false]
      split_ifs <;>
      simp [ctlSet, ctlClr, dataPortWrite, dataDDRWrite, testBit_masks, hd, h4, h3]
  · simp only [if_true] at hc
    obtain ⟨h5, h4, h3⟩ := hc
    refine ⟨fun c t => ?_, fun b => ?_, ?_⟩
    · simp only [Idle, commandWriteBody, if_true]
      split_ifs <;>
      simp [ctlSet, ctlClr, dataPortWrite, testBit_masks, hd, h5, h4, h3]
    · simp only [Idle, dataWriteBody, if_true]
      split_ifs <;>
      simp [ctlSet, ctlClr, dataPortWrite, testBit_masks, hd, h5, h4, h3]
    · simp only [Idle, dataReadBody, if_true]
      split_ifs <;>
      simp [ctlSet, ctlClr, dataPortWrite, dataDDRWrite, testBit_masks, hd, h5, h4, h3]

theorem busy_commandWrite_idle (hasCS : Bool) (fuel c t : Nat) (s r : State)
    (hi : Idle hasCS s) (h : Busy.glcdCommandWrite hasCS fuel c t s = some r) :
    Idle hasCS r := by
  simp only [Busy.glcdCommandWrite] at h
  obtain ⟨s1, h1, h⟩ := Option.bind_eq_some.1 h
  obtain ⟨s2, h2, h⟩ := Option.bind_eq_some.1 h
  cases h
  have i1 := busyWait_idle hasCS _ _ _ _ _ (show Idle hasCS (s.log _) from hi) h1
  have i2 := busyWait_idle hasCS _ _ _ _ _ i1 h2
  exact (body_idle hasCS s2 i2).1 _ _

theorem busy_setAddress_idle (hasCS : Bool) (fuel x p : Nat) (s r : State)
    (hi : Idle hasCS s) (h : Busy.glcdSetAddress hasCS fuel x p s = some r) :
    Idle hasCS r := by
  simp only [Busy.glcdSetAddress] at h
  have h0 : Idle hasCS { s.log (.call (.setAddress (x % 256) (p % 256))) with
      lcd_x := x % 256, lcd_page := p % 256 } := hi
  split_ifs at h
  · obtain ⟨s1, h1, h⟩ := Option.bind_eq_some.1 h
    obtain ⟨s2, h2, h⟩ := Option.bind_eq_some.1 h
    have i1 := busy_commandWrite_idle hasCS _ _ _ _ _ h0 h1
    have i2 := busy_commandWrite_idle hasCS _ _ _ _ _ i1 h2
    exact busy_commandWrite_idle hasCS _ _ _ _ _ i2 h
  · obtain ⟨s1, h1, h⟩ := Option.bind_eq_some.1 h
    have i1 := busy_commandWrite_idle hasCS _ _ _ _ _ h0 h1
    exact busy_commandWrite_idle hasCS _ _ _ _ _ i1 h

theorem busy_advance_idle (hasCS : Bool) (fuel : Nat) (s r : State)
    (hi : Idle hasCS s) (h : Busy.advance hasCS fuel s = some r) : Idle hasCS r := by
  simp only [Busy.advance] at h
  have h0 : Idle hasCS { s with lcd_x := (s.lcd_x + 1) % 256 } := hi
  split_ifs at h
  · exact busy_setAddress_idle hasCS _ _ _ _ _ h0 h
  · cases h
    exact h0

theorem busy_dataWrite_idle (hasCS : Bool) (fuel b : Nat) (s r : State)
    (hi : Idle hasCS s) (h : Busy.glcdDataWrite hasCS fuel b s = some r) : Idle hasCS r := by
  simp only [Busy.glcdDataWrite] at h
  obtain ⟨s1, h1, h⟩ := Option.bind_eq_some.1 h
  obtain ⟨s2, h2, h⟩ := Option.bind_eq_some.1 h
  have i1 := busyWait_idle hasCS _ _ _ _ _ (show Idle hasCS (s.log _) from hi) h1
  have i2 := busyWait_idle hasCS _ _ _ _ _ i1 h2
  exact busy_advance_idle hasCS _ _ _ ((body_idle hasCS s2 i2).2.1 _) h

theorem busy_dataRead_idle (hasCS : Bool) (fuel : Nat) (s : State) (r : State × Nat)
    (hi : Idle hasCS s) (h : Busy.glcdDataRead hasCS fuel s = some r) : Idle hasCS r.1 := by
  simp only [Busy.glcdDataRead] at h
  obtain ⟨s1, h1, h⟩ := Option.bind_eq_some.1 h
  obtain ⟨s2, h2, h⟩ := Option.bind_eq_some.1 h
  obtain ⟨s3, h3, rfl⟩ := Option.map_eq_some'.1 h
  have i1 := busyWait_idle hasCS _ _ _ _ _ (show Idle hasCS (s.log _) from hi) h1
  have i2 := busyWait_idle hasCS _ _ _ _ _ i1 h2
  exact busy_advance_idle hasCS _ _ _ ((body_idle hasCS s2 i2).2.2) h3

/-- A loop whose body keeps a property of the state keeps it. -/
theorem busy_forLoop_inv (P : State → Prop) (body : Nat → State → Option State)
    (hb : ∀ i s r, P s → body i s = some r → P r) (n : Nat) (s r : State) (hs : P s)
    (h : Busy.forLoop n body s = some r) : P r := by
  unfold Busy.forLoop at h
  have key : ∀ (l : List Nat) (o : Option State), (∀ t, o = some t → P t) →
      ∀ r, l.foldl (fun r i => r.bind (body i)) o = some r → P r := by
    intro l
    induction l with
    | nil =>
      intro o ho r hr
      exact ho r hr
    | cons i l ih =>
      intro o ho r hr
      refine ih (o.bind (body i)) ?_ r hr
      intro t ht
      obtain ⟨u, hu, hbu⟩ := Option.bind_eq_some.1 ht
      exact hb i u t (ho u hu) hbu
  exact key _ _ (fun t ht => by cases ht; exact hs) r h

theorem busy_clearScreen_idle (hasCS : Bool) (fuel : Nat) (s r : State)
    (hi : Idle hasCS s) (h : Busy.glcdClearScreen hasCS fuel s = some r) : Idle hasCS r := by
  simp only [Busy.glcdClearScreen] at h
  obtain ⟨s1, h1, h⟩ := Option.bind_eq_some.1 h
  have i1 : Idle hasCS s1 := by
    refine busy_forLoop_inv (Idle hasCS) _ ?_ _ _ _ (show Idle hasCS (s.log _) from hi) h1
    intro j t u ht hu
    obtain ⟨t1, a1, a2⟩ := Option.bind_eq_some.1 hu
    refine busy_forLoop_inv (Idle hasCS) _ ?_ _ _ _
      (busy_setAddress_idle hasCS _ _ _ _ _ ht a1) a2
    intro _ a b ha hab
    exact busy_dataWrite_idle hasCS _ _ _ _ ha hab
  exact busy_setAddress_idle hasCS _ _ _ _ _ i1 h

/-- A command write to both controllers that returns leaves the bus at rest,
whatever the ports held before: each of its two busy waits pulses one
controller. -/
theorem busy_commandWrite_both_idle (hasCS : Bool) (fuel c : Nat) (s r : State)
    (h : Busy.glcdCommandWrite hasCS fuel c (CTRL1 + CTRL2) s = some r) : Idle hasCS r := by
  simp only [Busy.glcdCommandWrite] at h
  obtain ⟨s1, h1, h⟩ := Option.bind_eq_some.1 h
  obtain ⟨s2, h2, h⟩ := Option.bind_eq_some.1 h
  cases h
  have e1 : ((CTRL1 + CTRL2) % 256 &&& CTRL1) % 256 = 1 := by decide
  have e2 : ((CTRL1 + CTRL2) % 256 &&& CTRL2) % 256 = 2 := by decide
  have a1 := (busyWait_lines hasCS _ _ _ _ _ h1).2 (by rw [e1]; decide)
  have a2 := (busyWait_lines hasCS _ _ _ _ _ h2).2 (by rw [e2]; decide)
  rw [e1] at a1
  rw [e2] at a2
  refine (body_idle hasCS s2 ⟨a2.1, ?_⟩).1 _ _
  obtain ⟨_, b1⟩ := a1
  obtain ⟨_, b2⟩ := a2
  cases hasCS
  · simp only [AfterPoll, Bool.false_eq_true, if_false] at b1 b2
    rw [if_pos (by decide)] at b1
    rw [if_neg (by decide)] at b2
    exact ⟨b2.2.trans b1.1, b2.1⟩
  · exact b2

theorem busy_init_idle (hasCS : Bool) (fuel : Nat) (s r : State)
    (h : Busy.glcdInit hasCS fuel s = some r) : Idle hasCS r := by
  simp only [Busy.glcdInit] at h
  obtain ⟨s1, h1, h⟩ := Option.bind_eq_some.1 h
  obtain ⟨s2, h2, h⟩ := Option.bind_eq_some.1 h
  obtain ⟨s3, h3, h⟩ := Option.bind_eq_some.1 h
  exact busy_commandWrite_both_idle hasCS _ _ _ _ h

theorem busy_run_idle (hasCS : Bool) (fuel : Nat) (o : Op) (s r : State) (hi : Idle hasCS s)
    (h : Busy.run hasCS fuel o s = some r) : Idle hasCS r := by
  cases o with
  | init => exact busy_init_idle hasCS fuel s r h
  | commandWrite c t => exact busy_commandWrite_idle hasCS fuel c t s r hi h
  | dataWrite b => exact busy_dataWrite_idle hasCS fuel b s r hi h
  | dataRead =>
    obtain ⟨q, hq, rfl⟩ := Option.map_eq_some'.1 h
    exact busy_dataRead_idle hasCS fuel s q hi hq
  | setAddress x p => exact busy_setAddress_idle hasCS fuel x p s r hi h
  | clearScreen => exact busy_clearScreen_idle hasCS fuel s r hi h

theorem run_idle (hasCS : Bool) (o : Op) (s : State) (hi : Idle hasCS s) :
    Idle hasCS (o.run hasCS s) := by
  obtain ⟨a, b, c, d, e⟩ := idle_preserved hasCS s hi
  cases o with
  | init => exact glcdInit_idle hasCS s
  | commandWrite c t => exact a c t
  | dataWrite x => exact c x
  | dataRead => exact d
  | setAddress x p => exact b x p
  | clearScreen => exact e

theorem runOps_idle (hasCS : Bool) (ops : List Op) :
    ∀ s : State, Idle hasCS s → Idle hasCS (runOps hasCS ops s) := by
  induction ops with
  | nil =>
    intro s h
    exact h
  | cons o os ih =>
    intro s h
    exact ih _ (run_idle hasCS o s h)

theorem steps_poll (hasCS : Bool) (c : Nat) (s : State) :
    Steps s (Busy.poll hasCS c s).1 [] := by
  unfold Busy.poll
  cases hasCS
  · simp only [Bool.false_eq_true, if_false]
    split_ifs
    · exact steps_pulse false SED1520_E1 s
    · exact steps_pulse false SED1520_E2 s
  · simp only [if_true]
    have h1 := steps_ite (c &&& CTRL1 ≠ 0) (fun s => ctlClr true SED1520_CS1 s) id s []
      (steps_ctlClr _ _ _) (Steps.refl _)
    have h2 := h1.then (steps_ite (c &&& CTRL2 ≠ 0) (fun s => ctlClr true SED1520_CS2 s) id _ []
      (steps_ctlClr _ _ _) (Steps.refl _))
    exact ((h2.then (steps_ctlSet true SED1520_E _)).then (steps_ctlClr true SED1520_E _)).then
      (steps_ctlSet true _ _)

/-- One pass of the polling loop with one controller named, on lines as
`glcdBusyWait` sets them: one status read on that controller, whose status
byte is `tmp`; the lines are as before and no controller changes. -/
theorem poll_polling (hasCS : Bool) (who : Ctrl) (s : State) (hp : Polling hasCS s) :
    Polling hasCS (Busy.poll hasCS who.bit s).1 ∧
    (Busy.poll hasCS who.bit s).1.left = s.left ∧
    (Busy.poll hasCS who.bit s).1.right = s.right ∧
    cursor (Busy.poll hasCS who.bit s).1 = cursor s ∧
    (Busy.poll hasCS who.bit s).2 = (s.ctrl who).status ∧
    obs (issued s (Busy.poll hasCS who.bit s).1) = [Event.cycle ⟨who, false, true, 0⟩] := by
  obtain ⟨hr, h7, h6, hd⟩ := hp
  cases hasCS
  · simp only [Resting, Bool.false_eq_true, if_false] at hr
    obtain ⟨h4, h3⟩ := hr
    cases who <;>
    simp [Polling, Resting, Busy.poll, Ctrl.bit, testBit_masks, ctlSet, ctlClr, writeControl,
      selected, busCycle, driven, dataPin, issued, obs, cursor, State.ctrl, Controller.cycle,
      h7, h6, hd, h4, h3]
  · simp only [Resting, if_true] at hr
    obtain ⟨h5, h4, h3⟩ := hr
    cases who <;>
    simp [Polling, Resting, Busy.poll, Ctrl.bit, testBit_masks, ctlSet, ctlClr, writeControl,
      selected, busCycle, driven, dataPin, issued, obs, cursor, State.ctrl, Controller.cycle,
      h7, h6, hd, h5, h4, h3]

/-- The polling loop on one controller whose status byte does not change: it
ends after its first pass when the status bit is clear, and never otherwise. -/
theorem pollLoop_polling (hasCS : Bool) (who : Ctrl) (sb : Nat) :
    ∀ (fuel : Nat) (s : State), Polling hasCS s →
      Busy.pollLoop hasCS sb who.bit fuel s =
        if 0 < fuel ∧ (s.ctrl who).status &&& sb = 0 then some (Busy.poll hasCS who.bit s).1
        else none := by
  intro fuel
  induction fuel with
  | zero =>
    intro s _
    simp [Busy.pollLoop]
  | succ n ih =>
    intro s hp
    obtain ⟨p1, p2, p3, _, p5, _⟩ := poll_polling hasCS who s hp
    simp only [Busy.pollLoop, p5]
    by_cases hz : (s.ctrl who).status &&& sb = 0
    · simp [hz]
    · have hs : ((Busy.poll hasCS who.bit s).1.ctrl who).status = (s.ctrl who).status := by
        cases who
        · exact congrArg Controller.status p2
        · exact congrArg Controller.status p3
      rw [if_pos hz, ih _ p1, hs]
      simp [hz]

theorem busyWait_entry (hasCS : Bool) (s : State) (c : Call) (hi : Idle hasCS s) :
    Polling hasCS (dataPortWrite 0xFF (dataDDRWrite 0x00 (ctlSet hasCS SED1520_RW
      (ctlClr hasCS SED1520_A0 (s.log (.call c)))))) ∧
    (dataPortWrite 0xFF (dataDDRWrite 0x00 (ctlSet hasCS SED1520_RW
      (ctlClr hasCS SED1520_A0 (s.log (.call c)))))).left = s.left ∧
    (dataPortWrite 0xFF (dataDDRWrite 0x00 (ctlSet hasCS SED1520_RW
      (ctlClr hasCS SED1520_A0 (s.log (.call c)))))).right = s.right ∧
    cursor (dataPortWrite 0xFF (dataDDRWrite 0x00 (ctlSet hasCS SED1520_RW
      (ctlClr hasCS SED1520_A0 (s.log (.call c)))))) = cursor s ∧
    obs (issued s (dataPortWrite 0xFF (dataDDRWrite 0x00 (ctlSet hasCS SED1520_RW
      (ctlClr hasCS SED1520_A0 (s.log (.call c))))))) = [Event.call c] := by
  obtain ⟨hd, hc⟩ := hi
  cases hasCS
  · simp only [Bool.false_eq_true, if_false] at hc
    obtain ⟨h4, h3⟩ := hc
    simp [Polling, Resting, testBit_masks, ctlSet, ctlClr, writeControl, selected, State.log,
      dataPortWrite, dataDDRWrite, issued, obs, cursor, h4, h3]
  · simp only [if_true] at hc
    obtain ⟨h5, h4, h3⟩ := hc
    simp [Polling, Resting, testBit_masks, ctlSet, ctlClr, writeControl, selected, State.log,
      dataPortWrite, dataDDRWrite, issued, obs, cursor, h5, h4, h3]

theorem steps_busyWait_entry (hasCS : Bool) (s : State) (c : Call) :
    Steps s (dataPortWrite 0xFF (dataDDRWrite 0x00 (ctlSet hasCS SED1520_RW
      (ctlClr hasCS SED1520_A0 (s.log (.call c)))))) [c] :=
  ((((steps_log s c).then (steps_ctlClr hasCS SED1520_A0 _)).then
    (steps_ctlSet hasCS SED1520_RW _)).then (steps_dataDDRWrite 0x00 _)).then
    (steps_dataPortWrite 0xFF _)

/-- On an idle bus, `glcdBusyWait` with one controller named and a status byte
that does not change: with the status bit set, or without fuel, it does not
return; otherwise it returns after one status read on that controller and
leaves the bus idle, the controllers and the cursor as they were. -/
theorem busyWait_single (hasCS : Bool) (who : Ctrl) (fuel sb : Nat) (s : State)
    (hi : Idle hasCS s) :
    (¬ (0 < fuel ∧ (s.ctrl who).status &&& (sb % 256) = 0) →
      Busy.glcdBusyWait hasCS fuel sb who.bit s = none) ∧
    (0 < fuel → (s.ctrl who).status &&& (sb % 256) = 0 →
      ∃ r, Busy.glcdBusyWait hasCS fuel sb who.bit s = some r ∧ Idle hasCS r ∧
        r.left = s.left ∧ r.right = s.right ∧ cursor r = cursor s ∧
        Steps s r [.busyWait (sb % 256) who.bit] ∧
        obs (issued s r) =
          [Event.call (.busyWait (sb % 256) who.bit), Event.cycle ⟨who, false, true, 0⟩]) := by
  have hb : who.bit % 256 = who.bit := by cases who <;> rfl
  have hn : who.bit ≠ 0 := by cases who <;> decide
  obtain ⟨q1, q2, q3, q4, q5⟩ := busyWait_entry hasCS s (.busyWait (sb % 256) who.bit) hi
  have hst := steps_busyWait_entry hasCS s (.busyWait (sb % 256) who.bit)
  obtain ⟨p1, p2, p3, p4, p5, p6⟩ := poll_polling hasCS who _ q1
  have hs : ((dataPortWrite 0xFF (dataDDRWrite 0x00 (ctlSet hasCS SED1520_RW
        (ctlClr hasCS SED1520_A0 (s.log (.call (.busyWait (sb % 256) who.bit))))))).ctrl who).status = (s.ctrl who).status := by
    cases who
    · exact congrArg Controller.status q2
    · exact congrArg Controller.status q3
  have e : Busy.glcdBusyWait hasCS fuel sb who.bit s =
      if 0 < fuel ∧ (s.ctrl who).status &&& (sb % 256) = 0 then
        some (dataDDRWrite 0xFF (Busy.poll hasCS who.bit
        (dataPortWrite 0xFF (dataDDRWrite 0x00 (ctlSet hasCS SED1520_RW
        (ctlClr hasCS SED1520_A0 (s.log (.call (.busyWait (sb % 256) who.bit)))))))).1)
      else none := by
    simp only [Busy.glcdBusyWait, hb, if_neg hn]
    rw [pollLoop_polling hasCS who _ _ _ q1, hs]
    split_ifs <;> rfl
  refine ⟨fun h => by rw [e, if_neg h], fun hf hz => ?_⟩
  rw [e, if_pos ⟨hf, hz⟩]
  refine ⟨_, rfl, ⟨rfl, p1.1⟩, p2.trans q2, p3.trans q3, p4.trans q4, ?_, ?_⟩
  · exact (hst.then (steps_poll hasCS _ _)).then (steps_dataDDRWrite 0xFF _)
  · have h1 : issued s (dataDDRWrite 0xFF (Busy.poll hasCS who.bit
        (dataPortWrite 0xFF (dataDDRWrite 0x00 (ctlSet hasCS SED1520_RW
        (ctlClr hasCS SED1520_A0 (s.log (.call (.busyWait (sb % 256) who.bit)))))))).1) =
        issued s (Busy.poll hasCS who.bit
        (dataPortWrite 0xFF (dataDDRWrite 0x00 (ctlSet hasCS SED1520_RW
        (ctlClr hasCS SED1520_A0 (s.log (.call (.busyWait (sb % 256) who.bit)))))))).1 := rfl
    rw [h1, issued_trans hst (steps_poll hasCS _ _), obs_append, q5, p6]
    rfl

theorem steps_commandWriteBody (hasCS : Bool) (cmd ctl : Nat) (s : State) :
    Steps s (commandWriteBody hasCS cmd ctl s) [] := by
  unfold commandWriteBody
  have h1 := steps_ctlClr hasCS SED1520_A0 s
  have h2 := h1.then (steps_ctlClr hasCS SED1520_RW _)
  have h3 := h2.then (steps_dataPortWrite cmd _)
  cases hasCS
  · simp only [Bool.false_eq_true, if_false]
    have h4 := h3.then (steps_ite (ctl &&& CTRL1 ≠ 0)
      (fun s => ctlClr false SED1520_E1 (ctlSet false SED1520_E1 s)) id _ _
      (steps_pulse _ _ _) (Steps.refl _))
    exact h4.then (steps_ite (ctl &&& CTRL2 ≠ 0)
      (fun s => ctlClr false SED1520_E2 (ctlSet false SED1520_E2 s)) id _ _
      (steps_pulse _ _ _) (Steps.refl _))
  · simp only [if_true]
    have h4 := h3.then (steps_ite (ctl &&& CTRL1 ≠ 0)
      (fun s => ctlClr true SED1520_CS1 s) id _ _ (steps_ctlClr _ _ _) (Steps.refl _))
    have h5 := h4.then (steps_ite (ctl &&& CTRL2 ≠ 0)
      (fun s => ctlClr true SED1520_CS2 s) id _ _ (steps_ctlClr _ _ _) (Steps.refl _))
    exact ((h5.then (steps_ctlSet _ _ _)).then (steps_ctlClr _ _ _)).then (steps_ctlSet _ _ _)

theorem steps_dataWriteBody (hasCS : Bool) (b : Nat) (s : State) :
    Steps s (dataWriteBody hasCS b s) [] := by
  unfold dataWriteBody
  have h1 := steps_ctlSet hasCS SED1520_A0 s
  have h2 := h1.then (steps_ctlClr hasCS SED1520_RW _)
  have h3 := h2.then (steps_dataPortWrite b _)
  cases hasCS
  · simp only [Bool.false_eq_true, if_false]
    split_ifs
    · exact h3.then (steps_pulse _ _ _)
    · exact h3.then (steps_pulse _ _ _)
  · simp only [if_true]
    refine ((?_ : Steps s _ []).then (steps_ctlSet _ _ _) |>.then
      (steps_ctlClr _ _ _)).then (steps_ctlSet _ _ _)
    split_ifs
    · exact h3.then (steps_ctlClr _ _ _)
    · exact h3.then (steps_ctlClr _ _ _)

theorem steps_dataReadBody (hasCS : Bool) (s : State) :
    Steps s (dataReadBody hasCS s).1 [] := by
  unfold dataReadBody
  have h1 := steps_ctlSet hasCS SED1520_A0 s
  have h2 := h1.then (steps_ctlSet hasCS SED1520_RW _)
  have h3 := h2.then (steps_dataDDRWrite 0x00 _)
  have h4 := h3.then (steps_dataPortWrite 0xFF _)
  have key : ∀ t : State, Steps s t [] → Steps s (dataDDRWrite 0xFF t) [] :=
    fun t ht => ht.then (steps_dataDDRWrite 0xFF t)
  cases hasCS
  · simp only [Bool.false_eq_true, if_false]
    split_ifs
    · exact key _ (((h4.then (steps_ctlSet _ _ _)).then (steps_ctlClr _ _ _)).then
        (steps_ctlSet _ _ _) |>.then (steps_ctlClr _ _ _))
    · exact key _ (((h4.then (steps_ctlSet _ _ _)).then (steps_ctlClr _ _ _)).then
        (steps_ctlSet _ _ _) |>.then (steps_ctlClr _ _ _))
  · simp only [if_true]
    apply key
    refine (((((?_ : Steps s _ []).then (steps_ctlSet _ _ _)).then
      (steps_ctlClr _ _ _)).then (steps_ctlSet _ _ _)).then (steps_ctlClr _ _ _)).then
      (steps_ctlSet _ _ _)
    split_ifs
    · exact h4.then (steps_ctlClr _ _ _)
    · exact h4.then (steps_ctlClr _ _ _)

theorem steps_pollLoop (hasCS : Bool) (sb c : Nat) :
    ∀ (fuel : Nat) (s r : State), Busy.pollLoop hasCS sb c fuel s = some r → Steps s r [] := by
  intro fuel
  induction fuel with
  | zero =>
    intro s r h
    simp [Busy.pollLoop] at h
  | succ n ih =>
    intro s r h
    simp only [Busy.pollLoop] at h
    split_ifs at h
    · exact (steps_poll hasCS c s).then (ih _ _ h)
    · cases h
      exact steps_poll hasCS c s

theorem steps_busyWait (hasCS : Bool) (fuel sb c : Nat) (s r : State)
    (h : Busy.glcdBusyWait hasCS fuel sb c s = some r) :
    Steps s r [.busyWait (sb % 256) (c % 256)] := by
  simp only [Busy.glcdBusyWait] at h
  split_ifs at h
  · cases h
    exact steps_log s _
  · obtain ⟨t, ht, rfl⟩ := Option.map_eq_some'.1 h
    exact ((steps_busyWait_entry hasCS s _).then (steps_pollLoop hasCS _ _ _ _ _ ht)).then
      (steps_dataDDRWrite 0xFF _)

theorem and_mod (t m : Nat) (hm : m < 256) : (t &&& m) % 256 = t &&& m :=
  Nat.mod_eq_of_lt (Nat.lt_of_le_of_lt Nat.and_le_right hm)

theorem steps_busy_commandWrite (hasCS : Bool) (fuel cmd ctl : Nat) (s r : State)
    (h : Busy.glcdCommandWrite hasCS fuel cmd ctl s = some r) :
    Steps s r [.commandWrite (cmd % 256) (ctl % 256),
      .busyWait STATUS_BUSY (ctl % 256 &&& CTRL1), .busyWait STATUS_BUSY (ctl % 256 &&& CTRL2)] := by
  simp only [Busy.glcdCommandWrite] at h
  obtain ⟨s1, h1, h⟩ := Option.bind_eq_some.1 h
  obtain ⟨s2, h2, h⟩ := Option.bind_eq_some.1 h
  cases h
  have a1 := steps_busyWait hasCS _ _ _ _ _ h1
  have a2 := steps_busyWait hasCS _ _ _ _ _ h2
  rw [and_mod _ _ (by decide)] at a1 a2
  exact (((steps_log s _).trans a1).trans a2).then (steps_commandWriteBody hasCS _ _ _)

theorem singleWait_commandWrite (cmd ctl : Nat) :
    ∀ c ∈ [Call.commandWrite cmd ctl, .busyWait STATUS_BUSY (ctl &&& CTRL1),
      .busyWait STATUS_BUSY (ctl &&& CTRL2)], c.singleWait := by
  intro c hc
  simp only [List.mem_cons, List.mem_singleton, List.not_mem_nil, or_false] at hc
  rcases hc with rfl | rfl | rfl
  · trivial
  · exact Or.inr (by
      rw [Nat.and_assoc, show CTRL1 &&& CTRL2 = 0 from rfl]
      exact Nat.and_zero ctl)
  · exact Or.inl (by
      rw [Nat.and_assoc, show CTRL2 &&& CTRL1 = 0 from rfl]
      exact Nat.and_zero ctl)

theorem singleWait_append {a b : List Call} (ha : ∀ c ∈ a, c.singleWait)
    (hb : ∀ c ∈ b, c.singleWait) : ∀ c ∈ a ++ b, c.singleWait := by
  intro c hc
  rcases List.mem_append.1 hc with h | h
  · exact ha c h
  · exact hb c h

theorem single_busy_commandWrite (hasCS : Bool) (fuel cmd ctl : Nat) (s r : State)
    (h : Busy.glcdCommandWrite hasCS fuel cmd ctl s = some r) :
    ∃ cs, Steps s r cs ∧ ∀ c ∈ cs, c.singleWait :=
  ⟨_, steps_busy_commandWrite hasCS fuel cmd ctl s r h, singleWait_commandWrite _ _⟩

theorem single_busy_setAddress (hasCS : Bool) (fuel x p : Nat) (s r : State)
    (h : Busy.glcdSetAddress hasCS fuel x p s = some r) :
    ∃ cs, Steps s r cs ∧ ∀ c ∈ cs, c.singleWait := by
  simp only [Busy.glcdSetAddress] at h
  have h0 : Steps s { s.log (.call (.setAddress (x % 256) (p % 256))) with
      lcd_x := x % 256, lcd_page := p % 256 } [.setAddress (x % 256) (p % 256)] :=
    steps_log s _
  have t0 : ∀ c ∈ [Call.setAddress (x % 256) (p % 256)], c.singleWait := by
    intro c hc
    rw [List.mem_singleton.1 hc]
    trivial
  split_ifs at h
  · obtain ⟨s1, h1, h⟩ := Option.bind_eq_some.1 h
    obtain ⟨s2, h2, h⟩ := Option.bind_eq_some.1 h
    obtain ⟨c1, a1, b1⟩ := single_busy_commandWrite hasCS _ _ _ _ _ h1
    obtain ⟨c2, a2, b2⟩ := single_busy_commandWrite hasCS _ _ _ _ _ h2
    obtain ⟨c3, a3, b3⟩ := single_busy_commandWrite hasCS _ _ _ _ _ h
    exact ⟨_, ((h0.trans a1).trans a2).trans a3,
      singleWait_append (singleWait_append (singleWait_append t0 b1) b2) b3⟩
  · obtain ⟨s1, h1, h⟩ := Option.bind_eq_some.1 h
    obtain ⟨c1, a1, b1⟩ := single_busy_commandWrite hasCS _ _ _ _ _ h1
    obtain ⟨c2, a2, b2⟩ := single_busy_commandWrite hasCS _ _ _ _ _ h
    exact ⟨_, (h0.trans a1).trans a2, singleWait_append (singleWait_append t0 b1) b2⟩

theorem single_busy_advance (hasCS : Bool) (fuel : Nat) (s r : State)
    (h : Busy.advance hasCS fuel s = some r) :
    ∃ cs, Steps s r cs ∧ ∀ c ∈ cs, c.singleWait := by
  simp only [Busy.advance] at h
  have h0 : Steps s { s with lcd_x := (s.lcd_x + 1) % 256 } [] := Steps.refl s
  split_ifs at h
  · obtain ⟨cs, a, b⟩ := single_busy_setAddress hasCS _ _ _ _ _ h
    exact ⟨cs, by simpa using h0.trans a, b⟩
  · cases h
    exact ⟨[], h0, by simp⟩

theorem singleWait_data (c0 : Call) (h0 : c0.singleWait) :
    ∀ c ∈ [c0, .busyWait (STATUS_BUSY % 256) (CTRL1 % 256),
      .busyWait (STATUS_BUSY % 256) (CTRL2 % 256)], c.singleWait := by
  intro c hc
  simp only [List.mem_cons, List.mem_singleton, List.not_mem_nil, or_false] at hc
  rcases hc with rfl | rfl | rfl
  · exact h0
  · exact Or.inr (by decide)
  · exact Or.inl (by decide)

theorem single_busy_dataWrite (hasCS : Bool) (fuel b : Nat) (s r : State)
    (h : Busy.glcdDataWrite hasCS fuel b s = some r) :
    ∃ cs, Steps s r cs ∧ ∀ c ∈ cs, c.singleWait := by
  simp only [Busy.glcdDataWrite] at h
  obtain ⟨s1, h1, h⟩ := Option.bind_eq_some.1 h
  obtain ⟨s2, h2, h⟩ := Option.bind_eq_some.1 h
  obtain ⟨cs, a, b3⟩ := single_busy_advance hasCS _ _ _ h
  have a1 := steps_busyWait hasCS _ _ _ _ _ h1
  have a2 := steps_busyWait hasCS _ _ _ _ _ h2
  exact ⟨_, ((((steps_log s _).trans a1).trans a2).then (steps_dataWriteBody hasCS _ _)).trans a,
    singleWait_append (singleWait_data _ trivial) b3⟩

theorem single_busy_dataRead (hasCS : Bool) (fuel : Nat) (s : State) (r : State × Nat)
    (h : Busy.glcdDataRead hasCS fuel s = some r) :
    ∃ cs, Steps s r.1 cs ∧ ∀ c ∈ cs, c.singleWait := by
  simp only [Busy.glcdDataRead] at h
  obtain ⟨s1, h1, h⟩ := Option.bind_eq_some.1 h
  obtain ⟨s2, h2, h⟩ := Option.bind_eq_some.1 h
  obtain ⟨s3, h3, rfl⟩ := Option.map_eq_some'.1 h
  obtain ⟨cs, a, b3⟩ := single_busy_advance hasCS _ _ _ h3
  have a1 := steps_busyWait hasCS _ _ _ _ _ h1
  have a2 := steps_busyWait hasCS _ _ _ _ _ h2
  exact ⟨_, ((((steps_log s _).trans a1).trans a2).then (steps_dataReadBody hasCS _)).trans a,
    singleWait_append (singleWait_data _ trivial) b3⟩

/-- The function entries recorded by `glcdInit` with `BUSYCHECK`. -/
theorem steps_busy_init (hasCS : Bool) (fuel : Nat) (s r : State)
    (h : Busy.glcdInit hasCS fuel s = some r) :
    Steps s r [.init,
      .commandWrite RESET (CTRL1 + CTRL2),
      .busyWait STATUS_BUSY CTRL1, .busyWait STATUS_BUSY CTRL2,
      .busyWait STATUS_RESET (CTRL1 + CTRL2),
      .commandWrite DISPLAY_ON (CTRL1 + CTRL2),
      .busyWait STATUS_BUSY CTRL1, .busyWait STATUS_BUSY CTRL2,
      .commandWrite (DISPLAY_START_LINE ||| 0) (CTRL1 + CTRL2),
      .busyWait STATUS_BUSY CTRL1, .busyWait STATUS_BUSY CTRL2] := by
  simp only [Busy.glcdInit] at h
  obtain ⟨s1, h1, h⟩ := Option.bind_eq_some.1 h
  obtain ⟨s2, h2, h⟩ := Option.bind_eq_some.1 h
  obtain ⟨s3, h3, h⟩ := Option.bind_eq_some.1 h
  have a0 := (steps_log s .init).then (steps_initHW hasCS _)
  have a1 := steps_busy_commandWrite hasCS _ _ _ _ _ h1
  have a2 := steps_busyWait hasCS _ _ _ _ _ h2
  have a3 := steps_busy_commandWrite hasCS _ _ _ _ _ h3
  have a4 := steps_busy_commandWrite hasCS _ _ _ _ _ h
  exact (((a0.trans a1).trans a2).trans a3).trans a4

theorem commandWriteBody_obs (hasCS : Bool) (who : Ctrl) (b : Nat) (s : State)
    (hi : Idle hasCS s) (hb : b < 256) :
    obs (issued s (commandWriteBody hasCS b who.bit s)) =
      [Event.cycle ⟨who, false, false, b⟩] := by
  obtain ⟨hd, hc⟩ := hi
  have hb' : b % 256 = b := Nat.mod_eq_of_lt hb
  have hb2 : b &&& 255 = b := by
    have := and_255 b
    rwa [hb'] at this
  cases hasCS
  · simp only [Bool.false_eq_true, if_false] at hc
    obtain ⟨h4, h3⟩ := hc
    cases who <;>
    simp [obs, issued, testBit_masks, commandWriteBody, Ctrl.bit, ctlSet, ctlClr,
      writeControl, selected, busCycle, dataPortWrite, driven, hd, h4, h3, hb2]
  · simp only [if_true] at hc
    obtain ⟨h5, h4, h3⟩ := hc
    cases who <;>
    simp [obs, issued, testBit_masks, commandWriteBody, Ctrl.bit, ctlSet, ctlClr,
      writeControl, selected, busCycle, dataPortWrite, driven, hd, h5, h4, h3, hb2]

theorem busyWait_zero (hasCS : Bool) (fuel sb : Nat) (s : State) :
    Busy.glcdBusyWait hasCS fuel sb 0 s = some (s.log (.call (.busyWait (sb % 256) 0))) := by
  simp [Busy.glcdBusyWait]

/-- With `BUSYCHECK`, on an idle bus, a command write to one controller whose
status byte does not change: it returns exactly when there is fuel and that
controller's busy flag is clear, and then the bus has seen one status read and
one command write, both on that controller. -/
theorem busy_commandWrite_single (hasCS : Bool) (who : Ctrl) (fuel cmd : Nat) (s : State)
    (hi : Idle hasCS s) :
    (¬ (0 < fuel ∧ (s.ctrl who).status &&& STATUS_BUSY = 0) →
      Busy.glcdCommandWrite hasCS fuel cmd who.bit s = none) ∧
    (0 < fuel → (s.ctrl who).status &&& STATUS_BUSY = 0 →
      ∃ r, Busy.glcdCommandWrite hasCS fuel cmd who.bit s = some r ∧ Idle hasCS r ∧
        cycles (issued s r) = [⟨who, false, true, 0⟩, ⟨who, false, false, cmd % 256⟩]) := by
  have hi0 : Idle hasCS (s.log (.call (.commandWrite (cmd % 256) (who.bit % 256)))) := hi
  have hcm : cmd % 256 < 256 := Nat.mod_lt _ (by decide)
  cases who
  · have e1 : Ctrl.left.bit % 256 &&& CTRL1 = Ctrl.left.bit := rfl
    have e2 : Ctrl.left.bit % 256 &&& CTRL2 = 0 := rfl
    obtain ⟨n1, n2⟩ := busyWait_single hasCS .left fuel STATUS_BUSY _ hi0
    refine ⟨fun h => ?_, fun hf hz => ?_⟩
    · simp only [Busy.glcdCommandWrite, e1]
      rw [n1 h]
      rfl
    · obtain ⟨r1, w1, i1, _, _, _, st1, o1⟩ := n2 hf hz
      have i2 : Idle hasCS (r1.log (.call (.busyWait (STATUS_BUSY % 256) 0))) := i1
      refine ⟨commandWriteBody hasCS (cmd % 256) (Ctrl.left.bit % 256) (r1.log
        (.call (.busyWait (STATUS_BUSY % 256) 0))), ?_, (body_idle hasCS _ i2).1 _ _, ?_⟩
      · simp only [Busy.glcdCommandWrite, e1, e2]
        rw [w1]
        simp only [Option.some_bind, busyWait_zero]
      · have st0 := steps_log s (.commandWrite (cmd % 256) (Ctrl.left.bit % 256))
        have st2 := steps_log r1 (.busyWait (STATUS_BUSY % 256) 0)
        have st3 := steps_commandWriteBody hasCS (cmd % 256) (Ctrl.left.bit % 256)
          (r1.log (.call (.busyWait (STATUS_BUSY % 256) 0)))
        rw [issued_trans ((st0.trans st1).trans st2) st3,
          issued_trans (st0.trans st1) st2, issued_trans st0 st1]
        simp only [cycles_append]
        rw [← cycles_obs (issued _ r1), o1, ← cycles_obs (issued _ (commandWriteBody _ _ _ _)),
          show Ctrl.left.bit % 256 = Ctrl.left.bit from rfl,
          commandWriteBody_obs hasCS .left _ _ i2 hcm]
        simp [cycles, issued, State.log]
  · have e1 : Ctrl.right.bit % 256 &&& CTRL1 = 0 := rfl
    have e2 : Ctrl.right.bit % 256 &&& CTRL2 = Ctrl.right.bit := rfl
    have i1 : Idle hasCS ((s.log (.call (.commandWrite (cmd % 256) (Ctrl.right.bit % 256)))).log
      (.call (.busyWait (STATUS_BUSY % 256) 0))) := hi
    obtain ⟨n1, n2⟩ := busyWait_single hasCS .right fuel STATUS_BUSY _ i1
    refine ⟨fun h => ?_, fun hf hz => ?_⟩
    · simp only [Busy.glcdCommandWrite, e1, e2, busyWait_zero, Option.some_bind]
      rw [n1 h]
      rfl
    · obtain ⟨r1, w1, i2, _, _, _, st1, o1⟩ := n2 hf hz
      refine ⟨commandWriteBody hasCS (cmd % 256) (Ctrl.right.bit % 256) r1, ?_,
        (body_idle hasCS _ i2).1 _ _, ?_⟩
      · simp only [Busy.glcdCommandWrite, e1, e2, busyWait_zero, Option.some_bind]
        rw [w1]
        rfl
      · have st0 := steps_log s (.commandWrite (cmd % 256) (Ctrl.right.bit % 256))
        have st2 := steps_log (s.log (.call (.commandWrite (cmd % 256) (Ctrl.right.bit % 256))))
          (.busyWait (STATUS_BUSY % 256) 0)
        have st3 := steps_commandWriteBody hasCS (cmd % 256) (Ctrl.right.bit % 256) r1
        rw [issued_trans ((st0.trans st2).trans st1) st3,
          issued_trans (st0.trans st2) st1, issued_trans st0 st2]
        simp only [cycles_append]
        rw [← cycles_obs (issued _ r1), o1, ← cycles_obs (issued _ (commandWriteBody _ _ _ _)),
          show Ctrl.right.bit % 256 = Ctrl.right.bit from rfl,
          commandWriteBody_obs hasCS .right _ _ i2 hcm]
        simp [cycles, issued, State.log]

/-- C12: with busy check, `glcdBusyWait statusbit 0` returns at once, for every
status bit, from every state `s` and whatever the bound on the polls: the
control port, the data port, both data direction registers, the controllers
and the cursor are as before, and the only event recorded is the function
entry (no write to the control port, no bus cycle).  Consequently, on an idle
bus `t`, `glcdCommandWrite` to a single controller never polls the other one:
when it returns, the function entries are its own and two `glcdBusyWait`, the
one for the other controller with argument 0, and the bus has seen one status
read and the command write, both on the targeted controller.  It does return
when a poll is allowed and the targeted controller's busy flag is clear. -/
theorem C12_busyWait_zero (hasCS : Bool) (fuel sb cmd : Nat) (who : Ctrl) (s t : State)
    (ht : Idle hasCS t) :
    (∃ r, Busy.glcdBusyWait hasCS fuel sb 0 s = some r ∧
      r.control = s.control ∧ r.controlDDR = s.controlDDR ∧ r.dataPort = s.dataPort ∧
      r.dataDDR = s.dataDDR ∧ r.left = s.left ∧ r.right = s.right ∧ cursor r = cursor s ∧
      r.busIn = s.busIn ∧ issued s r = [Event.call (.busyWait (sb % 256) 0)]) ∧
    (∀ r, Busy.glcdCommandWrite hasCS fuel cmd who.bit t = some r →
      calls (issued t r) = [.commandWrite (cmd % 256) who.bit,
        .busyWait STATUS_BUSY (who.bit &&& CTRL1), .busyWait STATUS_BUSY (who.bit &&& CTRL2)] ∧
      (who.bit &&& who.other.bit = 0) ∧
      cycles (issued t r) = [⟨who, false, true, 0⟩, ⟨who, false, false, cmd % 256⟩] ∧
      ∀ c ∈ cycles (issued t r), c.ctrl = who) ∧
    (0 < fuel → (t.ctrl who).status &&& STATUS_BUSY = 0 →
      ∃ r, Busy.glcdCommandWrite hasCS fuel cmd who.bit t = some r) := by
  obtain ⟨n1, n2⟩ := busy_commandWrite_single hasCS who fuel cmd t ht
  refine ⟨⟨_, busyWait_zero hasCS fuel sb s, rfl, rfl, rfl, rfl, rfl, rfl, rfl, rfl, ?_⟩,
    fun r hr => ?_, fun hf hz => ?_⟩
  · simp [issued, State.log]
  · have hc : 0 < fuel ∧ (t.ctrl who).status &&& STATUS_BUSY = 0 := by
      by_contra hn
      rw [n1 hn] at hr
      cases hr
    obtain ⟨r2, w, _, cy⟩ := n2 hc.1 hc.2
    rw [w] at hr
    have e : r2 = r := Option.some.inj hr
    rw [← e]
    have hst := steps_busy_commandWrite hasCS fuel cmd who.bit t r2 w
    have hb : who.bit % 256 = who.bit := by cases who <;> rfl
    rw [hb] at hst
    refine ⟨steps_issued hst, by cases who <;> rfl, cy, ?_⟩
    intro c hc
    rw [cy] at hc
    simp only [List.mem_cons, List.mem_singleton, List.not_mem_nil, or_false] at hc
    rcases hc with rfl | rfl <;> rfl
  · obtain ⟨r2, w, _⟩ := n2 hf hz
    exact ⟨r2, w⟩

/-- Witness for C12: after `glcdInit` (without busy check) from power-up, the
left controller's status byte is 0; a command write to `CTRL1` with
`BUSYCHECK`, one poll allowed, returns. -/
theorem C12_busyWait_zero_witness :
    Idle true (afterInit true) ∧
    ∃ r, Busy.glcdCommandWrite true 1 0xAF Ctrl.left.bit (afterInit true) = some r ∧
      cycles (issued (afterInit true) r) =
        [⟨.left, false, true, 0⟩, ⟨.left, false, false, 0xAF % 256⟩] :=
  have hi : Idle true (afterInit true) := glcdInit_idle true powerOn
  have h := C12_busyWait_zero true 1 0 0xAF .left powerOn (afterInit true) hi
  have hz : ((afterInit true).ctrl .left).status &&& STATUS_BUSY = 0 := by
    have e : (afterInit true).left = (Abs.init (view powerOn)).left :=
      congrArg View.left (sim_init true powerOn (by simp [EnablesLow, powerOn])).2
    show (afterInit true).left.status &&& STATUS_BUSY = 0
    rw [e]
    simp [Abs.init, Abs.commandWrite, Abs.pulse, Controller.cycle, view, powerOn,
      Controller.blank]
  ⟨hi, (h.2.2 (by decide) hz).elim fun r hr => ⟨r, hr, (h.2.1 r hr).2.2.1⟩⟩

/-- One pass of the polling loop with both controllers named, on lines as
`glcdBusyWait` sets them.  With two enables only E1 is pulsed: the left
controller alone is read.  With chip selects both CS1 and CS2 go low and both
controllers take part in the one status read. -/
theorem poll_both (hasCS : Bool) (s : State) (hp : Polling hasCS s) :
    cycles (issued s (Busy.poll hasCS (CTRL1 + CTRL2) s).1) =
      if hasCS then [⟨.left, false, true, 0⟩, ⟨.right, false, true, 0⟩]
      else [⟨.left, false, true, 0⟩] := by
  obtain ⟨hr, h7, h6, hd⟩ := hp
  cases hasCS
  · simp only [Resting, Bool.false_eq_true, if_false] at hr
    obtain ⟨h4, h3⟩ := hr
    simp [Busy.poll, testBit_masks, ctlSet, ctlClr, writeControl,
      selected, busCycle, driven, issued, cycles, h7, h6, hd, h4, h3]
  · simp only [Resting, if_true] at hr
    obtain ⟨h5, h4, h3⟩ := hr
    simp [Busy.poll, testBit_masks, ctlSet, ctlClr, writeControl,
      selected, busCycle, driven, issued, cycles, h7, h6, hd, h5, h4, h3]

/-- C15 fails for `glcdInit`: with busy check, whenever `glcdInit` returns, its
`glcdBusyWait` calls are, in order, those of the three command writes (each
`STATUS_BUSY` with `CTRL1`, then with `CTRL2`) and, after the first, one
`glcdBusyWait STATUS_RESET (CTRL1 + CTRL2)`, whose controller argument has both
bits set.  A pass of the polling loop with that argument reads the left
controller only in the build with two enables, and both controllers in one
cycle in the build with chip selects.  The busy waits of `glcdCommandWrite`,
`glcdDataWrite` and `glcdDataRead` do name at most one controller each. -/
theorem C15_busyWait_arguments (hasCS : Bool) (fuel : Nat) (s r : State)
    (h : Busy.glcdInit hasCS fuel s = some r) :
    (calls (issued s r)).filter Call.isBusyWait =
      [.busyWait STATUS_BUSY CTRL1, .busyWait STATUS_BUSY CTRL2,
        .busyWait STATUS_RESET (CTRL1 + CTRL2),
        .busyWait STATUS_BUSY CTRL1, .busyWait STATUS_BUSY CTRL2,
        .busyWait STATUS_BUSY CTRL1, .busyWait STATUS_BUSY CTRL2] ∧
    Call.busyWait STATUS_RESET (CTRL1 + CTRL2) ∈ calls (issued s r) ∧
    ¬ oneController (CTRL1 + CTRL2) ∧
    (∀ t, Polling hasCS t → cycles (issued t (Busy.poll hasCS (CTRL1 + CTRL2) t).1) =
      if hasCS then [⟨.left, false, true, 0⟩, ⟨.right, false, true, 0⟩]
      else [⟨.left, false, true, 0⟩]) ∧
    (∀ c t q, Busy.glcdCommandWrite hasCS fuel c t s = some q →
      ∀ k ∈ calls (issued s q), k.singleWait) ∧
    (∀ b q, Busy.glcdDataWrite hasCS fuel b s = some q →
      ∀ k ∈ calls (issued s q), k.singleWait) ∧
    (∀ q, Busy.glcdDataRead hasCS fuel s = some q →
      ∀ k ∈ calls (issued s q.1), k.singleWait) := by
  have hst := steps_busy_init hasCS fuel s r h
  rw [steps_issued hst]
  refine ⟨by decide, by decide, by unfold oneController; decide, poll_both hasCS, ?_, ?_, ?_⟩
  · intro c t q hq
    obtain ⟨cs, a, b⟩ := single_busy_commandWrite hasCS fuel c t s q hq
    rw [steps_issued a]
    exact b
  · intro b q hq
    obtain ⟨cs, a, b⟩ := single_busy_dataWrite hasCS fuel b s q hq
    rw [steps_issued a]
    exact b
  · intro q hq
    obtain ⟨cs, a, b⟩ := single_busy_dataRead hasCS fuel s q hq
    rw [steps_issued a]
    exact b

/-- With `BUSYCHECK`, from power-up and with one poll allowed per wait,
`glcdInit` returns: both status bytes are 0. -/
theorem busy_init_powerOn (hasCS : Bool) : (Busy.glcdInit hasCS 1 powerOn).isSome = true := by
  cases hasCS <;> decide

/-- Witness for C15: `glcdInit` with `BUSYCHECK` from power-up, build with two
enables, one poll allowed per wait. -/
theorem C15_busyWait_arguments_witness :
    ∃ r, Busy.glcdInit false 1 powerOn = some r ∧
      Call.busyWait STATUS_RESET (CTRL1 + CTRL2) ∈ calls (issued powerOn r) :=
  ⟨(Busy.glcdInit false 1 powerOn).get (busy_init_powerOn false), by simp,
    (C15_busyWait_arguments false 1 powerOn _ (by simp)).2.1⟩

/-- C18: the bus is idle whenever the driver returns.  `Idle` is: data
direction register `0xFF`, and E1, E2 low with two enables, E low with CS1 and
CS2 high with chip selects.  Without busy check: `glcdInit` from every state
`s` whatsoever leaves the bus idle, and so does every sequence of public calls
that begins with `glcdInit`; from an idle state `t`, each of
`glcdCommandWrite`, `glcdSetAddress`, `glcdDataWrite`, `glcdDataRead` and
`glcdClearScreen` leaves it idle.  With busy check the same holds whenever the
function returns: for `glcdInit` from every state, and from an idle state for
every public call and for `glcdBusyWait` with any arguments.  `glcdBusyWait` on
one controller does return when a poll is allowed and the status bit is
clear. -/
theorem C18_idle_bus (hasCS : Bool) (s t : State) (ht : Idle hasCS t) :
    Idle hasCS (glcdInit hasCS s) ∧
    (∀ ops, Idle hasCS (runOps hasCS (.init :: ops) s)) ∧
    (∀ cmd ctl, Idle hasCS (glcdCommandWrite hasCS cmd ctl t)) ∧
    (∀ x p, Idle hasCS (glcdSetAddress hasCS x p t)) ∧
    (∀ b, Idle hasCS (glcdDataWrite hasCS b t)) ∧
    Idle hasCS (glcdDataRead hasCS t).1 ∧
    Idle hasCS (glcdClearScreen hasCS t) ∧
    (∀ fuel r, Busy.glcdInit hasCS fuel s = some r → Idle hasCS r) ∧
    (∀ fuel o r, Busy.run hasCS fuel o t = some r → Idle hasCS r) ∧
    (∀ fuel statusbit controller r,
      Busy.glcdBusyWait hasCS fuel statusbit controller t = some r → Idle hasCS r) ∧
    (∀ fuel statusbit who, 0 < fuel → (t.ctrl who).status &&& (statusbit % 256) = 0 →
      ∃ r, Busy.glcdBusyWait hasCS fuel statusbit who.bit t = some r ∧ Idle hasCS r) := by
  obtain ⟨a, b, c, d, e⟩ := idle_preserved hasCS t ht
  refine ⟨glcdInit_idle hasCS s, fun ops => runOps_idle hasCS ops _ (glcdInit_idle hasCS s),
    a, b, c, d, e, fun fuel r h => busy_init_idle hasCS fuel s r h,
    fun fuel o r h => busy_run_idle hasCS fuel o t r ht h,
    fun fuel sb k r h => busyWait_idle hasCS fuel sb k t r ht h, ?_⟩
  intro fuel sb who hf hz
  obtain ⟨r, w, i, _⟩ := (busyWait_single hasCS who fuel sb t ht).2 hf hz
  exact ⟨r, w, i⟩

/-- Witness for C18: the state after `glcdInit` from power-up is idle; so is the
state after a `glcdDataWrite`, and the state after a `glcdDataWrite` with
`BUSYCHECK`, one poll allowed per wait. -/
theorem C18_idle_bus_witness :
    Idle true (afterInit true) ∧
    Idle true (glcdDataWrite true 0x55 (afterInit true)) ∧
    ∃ r, Busy.run true 1 (.dataWrite 0x55) (afterInit true) = some r ∧ Idle true r :=
  have hi : Idle true (afterInit true) := glcdInit_idle true powerOn
  have h := C18_idle_bus true powerOn (afterInit true) hi
  have hs : (Busy.run true 1 (.dataWrite 0x55) (afterInit true)).isSome = true := by decide
  ⟨hi, h.2.2.2.2.1 0x55,
    (Busy.run true 1 (.dataWrite 0x55) (afterInit true)).get hs, by simp,
    h.2.2.2.2.2.2.2.2.1 1 (.dataWrite 0x55) _ (by simp)⟩

end GLCD
